import Mathlib

/-!
# Distributed task framework: dispatcher and manager

The repository's sources contain the test file of package `dispatcher`
(`disttask/framework/dispatcher/dispatcher_test.go`) and the step constants of
IMPORT INTO (`disttask/importinto/proto.go`).  The dispatcher package itself and
package `proto` are not among the sources; what is needed of them is modelled
from the specification and marked as such.  The two test extensions are embedded
from the test file.
-/

namespace Disttask

/-! ## Data model -/

/-- Modelled from the spec: the task states of package `proto` (not among the sources), in
the order of section 4.6; the test file names them `proto.TaskStatePending`,
`proto.TaskStateRunning`, ... -/
inductive TaskState
  | Pending | Running | Pausing | Paused | Resuming | Cancelling | Canceled
  | Reverting | Reverted | Succeed | Failed
  deriving DecidableEq, Repr

/-- Modelled from the spec: the subtask states of package `proto` (section 4.6, subtask
variant). -/
inductive SubtaskState
  | Pending | Running | Succeed | Failed | Canceled | Reverted
  deriving DecidableEq, Repr

/-- Modelled from the spec: the terminal task states, `Succeed, Failed, Reverted, Canceled`
(section 4.6). -/
def TaskState.isTerminal : TaskState → Bool
  | .Succeed => true
  | .Failed => true
  | .Reverted => true
  | .Canceled => true
  | _ => false

/-- Modelled from the spec: the terminal subtask states, `Succeed, Failed, Canceled,
Reverted` (section 4.6). -/
def SubtaskState.isTerminal : SubtaskState → Bool
  | .Succeed => true
  | .Failed => true
  | .Canceled => true
  | .Reverted => true
  | _ => false

/-- Modelled from the spec: the rule set of `VerifyTaskStateTransform`, which lives in
package `dispatcher` (not among the sources).  Section 4.6 lists the validated
transitions and says that all others must be rejected; these are the rows marked
"yes". -/
def allowedTransitions : List (TaskState × TaskState) :=
  [ (.Running, .Running),
    (.Pending, .Running),
    (.Running, .Reverting),
    (.Reverting, .Reverted),
    (.Running, .Pausing) ]

/-- Modelled from the spec: `dispatcher.VerifyTaskStateTransform(from, to)`, missing from
the sources: a transition is accepted exactly when the rule set allows it. -/
def VerifyTaskStateTransform (oldState newState : TaskState) : Bool :=
  decide ((oldState, newState) ∈ allowedTransitions)

/-- The table of `TestVerifyTaskStateTransform` (dispatcher_test.go, lines 441-450):
`oldState`, `newState`, `expect`. -/
def testCases : List (TaskState × TaskState × Bool) :=
  [ (.Running, .Running, true),
    (.Pending, .Running, true),
    (.Pending, .Reverting, false),
    (.Running, .Reverting, true),
    (.Reverting, .Reverted, true),
    (.Reverting, .Succeed, false),
    (.Running, .Pausing, true),
    (.Running, .Resuming, false),
    (.Cancelling, .Running, false),
    (.Canceled, .Running, false) ]

/-- Modelled from the spec: the task row `proto.Task` (section 3; the type is not among
the sources, the test file uses its fields).  `TaskType` is the field `Type`, `Meta` an
opaque byte payload, `Error` the failure detail (`none` is nil). -/
structure Task where
  ID : Int
  TaskType : String
  State : TaskState
  Step : Int
  Concurrency : Int
  Meta : List Nat
  Error : Option String
  deriving DecidableEq, Repr

/-- Modelled from the spec: the subtask row `proto.Subtask` (section 3; the type is not
among the sources).  An empty `SchedulerID` means that no node has been assigned. -/
structure Subtask where
  ID : Int
  TaskID : Int
  Step : Int
  TaskType : String
  State : SubtaskState
  SchedulerID : String
  Meta : List Nat
  Error : Option String
  deriving DecidableEq, Repr

/-- Modelled from the spec: the durable storage behind `storage.TaskManager` (not among
the sources): the task table and the subtask table, in insertion order. -/
structure Storage where
  tasks : List Task
  subtasks : List Subtask
  deriving DecidableEq, Repr

/-- The initial step: "the initial step is StepInit(-1)" (importinto/proto.go, line 32). -/
def StepInit : Int := -1

/-- Step constants of package `proto` whose values the sources do not give: the step
`StepOne` used by the test extension, the sentinel `StepDone`, and the distinguished
step at which revert subtasks are emitted. -/
structure StepConsts where
  StepOne : Int
  StepDone : Int
  StepRevert : Int
  deriving DecidableEq, Repr

/-- The interface `dispatcher.Extension`, with the operations the two test extensions
implement (dispatcher_test.go, lines 49-117).  `OnTick` has no effect and no result, and the task handle argument is
discarded by both test extensions, so neither is represented.  A nil slice is the
empty list, a nil error is `Except.ok`, a nil revert meta is `none`. -/
structure Extension where
  OnNextSubtasksBatch : Task → Int → Except String (List (List Nat))
  OnErrStage : Task → List (Option String) → Except String (Option (List Nat))
  GetEligibleInstances : Task → Except String (List String)
  IsRetryableErr : Option String → Bool
  GetNextStep : Task → Int

/-! ## Storage operations (specification, section 6) -/

/-- Modelled from the spec: the storage query `GetGlobalTaskByID` (section 6). -/
def GetGlobalTaskByID (s : Storage) (id : Int) : Option Task :=
  s.tasks.find? (fun t => decide (t.ID = id))

/-- Modelled from the spec: the storage query `GetGlobalTasksInStates` (section 6). -/
def GetGlobalTasksInStates (s : Storage) (states : List TaskState) : List Task :=
  s.tasks.filter (fun t => decide (t.State ∈ states))

/-- Modelled from the spec: the storage write `AddNewSubTask` (section 6): one more subtask
row, in state `Pending`; the identifier is the next row number (the test file relies on
the subtasks being numbered from 1). -/
def AddNewSubTask (s : Storage) (taskID step : Int) (schedulerID : String)
    (meta : List Nat) (tp : String) : Storage :=
  { s with subtasks := s.subtasks ++
      [{ ID := (s.subtasks.length : Int) + 1, TaskID := taskID, Step := step, TaskType := tp,
         State := .Pending, SchedulerID := schedulerID, Meta := meta, Error := none }] }

/-- Modelled from the spec: the storage write `UpdateSubtaskStateAndError` (section 6),
called by the executing side. -/
def UpdateSubtaskStateAndError (s : Storage) (subtaskID : Int) (st : SubtaskState)
    (err : Option String) : Storage :=
  let upd : Subtask → Subtask :=
    fun x => if x.ID = subtaskID then { x with State := st, Error := err } else x
  { s with subtasks := s.subtasks.map upd }

/-- Modelled from the spec: the storage query `GetSubtaskInStatesCnt` (section 6). -/
def GetSubtaskInStatesCnt (s : Storage) (taskID : Int) (states : List SubtaskState) : Nat :=
  (s.subtasks.filter (fun x => decide (x.TaskID = taskID ∧ x.State ∈ states))).length

/-- Modelled from the spec: the write of a task row by the Dispatcher that owns the task:
the row with the identifier of `t` becomes `t`. -/
def updateTask (s : Storage) (t : Task) : Storage :=
  let upd : Task → Task := fun x => if x.ID = t.ID then t else x
  { s with tasks := s.tasks.map upd }

/-! ## Node selection (specification, section 4.5) -/

/-- Modelled from the spec: `Dispatcher.GetAllSchedulerIDs`, missing from the sources:
it "collects the SchedulerID field across all of a task's persisted subtasks,
de-duplicates, and returns the distinct set".  The extension is the one the dispatcher
holds; the description makes no use of it. -/
def GetAllSchedulerIDs (_ext : Extension) (s : Storage) (task : Task) :
    Except String (List String) :=
  .ok ((s.subtasks.filter (fun x => decide (x.TaskID = task.ID))).map
    (fun x => x.SchedulerID)).dedup

/-! ## Manager (specification, section 4.1) -/

/-- Modelled from the spec: a constructed `Dispatcher` as far as the Manager uses it: the
result of `Init()` (`none` is a nil error, `some e` an error with text `e`) and the
extension it holds.  The interface is in package `dispatcher`, not among the sources. -/
structure Dispatcher where
  Init : Option String
  Extension : Extension

/-- A dispatcher factory: the function type passed to `RegisterDispatcherFactory` in the
test file (context, task manager and server identifier are not represented). -/
abbrev DispatcherFactory := Task → Dispatcher

/-- The dispatcher factory registry: task type and constructor, latest registration
first. -/
abbrev Registry := List (String × DispatcherFactory)

/-- Modelled from the spec: `RegisterDispatcherFactory(type, factory)` "registers a
constructor; last registration for a given type wins". -/
def RegisterDispatcherFactory (reg : Registry) (tp : String) (f : DispatcherFactory) :
    Registry :=
  (tp, f) :: reg

/-- Modelled from the spec: the lookup of a task type in the registry ("resolves its
factory by Type"). -/
def getDispatcherFactory (reg : Registry) (tp : String) : Option DispatcherFactory :=
  (reg.find? (fun e => decide (e.1 = tp))).map (fun e => e.2)

/-- Modelled from the spec: the in-memory state of the `Manager`: the tracked-running
set (task identifiers, in the order they were added) and, for stating what the Manager
does not do, the identifiers of the tasks for which a Dispatcher was constructed. -/
structure Manager where
  runningTasks : List Int
  constructed : List Int
  deriving DecidableEq, Repr

/-- Modelled from the spec: `GetRunningTaskCnt()` "returns the size of the
tracked-running set". -/
def GetRunningTaskCnt (m : Manager) : Nat :=
  m.runningTasks.length

/-- Modelled from the spec: `DelRunningTask(id)` "force-removes a task from the
tracked-running set without touching persisted state". -/
def DelRunningTask (m : Manager) (id : Int) : Manager :=
  { m with runningTasks := m.runningTasks.filter (fun x => decide (x ≠ id)) }

/-- Modelled from the spec: the write by which the Manager marks the task `id` as `Failed`
with the error text `e` (section 4.1). -/
def markTaskFailed (s : Storage) (id : Int) (e : String) : Storage :=
  let upd : Task → Task :=
    fun t => if t.ID = id then { t with State := .Failed, Error := some e } else t
  { s with tasks := s.tasks.map upd }

/-- Modelled from the spec: what the dispatch loop does for one startable task (section
4.1): a tracked task is skipped; without a registered factory the task is marked `Failed`
with the error "unknown task type: <type>" and no Dispatcher is constructed; otherwise
the Dispatcher is constructed and `Init()` called, and the task is marked `Failed` with
the init error, or added to the tracked-running set. -/
def startDispatcher (reg : Registry) (ms : Manager × Storage) (task : Task) :
    Manager × Storage :=
  if task.ID ∈ ms.1.runningTasks then ms
  else
    match getDispatcherFactory reg task.TaskType with
    | none => (ms.1, markTaskFailed ms.2 task.ID ("unknown task type: " ++ task.TaskType))
    | some f =>
      let m1 : Manager := { ms.1 with constructed := ms.1.constructed ++ [task.ID] }
      match (f task).Init with
      | some e => (m1, markTaskFailed ms.2 task.ID e)
      | none => ({ m1 with runningTasks := m1.runningTasks ++ [task.ID] }, ms.2)

/-- Modelled from the spec: one tick of the Manager's dispatch loop (section 4.1): "if the
number of currently-tracked running tasks is below DefaultDispatchConcurrency, queries
Storage for tasks in a startable state (Pending or newly Running), and for each such
task not already tracked" starts it.  The capacity is tested once, before the query, as
the sentence is written.  `DefaultDispatchConcurrency` is a package variable (the test
assigns it), so it is an argument. -/
def dispatchTaskLoop (DefaultDispatchConcurrency : Nat) (reg : Registry)
    (m : Manager) (s : Storage) : Manager × Storage :=
  if GetRunningTaskCnt m < DefaultDispatchConcurrency then
    (GetGlobalTasksInStates s [.Pending, .Running]).foldl (startDispatcher reg) (m, s)
  else (m, s)

/-- Modelled from the spec: one tick of the Manager's detection loop (section 4.1): the
tracked tasks that have reached a terminal state are removed from the tracked-running
set. -/
def detectTaskLoop (m : Manager) (s : Storage) : Manager :=
  { m with runningTasks := m.runningTasks.filter (fun id =>
      match GetGlobalTaskByID s id with
      | some t => !t.State.isTerminal
      | none => true) }

/-! ## Dispatcher (specification, sections 4.2 and 4.5) -/

/-- Modelled from the spec: the storage write `CancelGlobalTask(id)`, which "requests
Cancelling" (section 6): the task is set to `Cancelling` when it is `Pending` or
`Running`. -/
def CancelGlobalTask (s : Storage) (id : Int) : Storage :=
  let upd : Task → Task := fun t =>
    if t.ID = id ∧ (t.State = .Pending ∨ t.State = .Running) then
      { t with State := .Cancelling }
    else t
  { s with tasks := s.tasks.map upd }

/-- Modelled from the spec: the subtasks of the task's current step, the batch sharing
`(TaskID, Step)` (section 3). -/
def currentBatch (s : Storage) (t : Task) : List Subtask :=
  s.subtasks.filter (fun x => decide (x.TaskID = t.ID ∧ x.Step = t.Step))

/-- Modelled from the spec: the revert batch, the subtasks of the task at the
distinguished revert step (section 4.2, step 3). -/
def revertBatch (c : StepConsts) (s : Storage) (t : Task) : List Subtask :=
  s.subtasks.filter (fun x => decide (x.TaskID = t.ID ∧ x.Step = c.StepRevert))

/-- Modelled from the spec: the default placement policy (section 4.5): with eligible
nodes the subtasks are distributed round-robin across them (subtask number `i` goes to
node `i mod n`); with none the `SchedulerID` is left empty. -/
def placeSubtask (nodes : List String) (i : Nat) : String :=
  if nodes.isEmpty then "" else nodes.getD (i % nodes.length) ""

/-- Modelled from the spec: the write of the subtasks of one batch, numbered from `i`, one
row for each meta (section 4.2). -/
def emitBatchFrom (taskID step : Int) (tp : String) (nodes : List String) :
    Nat → List (List Nat) → Storage → Storage
  | _, [], s => s
  | i, m :: ms, s =>
    emitBatchFrom taskID step tp nodes (i + 1) ms
      (AddNewSubTask s taskID step (placeSubtask nodes i) m tp)

/-- Modelled from the spec: the emission of a subtask batch for task `t` at `step`: one
subtask for each meta, each with a `SchedulerID` assigned at creation. -/
def emitBatch (s : Storage) (t : Task) (step : Int) (nodes : List String)
    (metas : List (List Nat)) : Storage :=
  emitBatchFrom t.ID step t.TaskType nodes 0 metas s

/-- Modelled from the spec: the revert path of the Dispatcher (section 4.2, step 3):
"transition the task to Reverting, call Extension.OnErrStage with the accumulated
subtask errors to obtain revert-step metadata, emit a new subtask batch at a
distinguished revert step".  The meta is that of the single revert subtask; a nil meta
declines reverting, and then (as when a call of the extension fails) no subtask is
emitted. -/
def startRevert (c : StepConsts) (ext : Extension) (s : Storage) (t : Task)
    (errs : List (Option String)) : Storage :=
  let t1 : Task := { t with State := .Reverting }
  let s1 := updateTask s t1
  match ext.OnErrStage t1 errs with
  | .ok (some m) =>
    match ext.GetEligibleInstances t1 with
    | .ok nodes => emitBatch s1 t1 c.StepRevert nodes [m]
    | .error _ => s1
  | _ => s1

/-- Modelled from the spec: the step sequencing of the Dispatcher (section 4.2, steps 5
and 6), entered once every subtask of the current step is `Succeed`: "call
Extension.GetNextStep.  If it returns the sentinel Done step, transition the task to
Succeed.  Otherwise advance Step to the returned value, call
Extension.OnNextSubtasksBatch for the new step, and emit the resulting metas as a new
subtask batch"; an empty batch is a step without work after which `GetNextStep` is
evaluated again; an error of `OnNextSubtasksBatch` goes to the revert path with the
task error set from it.  The first argument bounds the number of consecutive steps
without work; `none` means that the bound was reached. -/
def onNextStage (c : StepConsts) (ext : Extension) :
    Nat → Storage → Task → Option Storage
  | 0, _, _ => none
  | fuel + 1, s, t =>
    let next := ext.GetNextStep t
    if next = c.StepDone then some (updateTask s { t with State := .Succeed })
    else
      let t1 : Task := { t with Step := next }
      match ext.OnNextSubtasksBatch t1 next with
      | .error e => some (startRevert c ext s { t1 with Error := some e } [some e])
      | .ok [] => onNextStage c ext fuel s t1
      | .ok (m :: ms) =>
        match ext.GetEligibleInstances t1 with
        | .ok nodes =>
          some (emitBatch (updateTask s { t1 with State := .Running })
            { t1 with State := .Running } next nodes (m :: ms))
        | .error _ => some s

/-- Modelled from the spec: the subtasks of a batch that trigger a revert (section 4.2,
step 3): those in state `Failed` or `Canceled` whose error is not retryable according to
`Extension.IsRetryableErr`. -/
def failedSubtasks (ext : Extension) (batch : List Subtask) : List Subtask :=
  batch.filter (fun x =>
    (decide (x.State = .Failed) || decide (x.State = .Canceled)) && !ext.IsRetryableErr x.Error)

/-- Modelled from the spec: the error recorded on the task row when subtasks fail (section
7), taken to be the first error that is not nil, if there is one. -/
def firstError : List (Option String) → Option String
  | [] => none
  | some e :: _ => some e
  | none :: es => firstError es

/-- Modelled from the spec: one tick of the Dispatcher's drive loop for the task with
identifier `taskID` (section 4.2).  The task is loaded (step 1); `OnTick` has no effect
(step 2).  A `Cancelling` task, and a `Running` task whose current batch has a `Failed`
or `Canceled` subtask with an error that is not retryable, enters the revert path (step
3).  A `Reverting` task becomes `Reverted` once the revert batch exists and all its
subtasks are `Reverted`, and stays `Reverting` otherwise (step 4).  A `Running` task
all of whose current subtasks are `Succeed` goes on to the next step (step 5).  For a
`Pending` task the section gives no rule; the test file (lines 316-326) shows that a
submitted task becomes `Running` with the batch the extension produces for its current
step, which is what is done here.  A task in a terminal state is no longer driven, and
for `Pausing`, `Paused` and `Resuming` the section gives no rule: nothing is written.
The first argument after the extension is the bound of `onNextStage`. -/
def dispatcherTick (c : StepConsts) (ext : Extension) (fuel : Nat) (s : Storage)
    (taskID : Int) : Option Storage :=
  match GetGlobalTaskByID s taskID with
  | none => some s
  | some t =>
    match t.State with
    | .Cancelling => some (startRevert c ext s t [])
    | .Reverting =>
      let rb := revertBatch c s t
      if !rb.isEmpty && rb.all (fun x => decide (x.State = .Reverted)) then
        some (updateTask s { t with State := .Reverted })
      else some s
    | .Running =>
      let cb := currentBatch s t
      let failed := failedSubtasks ext cb
      if !failed.isEmpty then
        let errs := failed.map (fun x => x.Error)
        some (startRevert c ext s
          { t with Error := (firstError errs).orElse (fun _ => t.Error) } errs)
      else if cb.all (fun x => decide (x.State = .Succeed)) then onNextStage c ext fuel s t
      else some s
    | .Pending =>
      let t1 : Task := { t with State := .Running }
      match ext.OnNextSubtasksBatch t1 t1.Step with
      | .error e => some (startRevert c ext s { t1 with Error := some e } [some e])
      | .ok [] => onNextStage c ext fuel s t1
      | .ok (m :: ms) =>
        match ext.GetEligibleInstances t1 with
        | .ok nodes => some (emitBatch (updateTask s t1) t1 t1.Step nodes (m :: ms))
        | .error _ => some s
    | _ => some s

/-! ## The test extensions (dispatcher_test.go) -/

/-- The extension `testDispatcherExt` (lines 49-74); `mockedAllServerInfos` is the
package variable the test assigns. -/
def testDispatcherExt (c : StepConsts) (mockedAllServerInfos : List String) : Extension where
  OnNextSubtasksBatch := fun _ _ => .ok []
  OnErrStage := fun _ _ => .ok none
  GetEligibleInstances := fun _ => .ok mockedAllServerInfos
  IsRetryableErr := fun _ => true
  GetNextStep := fun _ => c.StepDone

/-- The constant `subtaskCnt` of the test file. -/
def subtaskCnt : Nat := 3

/-- The extension `numberExampleDispatcherExt` (lines 76-117).  `nodes` stands for the
result of `dispatcher.GenerateSchedulerNodes`, which is not among the sources. -/
def numberExampleDispatcherExt (c : StepConsts) (nodes : Except String (List String)) :
    Extension where
  OnNextSubtasksBatch := fun task _ =>
    if task.Step = StepInit then .ok (List.replicate subtaskCnt [49])
    else if task.Step = c.StepOne then .ok []
    else .error "unknown step"
  OnErrStage := fun _ _ => .ok none
  GetEligibleInstances := fun _ => nodes
  IsRetryableErr := fun _ => true
  GetNextStep := fun task => if task.Step = StepInit then c.StepOne else c.StepDone

/-! ## Data of the test `TestTaskFailInManager` and auxiliary predicates -/

/-- What the dispatch loop leaves alone for the task `id` while it handles another task. -/
def Untouched (id : Int) (k : Nat) (x : Option Task) (ms : Manager × Storage) : Prop :=
  ms.1.constructed.count id = k ∧ id ∉ ms.1.runningTasks ∧ GetGlobalTaskByID ms.2 id = x

/-- The type of the example task in the test file (`proto.TaskTypeExample`; the sources do
not give its value). -/
def TaskTypeExample : String := "Example"

/-- The mock dispatcher of `TestTaskFailInManager`, whose `Init` returns an error. -/
def mockDispatcher (c : StepConsts) : Dispatcher :=
  { Init := some "mock dispatcher init error", Extension := testDispatcherExt c [] }

/-- The registry of `TestTaskFailInManager`: the factory of `MockDispatcherManager`, then
the factory that returns the mock dispatcher, both for `proto.TaskTypeExample`. -/
def failRegistry (c : StepConsts) : Registry :=
  RegisterDispatcherFactory
    (RegisterDispatcherFactory [] TaskTypeExample
      (fun _ => { Init := none, Extension := testDispatcherExt c [] }))
    TaskTypeExample (fun _ => mockDispatcher c)

/-- The storage of `TestTaskFailInManager` after both tasks were added: a task of the
unregistered type "test-type" and a task of the example type. -/
def failStorage : Storage :=
  { tasks :=
      [ { ID := 1, TaskType := "test-type", State := .Pending, Step := StepInit,
          Concurrency := 1, Meta := [], Error := none },
        { ID := 2, TaskType := TaskTypeExample, State := .Pending, Step := StepInit,
          Concurrency := 1, Meta := [], Error := none } ],
    subtasks := [] }

/-! ## Events, traces and the data of `checkDispatch` -/

/-- An extension like `numberExampleDispatcherExt`, except that every error is classified
as not retryable and that `OnErrStage` supplies a meta for the revert subtask. -/
def revertingExampleExt (c : StepConsts) (nodes : Except String (List String)) : Extension :=
  { numberExampleDispatcherExt c nodes with
    OnErrStage := fun _ _ => .ok (some [50])
    IsRetryableErr := fun _ => false }

/-- What happens to the storage between two observations of a task: a tick of the drive
loop of the Dispatcher that owns the task `taskID`, an update of a subtask by the
executing side, or an external cancel request. -/
inductive Event
  | tick (taskID : Int)
  | update (subtaskID : Int) (st : SubtaskState) (err : Option String)
  | cancel (taskID : Int)
  deriving DecidableEq, Repr

/-- The effect of one event; `none` when the bound of `onNextStage` was reached. -/
def applyEvent (c : StepConsts) (ext : Extension) (fuel : Nat) (s : Storage) :
    Event → Option Storage
  | .tick taskID => dispatcherTick c ext fuel s taskID
  | .update subtaskID st err => some (UpdateSubtaskStateAndError s subtaskID st err)
  | .cancel taskID => some (CancelGlobalTask s taskID)

/-- The state of the task `id` as a reader of the storage sees it. -/
def taskStateOf (s : Storage) (id : Int) : Option TaskState :=
  (GetGlobalTaskByID s id).map (fun t => t.State)

/-- The sequence of states of the task `id`: the state before the first event and after
each event. -/
def taskStateTrace (c : StepConsts) (ext : Extension) (fuel : Nat) (id : Int) :
    Storage → List Event → List (Option TaskState)
  | s, [] => [taskStateOf s id]
  | s, e :: es =>
    taskStateOf s id ::
      (match applyEvent c ext fuel s e with
       | none => []
       | some s2 => taskStateTrace c ext fuel id s2 es)

/-- Reads `Canceled` as `Failed`. -/
def normState : SubtaskState → SubtaskState
  | .Canceled => .Failed
  | x => x

/-- The subtask with `Canceled` read as `Failed`. -/
def normSubtask (x : Subtask) : Subtask :=
  { x with State := normState x.State }

/-- The storage with `Canceled` read as `Failed` in every subtask. -/
def normStorage (s : Storage) : Storage :=
  { s with subtasks := s.subtasks.map normSubtask }

/-- The storage of `checkDispatch` with one task, once the three subtasks of `StepInit`
have been emitted. -/
def runningStorage : Storage :=
  { tasks := [{ ID := 1, TaskType := TaskTypeExample, State := .Running, Step := StepInit,
                Concurrency := 0, Meta := [], Error := none }],
    subtasks :=
      [ { ID := 1, TaskID := 1, Step := StepInit, TaskType := TaskTypeExample, State := .Pending,
          SchedulerID := ":4000", Meta := [49], Error := none },
        { ID := 2, TaskID := 1, Step := StepInit, TaskType := TaskTypeExample, State := .Pending,
          SchedulerID := ":4000", Meta := [49], Error := none },
        { ID := 3, TaskID := 1, Step := StepInit, TaskType := TaskTypeExample, State := .Pending,
          SchedulerID := ":4000", Meta := [49], Error := none } ] }

/-- A choice of the step constants for the examples: `StepOne = 1`, `StepDone = -2`, and
`-3` for the revert step. -/
def exampleSteps : StepConsts :=
  { StepOne := 1, StepDone := -2, StepRevert := -3 }

/-- The storage of `checkDispatch` (one task) after the loop that marks the three subtasks
`Succeed` (lines 352-355). -/
def happyStorage : Storage :=
  UpdateSubtaskStateAndError
    (UpdateSubtaskStateAndError
      (UpdateSubtaskStateAndError runningStorage 1 .Succeed none) 2 .Succeed none)
    3 .Succeed none

/-- The node identifiers `serverIDs` of `TestGetInstance` (line 161). -/
def serverIDs : List String :=
  ["10.123.124.10:32457", "[ABCD:EF01:2345:6789:ABCD:EF01:2345:6789]:65535"]

/-- The task of `TestGetInstance` (line 150). -/
def instanceTask : Task :=
  { ID := 1, TaskType := TaskTypeExample, State := .Pending, Step := StepInit,
    Concurrency := 0, Meta := [], Error := none }

/-- The storage of `checkDispatch` with one task, right after `AddNewGlobalTask` (line
319): the task is `Pending` at `StepInit` and has no subtask. -/
def submittedStorage : Storage :=
  { tasks := [{ ID := 1, TaskType := TaskTypeExample, State := .Pending, Step := StepInit,
                Concurrency := 0, Meta := [], Error := none }],
    subtasks := [] }

/-! ## Steps of IMPORT INTO (disttask/importinto/proto.go) -/

/-- The step `StepImport` of IMPORT INTO (importinto/proto.go, line 38). -/
def StepImport : Int := 1

/-- The step `StepPostProcess` of IMPORT INTO (importinto/proto.go, line 40). -/
def StepPostProcess : Int := 2

/-- The step `StepEncodeAndSort` of IMPORT INTO (importinto/proto.go, line 42). -/
def StepEncodeAndSort : Int := 3

/-- The step `StepWriteAndIngest` of IMPORT INTO (importinto/proto.go, line 44). -/
def StepWriteAndIngest : Int := 4

/-- The order in which the steps are processed with local sort (importinto/proto.go, line
34): `StepInit -> StepImport -> StepPostProcess -> StepDone`.  The value of `StepDone`
(package `proto`) is not among the sources, so it is an argument. -/
def localSortSteps (stepDone : Int) : List Int :=
  [StepInit, StepImport, StepPostProcess, stepDone]

/-- The order in which the steps are processed with global sort (importinto/proto.go, line
35): `StepInit -> StepEncodeAndSort -> StepWriteAndIngest -> StepPostProcess -> StepDone`. -/
def globalSortSteps (stepDone : Int) : List Int :=
  [StepInit, StepEncodeAndSort, StepWriteAndIngest, StepPostProcess, stepDone]

/-- Whether every step value of the list is greater than the one before it. -/
def stepsIncrease : List Int → Bool
  | a :: b :: rest => decide (a < b) && stepsIncrease (b :: rest)
  | _ => true

end Disttask

namespace StatsHandle

/-! # Statistics handle (statistics/handle/handle.go): definitions -/

/-! ## The order correlation of two columns -/

/-- The value `corrXSum` of `fillExtStatsCorrVals` (handle.go, line 1459), the sum of the
ordinals `0, ..., sampleNum-1`; `itemsCount` is `float64(sampleNum)` in the source and an
exact rational here. -/
def corrXSum (itemsCount : ℚ) : ℚ :=
  (itemsCount - 1) * itemsCount / 2

/-- The value `corrX2Sum` of `fillExtStatsCorrVals` (handle.go, line 1460), the sum of the
squares of the ordinals. -/
def corrX2Sum (itemsCount : ℚ) : ℚ :=
  (itemsCount - 1) * itemsCount * (2 * itemsCount - 1) / 6

/-- The denominator of the quotient assigned to `ScalarVals` (handle.go, line 1461). -/
def corrDenominator (itemsCount : ℚ) : ℚ :=
  itemsCount * corrX2Sum itemsCount - corrXSum itemsCount * corrXSum itemsCount

/-- The outcome of a Go function that may panic (an index out of range). -/
inductive GoResult (α : Type)
  | panic
  | ret (a : α)
  deriving DecidableEq, Repr

/-- A sample (`statistics.SampleItem`, not among the sources), as far as
`fillExtStatsCorrVals` uses it: the value, for which an integer stands, and `Ordinal`, the
original position of the item in its collector. -/
structure SampleItem where
  Value : Int
  Ordinal : Nat
  deriving DecidableEq, Repr

/-- An extended statistics item (`statistics.ExtendedStatsItem`, not among the sources)
with the fields handle.go uses; `ScalarVals` is a `float64` in the source and an exact
rational here. -/
structure ExtendedStatsItem where
  ColIDs : List Int
  Tp : Nat
  ScalarVals : ℚ
  StringVals : String
  deriving DecidableEq, Repr

/-- What `fillExtStatsCorrVals` takes from outside handle.go: the error of `h.pool.Get()`
(`none` is nil) and `statistics.SortSampleItems`, which sorts samples by value and may
fail. -/
structure CorrEnv where
  poolGetErr : Option String
  SortSampleItems : List SampleItem → Except String (List SampleItem)

/-- The offsets in `cols` of the columns of the item (handle.go, lines 1391-1399): for
each identifier in `ColIDs` the first column with that identifier, if there is one. -/
def colOffsets (colIDs : List Int) (cols : List Int) : List Nat :=
  colIDs.filterMap (fun id => cols.findIdx? (fun c => c == id))

/-- The state of the loop that builds `samplesYInXOrder` (handle.go, lines 1431-1439):
the copy `samplesY`, whose `Ordinal` fields the loop overwrites, and the positions in
`samplesY` of the items appended so far (the slice holds pointers into `samplesY`). -/
structure OrderLoop where
  samplesY : List SampleItem
  appended : List Nat
  deriving DecidableEq, Repr

/-- One iteration of the loop, for the item `itemX` at position `i` of the sorted
`samplesX`: skipped when `itemX.Ordinal >= len(samplesY)`; otherwise
`samplesY[itemX.Ordinal].Ordinal = i` and the item is appended. -/
def orderLoopStep (st : OrderLoop) (p : Nat × SampleItem) : OrderLoop :=
  if p.2.Ordinal ≥ st.samplesY.length then st
  else
    { samplesY := st.samplesY.modify (fun y => { y with Ordinal := p.1 }) p.2.Ordinal,
      appended := st.appended ++ [p.2.Ordinal] }

/-- The slice `samplesYInXOrder` after the loop, read through its pointers. -/
def samplesYInXOrder (sortedX samplesY : List SampleItem) : List SampleItem :=
  let st := sortedX.enum.foldl orderLoopStep { samplesY := samplesY, appended := [] }
  st.appended.filterMap (fun k => st.samplesY.get? k)

/-- The sum `corrXYSum` (handle.go, lines 1444-1447): over the positions `i >= 1` of
`samplesYInYOrder`, the product of `i` and the `Ordinal` at that position. -/
def corrXYSum (samplesYInYOrder : List SampleItem) : ℚ :=
  ((samplesYInYOrder.enum.drop 1).map (fun p => (p.1 : ℚ) * (p.2.Ordinal : ℚ))).sum

/-- The function `fillExtStatsCorrVals` (handle.go, lines 1390-1464).  `cols` are the
identifiers of the columns and `collectors` the sample lists of the collectors.  The
result `none` is the nil item; an index out of range in `collectors` panics. -/
def fillExtStatsCorrVals (env : CorrEnv) (item : ExtendedStatsItem) (cols : List Int)
    (collectors : List (List SampleItem)) : GoResult (Option ExtendedStatsItem) :=
  match colOffsets item.ColIDs cols with
  | [o0, o1] =>
    match collectors.get? o0, collectors.get? o1 with
    | some samplesX, some samplesY =>
      let sampleNum := min samplesX.length samplesY.length
      if sampleNum = 1 then .ret (some { item with ScalarVals := 1 })
      else if sampleNum ≤ 0 then .ret (some { item with ScalarVals := 0 })
      else
        match env.poolGetErr with
        | some _ => .ret none
        | none =>
          match env.SortSampleItems samplesX with
          | .error _ => .ret none
          | .ok sortedX =>
            match env.SortSampleItems (samplesYInXOrder sortedX samplesY) with
            | .error _ => .ret none
            | .ok samplesYInYOrder =>
              let itemsCount : ℚ := sampleNum
              let scalarVals : ℚ :=
                (itemsCount * corrXYSum samplesYInYOrder -
                    corrXSum itemsCount * corrXSum itemsCount) /
                  corrDenominator itemsCount
              .ret (some { item with ScalarVals := scalarVals })
    | _, _ => .panic
  | _ => .ret none

/-- A sort of samples by value (a stable insertion sort), standing for
`statistics.SortSampleItems` in the examples. -/
def sortByValue (l : List SampleItem) : Except String (List SampleItem) :=
  .ok (l.insertionSort (fun a b => a.Value ≤ b.Value))

/-- An environment for the examples: the session is there and samples are sorted by
value. -/
def corrExampleEnv : CorrEnv :=
  { poolGetErr := none, SortSampleItems := sortByValue }

/-- The samples of a first collector: three items whose ordinals are their positions. -/
def corrExampleX : List SampleItem :=
  [⟨2, 0⟩, ⟨3, 1⟩, ⟨1, 2⟩]

/-- The samples of a second collector: two items whose ordinals are their positions. -/
def corrExampleY : List SampleItem :=
  [⟨7, 0⟩, ⟨8, 1⟩]

/-- An extended statistics item on the columns 1 and 2. -/
def corrExampleItem : ExtendedStatsItem :=
  { ColIDs := [1, 2], Tp := 2, ScalarVals := 0, StringVals := "" }

/-! ## Saving statistics to the system tables -/

/-- An encoded value or another opaque payload of a statement. -/
abbrev Blob := List Nat

/-- The SQL statements that `SaveTableStatsToStorage`, `SaveStatsToStorage` and their
helpers pass to `ExecuteInternal`, with their arguments.  The rows of a batched insert
are one payload. -/
inductive Stmt
  | BeginPessimistic
  | SelectStatsMetaForUpdate (tableID : Int)
  | ReplaceStatsMetaModifyCount (version : Nat) (tableID count modifyCount : Int)
  | ReplaceStatsMetaSnapshot (version : Nat) (tableID count : Int) (snapshot : Nat)
  | UpdateStatsMetaVersion (version : Nat) (tableID : Int)
  | UpdateStatsMeta (version : Nat) (modifyCount count : Int) (snapshot : Nat) (tableID : Int)
  | DeleteTopN (tableID isIndex histID : Int)
  | InsertTopN (rows : Blob)
  | DeleteFMSketch (tableID isIndex histID : Int)
  | InsertFMSketch (tableID isIndex histID : Int) (value : Blob)
  | ReplaceHistogram (tableID isIndex histID ndv : Int) (version : Nat) (nullCount : Int)
      (cmSketch : Blob) (totColSize statsVer flag : Int) (correlation : ℚ)
  | DeleteBuckets (tableID isIndex histID : Int)
  | InsertBuckets (rows : Blob)
  | UpdateLastAnalyzePos (lastAnalyzePos : Blob) (tableID isIndex histID : Int)
  | InsertColumnStatsUsage (tableID columnID : Int)
  | ReplaceStatsExtended (name : String) (tp : Nat) (tableID : Int) (strColIDs statsStr : String)
      (version : Nat) (status : Nat)
  deriving DecidableEq, Repr

/-- The system tables the statements read or write. -/
inductive SysTable
  | stats_meta | stats_top_n | stats_fm_sketch | stats_histograms | stats_buckets
  | column_stats_usage | stats_extended
  deriving DecidableEq, Repr

/-- The table a statement is issued against (`none` for `begin pessimistic`). -/
def Stmt.table : Stmt → Option SysTable
  | .BeginPessimistic => none
  | .SelectStatsMetaForUpdate _ => some .stats_meta
  | .ReplaceStatsMetaModifyCount _ _ _ _ => some .stats_meta
  | .ReplaceStatsMetaSnapshot _ _ _ _ => some .stats_meta
  | .UpdateStatsMetaVersion _ _ => some .stats_meta
  | .UpdateStatsMeta _ _ _ _ _ => some .stats_meta
  | .DeleteTopN _ _ _ => some .stats_top_n
  | .InsertTopN _ => some .stats_top_n
  | .DeleteFMSketch _ _ _ => some .stats_fm_sketch
  | .InsertFMSketch _ _ _ _ => some .stats_fm_sketch
  | .ReplaceHistogram _ _ _ _ _ _ _ _ _ _ _ => some .stats_histograms
  | .DeleteBuckets _ _ _ => some .stats_buckets
  | .InsertBuckets _ => some .stats_buckets
  | .UpdateLastAnalyzePos _ _ _ _ => some .stats_histograms
  | .InsertColumnStatsUsage _ _ => some .column_stats_usage
  | .ReplaceStatsExtended _ _ _ _ _ _ _ => some .stats_extended

/-- Whether a statement writes (everything but `begin pessimistic` and the select). -/
def Stmt.isWrite : Stmt → Bool
  | .BeginPessimistic => false
  | .SelectStatsMetaForUpdate _ => false
  | _ => true

/-- What a function does to the world outside its variables, in order: a statement passed
to `ExecuteInternal`, a call of `cache.TableRowStatsCache.Invalidate`, the deferred call
of `finishTransaction` with the error it receives, and a call of
`recordHistoricalStatsMeta`. -/
inductive Effect
  | exec (s : Stmt)
  | invalidate (tableID : Int)
  | finishTransaction (err : Option String)
  | recordHistoricalStatsMeta (tableID : Int) (version : Nat) (source : String)
  deriving DecidableEq, Repr

/-- The state threaded through a function: the effects so far and the local variable
`statsVer`, which the first deferred function reads. -/
structure ExecState where
  effects : List Effect
  statsVer : Nat
  deriving DecidableEq, Repr

/-- A computation that may return an error (`Except.error`) and changes the state. -/
def Exec (α : Type) : Type :=
  ExecState → Except String α × ExecState

instance : Monad Exec where
  pure a := fun st => (.ok a, st)
  bind m f := fun st =>
    match m st with
    | (.ok a, st1) => f a st1
    | (.error e, st1) => (.error e, st1)

/-- Returns with the error `e`. -/
def Exec.fail {α : Type} (e : String) : Exec α :=
  fun st => (.error e, st)

/-- Lifts the result of a call that has no effect of its own. -/
def Exec.ofExcept {α : Type} : Except String α → Exec α
  | .ok a => pure a
  | .error e => Exec.fail e

/-- Returns with the error, if there is one. -/
def Exec.check : Option String → Exec Unit
  | none => pure ()
  | some e => Exec.fail e

/-- Records an effect. -/
def Exec.emit (e : Effect) : Exec Unit :=
  fun st => (.ok (), { st with effects := st.effects ++ [e] })

/-- The assignment `statsVer = version`. -/
def Exec.setStatsVer (version : Nat) : Exec Unit :=
  fun st => (.ok (), { st with statsVer := version })

/-- Runs `f` on the elements of a list in order, stopping at the first error. -/
def Exec.forEach {α : Type} (f : α → Exec Unit) : List α → Exec Unit
  | [] => pure ()
  | a :: as => do
    f a
    Exec.forEach f as

/-- A histogram (`statistics.Histogram`, not among the sources) with the fields the
statements use; the buckets are one uninterpreted payload. -/
structure Histogram where
  ID : Int
  NDV : Int
  NullCount : Int
  TotColSize : Int
  Correlation : ℚ
  Buckets : Blob
  deriving DecidableEq, Repr

/-- The analyze result of one column group or index (`statistics.AnalyzeResult`, not among
the sources).  A nil pointer is `none`; the element of a slice at a position beyond its
end (a panic in Go) is read as nil. -/
structure AnalyzeResult where
  Hist : List (Option Histogram)
  Cms : List (Option Blob)
  TopNs : List (Option Blob)
  Fms : List (Option Blob)
  IsIndex : Int
  deriving DecidableEq, Repr

/-- The analyze results of a table (`statistics.AnalyzeResults`, not among the sources).
`IsPartitionTable` and `StatisticsID` are the results of the methods of `TableID`;
`ExtStats` is `none` for a nil pointer and lists the entries of the map `Stats` in the
order in which the loop visits them. -/
structure AnalyzeResults where
  IsPartitionTable : Bool
  StatisticsID : Int
  Ars : List AnalyzeResult
  Count : Int
  ExtStats : Option (List (String × ExtendedStatsItem))
  BaseCount : Int
  BaseModifyCnt : Int
  ForMVIndex : Bool
  Snapshot : Nat
  StatsVer : Int
  deriving DecidableEq, Repr

/-- A row of the select on `mysql.stats_meta`: `snapshot` and `count` are read with
`GetUint64`, `modify_count` with `GetInt64`. -/
structure StatsMetaRow where
  snapshot : Nat
  count : Nat
  modifyCount : Int
  deriving DecidableEq, Repr

/-- What the functions take from outside handle.go: constants of the packages
`statistics` and `ast` (not among the sources), and the results of the calls into the
session, the executor and the encoders.  An error is `some e` or `Except.error e`.

* `execErr`: the error `ExecuteInternal` returns for a statement, which may depend on
  what was done before;
* `txnStartTS`: `sctx.Txn(true)` followed by `StartTS()` (`getSessionTxnStartTS`);
* `statsMetaRows`, `closeErr`: `DrainRecordSet` and `Close` on the result of the select;
* `finishTransaction`: the error returned by the deferred `finishTransaction`, given the
  error of the function so far (the function is not among the sources);
* `topNBatches`, `bucketBatches`, `lastAnalyzePos`: the texts of the batched inserts of
  `saveTopNToStorage` and `saveBucketsToStorage` (they depend on `batchInsertSize`,
  `maxInsertLength`, `MustEscapeSQL` and the conversion of the bounds, none of which is
  among the sources); a conversion error takes the place of a batch. -/
structure Env where
  Version2 : Int
  AnalyzeFlag : Int
  ExtendedStatsAnalyzed : Nat
  StatsTypeCardinality : Nat
  StatsTypeCorrelation : Nat
  StatsTypeDependency : Nat
  poolGetErr : Option String
  execErr : List Effect → Stmt → Option String
  txnStartTS : Except String Nat
  statsMetaRows : Except String (List StatsMetaRow)
  closeErr : Option String
  finishTransaction : Option String → Option String
  EncodeCMSketchWithoutTopN : Option Blob → Except String Blob
  EncodeFMSketch : Option Blob → Except String (Option Blob)
  topNBatches : Int → Int → Int → Blob → List Blob
  bucketBatches : Int → Int → Histogram → List (Except String Blob)
  lastAnalyzePos : Histogram → Blob
  jsonMarshal : List Int → Except String String
  formatFloat : ℚ → String

/-- The call `exec.ExecuteInternal(ctx, sql, args...)` when the function returns the error
at once: the statement is issued, and its error, if any, is returned. -/
def ExecuteInternal (env : Env) (s : Stmt) : Exec Unit :=
  fun st =>
    let st1 : ExecState := { st with effects := st.effects ++ [.exec s] }
    match env.execErr st.effects s with
    | none => (.ok (), st1)
    | some e => (.error e, st1)

/-- The call `exec.ExecuteInternal` when the error is kept in `err` and looked at later. -/
def tryExecuteInternal (env : Env) (s : Stmt) : Exec (Option String) :=
  fun st => (.ok (env.execErr st.effects s), { st with effects := st.effects ++ [.exec s] })

/-- The conversion of a signed 64-bit result: the value modulo `2^64` in the range of
`int64`. -/
def wrapInt64 (x : Int) : Int :=
  (x + 2 ^ 63) % 2 ^ 64 - 2 ^ 63

/-- The function `saveTopNToStorage` (handle.go, lines 699-728): nothing for a nil `topN`,
otherwise one insert into `mysql.stats_top_n` for each batch, returning at the first
error. -/
def saveTopNToStorage (env : Env) (tableID isIndex histID : Int) (topN : Option Blob) :
    Exec Unit :=
  match topN with
  | none => pure ()
  | some t =>
    Exec.forEach (fun rows => ExecuteInternal env (.InsertTopN rows))
      (env.topNBatches tableID isIndex histID t)

/-- One round of the outer loop of `saveBucketsToStorage`: a conversion error returns,
otherwise the batch is inserted. -/
def saveBucketBatch (env : Env) (batch : Except String Blob) : Exec Unit :=
  match batch with
  | .error e => Exec.fail e
  | .ok rows => ExecuteInternal env (.InsertBuckets rows)

/-- The function `saveBucketsToStorage` (handle.go, lines 730-776): nothing for a nil
histogram, otherwise one insert into `mysql.stats_buckets` for each batch; the result is
`lastAnalyzePos`. -/
def saveBucketsToStorage (env : Env) (tableID isIndex : Int) (hg : Option Histogram) :
    Exec Blob :=
  match hg with
  | none => pure []
  | some h => do
    Exec.forEach (saveBucketBatch env) (env.bucketBatches tableID isIndex h)
    pure (env.lastAnalyzePos h)

/-- The two deferred functions, in the order in which they run when the function returns
with the result `res`: `finishTransaction` replaces the error, and then
`recordHistoricalStatsMeta` is called if the error is nil and `statsVer` is not 0.  The
result is the error of the function and its effects. -/
def finishAndRecord (env : Env) (tableID : Int) (source : String)
    (res : Except String Unit × ExecState) : Option String × List Effect :=
  let err : Option String :=
    match res.1 with
    | .ok _ => none
    | .error e => some e
  let err2 := env.finishTransaction err
  let effects := res.2.effects ++ [.finishTransaction err]
  if err2 = none ∧ res.2.statsVer ≠ 0 then
    (none, effects ++ [.recordHistoricalStatsMeta tableID res.2.statsVer source])
  else (err2, effects)

/-- The frame the two save functions share: `begin pessimistic` is issued; if it fails
its error is returned, and otherwise the body runs from there and the two deferred
functions follow it. -/
def inTransaction (env : Env) (tableID : Int) (source : String) (body : Exec Unit) :
    Option String × List Effect :=
  match ExecuteInternal env .BeginPessimistic { effects := [], statsVer := 0 } with
  | (.error e, st) => (some e, st.effects)
  | (.ok _, st) => finishAndRecord env tableID source (body st)

/-- The state in which the body of either function starts: `begin pessimistic` has been
issued. -/
def afterBegin : ExecState :=
  { effects := [.exec .BeginPessimistic], statsVer := 0 }

/-- The statements of `SaveStatsToStorage` that follow `statsVer = version` (handle.go,
lines 1054-1095): top-n, FM sketch, histogram, buckets and column usage. -/
def saveStatsToStorageRest (env : Env) (tableID isIndex : Int) (hg : Histogram)
    (cms : Option Blob) (topN : Option Blob) (statsVersion isAnalyzed : Int)
    (updateAnalyzeTime : Bool) (version : Nat) : Exec Unit := do
  let cmSketch ← Exec.ofExcept (env.EncodeCMSketchWithoutTopN cms)
  ExecuteInternal env (.DeleteTopN tableID isIndex hg.ID)
  saveTopNToStorage env tableID isIndex hg.ID topN
  ExecuteInternal env (.DeleteFMSketch tableID isIndex hg.ID)
  let flag : Int := if isAnalyzed = 1 then env.AnalyzeFlag else 0
  ExecuteInternal env
    (.ReplaceHistogram tableID isIndex hg.ID hg.NDV version hg.NullCount cmSketch hg.TotColSize
      statsVersion flag hg.Correlation)
  ExecuteInternal env (.DeleteBuckets tableID isIndex hg.ID)
  let lastAnalyzePos ← saveBucketsToStorage env tableID isIndex (some hg)
  if isAnalyzed = 1 ∧ lastAnalyzePos.length > 0 then
    ExecuteInternal env (.UpdateLastAnalyzePos lastAnalyzePos tableID isIndex hg.ID)
  if updateAnalyzeTime = true ∧ isIndex = 0 then
    ExecuteInternal env (.InsertColumnStatsUsage tableID hg.ID)

/-- The write of `SaveStatsToStorage` to `mysql.stats_meta` (handle.go, lines 1043-1052).
With `count >= 0` the row is replaced, the cache entry invalidated, and then the error
looked at; with a negative count only the version is updated. -/
def saveStatsMetaCount (env : Env) (tableID count modifyCount : Int) (version : Nat) :
    Exec Unit :=
  if count ≥ 0 then do
    let err ← tryExecuteInternal env
      (.ReplaceStatsMetaModifyCount version tableID count modifyCount)
    Exec.emit (.invalidate tableID)
    Exec.check err
  else
    ExecuteInternal env (.UpdateStatsMetaVersion version tableID)

/-- The body of `SaveStatsToStorage` after `begin pessimistic` (handle.go, lines
1038-1096). -/
def saveStatsToStorageBody (env : Env) (tableID count modifyCount isIndex : Int)
    (hg : Histogram) (cms : Option Blob) (topN : Option Blob) (statsVersion isAnalyzed : Int)
    (updateAnalyzeTime : Bool) : Exec Unit := do
  let version ← Exec.ofExcept env.txnStartTS
  saveStatsMetaCount env tableID count modifyCount version
  Exec.setStatsVer version
  saveStatsToStorageRest env tableID isIndex hg cms topN statsVersion isAnalyzed
    updateAnalyzeTime version

/-- The function `Handle.SaveStatsToStorage` (handle.go, lines 1014-1096); the result is
the returned error (`none` is nil) and the effects.  `hg` is not nil (the function
dereferences it). -/
def SaveStatsToStorage (env : Env) (tableID count modifyCount isIndex : Int)
    (hg : Histogram) (cms : Option Blob) (topN : Option Blob) (statsVersion isAnalyzed : Int)
    (updateAnalyzeTime : Bool) (source : String) : Option String × List Effect :=
  match env.poolGetErr with
  | some e => (some e, [])
  | none =>
    inTransaction env tableID source
      (saveStatsToStorageBody env tableID count modifyCount isIndex hg cms topN statsVersion
        isAnalyzed updateAnalyzeTime)

/-- The test of handle.go, lines 836-843: there is a row, and "a newer version analyze
result has been written": `snapshot >= results.Snapshot && results.StatsVer ==
statistics.Version2 && !results.ForMVIndex`. -/
def isStale (env : Env) (results : AnalyzeResults) (rows : List StatsMetaRow) : Bool :=
  match rows with
  | [] => false
  | row :: _ =>
    decide (row.snapshot ≥ results.Snapshot) && decide (results.StatsVer = env.Version2) &&
      !results.ForMVIndex

/-- The value `curCnt`: `int64(rows[0].GetUint64(1))`, or 0 without a row. -/
def curCnt (rows : List StatsMetaRow) : Int :=
  match rows with
  | [] => 0
  | row :: _ => wrapInt64 (row.count : Int)

/-- The value `curModifyCnt`: `rows[0].GetInt64(2)`, or 0 without a row. -/
def curModifyCnt (rows : List StatsMetaRow) : Int :=
  match rows with
  | [] => 0
  | row :: _ => row.modifyCount

/-- The value `modifyCnt` of branch 1-3 (handle.go, lines 880-883). -/
def newModifyCnt (results : AnalyzeResults) (rows : List StatsMetaRow) : Int :=
  let modifyCnt := wrapInt64 (curModifyCnt rows - results.BaseModifyCnt)
  if modifyCnt < 0 then 0 else modifyCnt

/-- The value `cnt` of branch 1-3 (handle.go, lines 890-911). -/
def newCnt (results : AnalyzeResults) (analyzeSnapshot : Bool) (rows : List StatsMetaRow) :
    Int :=
  if analyzeSnapshot then
    let cnt := wrapInt64 (wrapInt64 (curCnt rows + results.Count) - results.BaseCount)
    if cnt < 0 then 0 else cnt
  else
    let cnt := results.Count
    if cnt < 0 then 0 else cnt

/-- Part 1 of `SaveTableStatsToStorage` after the test for a stale result (handle.go,
lines 848-924): the write to `mysql.stats_meta`.  Branch 1-1 (no row, or not version 2)
replaces the row and sets `statsVer`; branch 1-2 (a row, version 2, multi-valued index)
only updates the version; branch 1-3 updates the row and sets `statsVer`. -/
def saveStatsMetaRow (env : Env) (results : AnalyzeResults) (analyzeSnapshot : Bool)
    (version : Nat) (tableID : Int) (rows : List StatsMetaRow) : Exec Unit :=
  if rows.length = 0 ∨ results.StatsVer ≠ env.Version2 then do
    let snapShot : Nat := if results.ForMVIndex then 0 else results.Snapshot
    let count : Int := if results.ForMVIndex then 0 else results.Count
    ExecuteInternal env (.ReplaceStatsMetaSnapshot version tableID count snapShot)
    Exec.setStatsVer version
  else if results.ForMVIndex then
    ExecuteInternal env (.UpdateStatsMetaVersion version tableID)
  else do
    ExecuteInternal env
      (.UpdateStatsMeta version (newModifyCnt results rows)
        (newCnt results analyzeSnapshot rows) results.Snapshot tableID)
    Exec.setStatsVer version

/-- The body of the inner loop of part 2 (handle.go, lines 927-976) for the histogram at
position `i` of `result.Hist`; a nil histogram is skipped. -/
def saveHistogram (env : Env) (results : AnalyzeResults) (version : Nat) (tableID : Int)
    (result : AnalyzeResult) (p : Nat × Option Histogram) : Exec Unit :=
  match p.2 with
  | none => pure ()
  | some hg => do
    let cms : Option Blob :=
      if results.StatsVer ≠ env.Version2 then (result.Cms.getD p.1 none) else none
    let cmSketch ← Exec.ofExcept (env.EncodeCMSketchWithoutTopN cms)
    let fmSketch ← Exec.ofExcept (env.EncodeFMSketch (result.Fms.getD p.1 none))
    ExecuteInternal env (.DeleteTopN tableID result.IsIndex hg.ID)
    saveTopNToStorage env tableID result.IsIndex hg.ID (result.TopNs.getD p.1 none)
    ExecuteInternal env (.DeleteFMSketch tableID result.IsIndex hg.ID)
    match fmSketch with
    | some value =>
      if results.IsPartitionTable then
        ExecuteInternal env (.InsertFMSketch tableID result.IsIndex hg.ID value)
    | none => pure ()
    ExecuteInternal env
      (.ReplaceHistogram tableID result.IsIndex hg.ID hg.NDV version hg.NullCount cmSketch
        hg.TotColSize results.StatsVer env.AnalyzeFlag hg.Correlation)
    ExecuteInternal env (.DeleteBuckets tableID result.IsIndex hg.ID)
    let lastAnalyzePos ← saveBucketsToStorage env tableID result.IsIndex (some hg)
    if lastAnalyzePos.length > 0 then
      ExecuteInternal env (.UpdateLastAnalyzePos lastAnalyzePos tableID result.IsIndex hg.ID)
    if result.IsIndex = 0 then
      ExecuteInternal env (.InsertColumnStatsUsage tableID hg.ID)

/-- Part 2 of `SaveTableStatsToStorage` (handle.go, lines 926-977): the histograms of
every result. -/
def saveHistograms (env : Env) (results : AnalyzeResults) (version : Nat) (tableID : Int) :
    Exec Unit :=
  Exec.forEach
    (fun result => Exec.forEach (saveHistogram env results version tableID result)
      result.Hist.enum)
    results.Ars

/-- The loop of part 3 (handle.go, lines 985-1006).  `statsStr` is declared before the
loop, so an item whose type is none of the three keeps the text of the item before. -/
def saveExtendedItems (env : Env) (version : Nat) (tableID : Int) :
    String → List (String × ExtendedStatsItem) → Exec Unit
  | _, [] => pure ()
  | statsStr, (name, item) :: rest => do
    let strColIDs ← Exec.ofExcept (env.jsonMarshal item.ColIDs)
    let statsStr2 : String :=
      if item.Tp = env.StatsTypeCardinality ∨ item.Tp = env.StatsTypeCorrelation then
        env.formatFloat item.ScalarVals
      else if item.Tp = env.StatsTypeDependency then item.StringVals
      else statsStr
    ExecuteInternal env
      (.ReplaceStatsExtended name item.Tp tableID strColIDs statsStr2 version
        env.ExtendedStatsAnalyzed)
    saveExtendedItems env version tableID statsStr2 rest

/-- Part 3 of `SaveTableStatsToStorage` (handle.go, lines 978-1007): the extended
statistics, if there are any. -/
def saveExtendedStats (env : Env) (results : AnalyzeResults) (version : Nat) (tableID : Int) :
    Exec Unit :=
  match results.ExtStats with
  | none => pure ()
  | some stats => saveExtendedItems env version tableID "" stats

/-- What `SaveTableStatsToStorage` does after the write to `mysql.stats_meta` (handle.go,
lines 925-1007): the cache entry is invalidated, then parts 2 and 3. -/
def saveTableStatsRest (env : Env) (results : AnalyzeResults) (version : Nat) (tableID : Int) :
    Exec Unit := do
  Exec.emit (.invalidate tableID)
  saveHistograms env results version tableID
  saveExtendedStats env results version tableID

/-- The body of `SaveTableStatsToStorage` after `begin pessimistic` (handle.go, lines
814-1007). -/
def saveTableStatsToStorageBody (env : Env) (results : AnalyzeResults)
    (analyzeSnapshot : Bool) : Exec Unit := do
  let tableID := results.StatisticsID
  let version ← Exec.ofExcept env.txnStartTS
  ExecuteInternal env (.SelectStatsMetaForUpdate tableID)
  let rows ← Exec.ofExcept env.statsMetaRows
  Exec.check env.closeErr
  if isStale env results rows then
    return ()
  saveStatsMetaRow env results analyzeSnapshot version tableID rows
  saveTableStatsRest env results version tableID

/-- The function `SaveTableStatsToStorage` (handle.go, lines 790-1008); the result is the
returned error (`none` is nil) and the effects. -/
def SaveTableStatsToStorage (env : Env) (results : AnalyzeResults) (analyzeSnapshot : Bool)
    (source : String) : Option String × List Effect :=
  inTransaction env results.StatisticsID source
    (saveTableStatsToStorageBody env results analyzeSnapshot)

/-! ## Predicates on the effects of a computation -/

/-- The computation only appends effects, each of which satisfies `P`, and leaves
`statsVer` as it is. -/
structure Exec.Quiet {α : Type} (P : Effect → Prop) (m : Exec α) : Prop where
  out : ∀ st : ExecState, ∃ k : List Effect,
    (m st).2 = { effects := st.effects ++ k, statsVer := st.statsVer } ∧ ∀ e ∈ k, P e

/-- The computation only appends effects, each of which satisfies `P`. -/
structure Exec.Emits {α : Type} (P : Effect → Prop) (m : Exec α) : Prop where
  out : ∀ st : ExecState, ∃ k : List Effect,
    (m st).2.effects = st.effects ++ k ∧ ∀ e ∈ k, P e

/-- A write statement against a table other than `mysql.stats_meta`. -/
def Effect.IsOtherWrite (e : Effect) : Prop :=
  ∃ s : Stmt, e = .exec s ∧ s.table ≠ some .stats_meta ∧ s.isWrite = true

/-- An effect after the write to `mysql.stats_meta`: a write statement against another
table, or the invalidation of a cache entry. -/
def Effect.IsTail (e : Effect) : Prop :=
  e.IsOtherWrite ∨ ∃ t, e = .invalidate t

/-- An effect that, if it is a statement against `mysql.stats_meta`, is one of the allowed
statements. -/
def Effect.MetaOnly (allowed : Stmt → Prop) (e : Effect) : Prop :=
  ∀ s : Stmt, e = .exec s → s.table = some .stats_meta → allowed s

/-- An environment in which every call succeeds: the transaction starts at 100 and the
table has a row in `mysql.stats_meta` with snapshot 50. -/
def exampleEnv : Env :=
  { Version2 := 2, AnalyzeFlag := 1, ExtendedStatsAnalyzed := 1, StatsTypeCardinality := 0,
    StatsTypeCorrelation := 2, StatsTypeDependency := 1, poolGetErr := none,
    execErr := fun _ _ => none, txnStartTS := .ok 100,
    statsMetaRows := .ok [{ snapshot := 50, count := 10, modifyCount := 3 }],
    closeErr := none, finishTransaction := fun e => e,
    EncodeCMSketchWithoutTopN := fun _ => .ok [], EncodeFMSketch := fun x => .ok x,
    topNBatches := fun _ _ _ t => [t], bucketBatches := fun _ _ h => [.ok h.Buckets],
    lastAnalyzePos := fun h => h.Buckets, jsonMarshal := fun _ => .ok "[]",
    formatFloat := fun _ => "0" }

/-- A version 2 result for table 7 with one column histogram, taken at snapshot 40, which
is older than the row of `exampleEnv`. -/
def staleResults : AnalyzeResults :=
  { IsPartitionTable := false, StatisticsID := 7,
    Ars := [{ Hist := [some ⟨1, 2, 0, 0, 0, [1]⟩], Cms := [none], TopNs := [some [5]],
              Fms := [none], IsIndex := 0 }],
    Count := 20, ExtStats := none, BaseCount := 10, BaseModifyCnt := 1, ForMVIndex := false,
    Snapshot := 40, StatsVer := 2 }

/-- The result `staleResults` as the result of the analyze of a multi-valued index. -/
def mvIndexResults : AnalyzeResults :=
  { staleResults with ForMVIndex := true }

/-! ## The stats cache and the retry loops of its callers -/

/-- What the functions around `h.statsCache` take from outside handle.go.  `Cache` stands
for `cache.StatsCache`, `Table` for `statistics.Table` and `Reader` for
`statistics.StatsReader`; none of the three packages is among the sources.

* `UpdateStatsCache`: the value of `h.statsCache` after
  `h.statsCache.UpdateStatsCache(newCache, tables, deletedIDs)`, given its value before;
* `otherWriters`: what other goroutines do to `h.statsCache` before the iteration of a
  retry loop whose counter is `retry`;
* `Get`, `Values`: the methods of the loaded cache;
* `hasExtendedStats`: `tbl.ExtendedStats != nil && len(tbl.ExtendedStats.Stats) != 0`;
* `removeStats`: the copy of the table with the entry `statsName` deleted;
* `getGlobalStatsReader`: the reader of snapshot 0;
* `ExtendedStatsFromStorage`: the call on the copy of a table. -/
structure CacheEnv (Cache Table Reader : Type) where
  UpdateStatsCache : Cache → Cache → List Table → List Int → Cache
  otherWriters : Nat → Cache → Cache
  Get : Cache → Int → Option Table
  Values : Cache → List Table
  hasExtendedStats : Table → Bool
  removeStats : Table → String → Table
  getGlobalStatsReader : Except String Reader
  ExtendedStatsFromStorage : Reader → Table → Except String Table

/-- The function `Handle.updateStatsCache` (handle.go, lines 481-484): the result
`updated` and the new value of `h.statsCache`. -/
def updateStatsCache {Cache Table Reader : Type} (env : CacheEnv Cache Table Reader)
    (statsCache : Cache) (newCache : Cache) (tables : List Table) (deletedIDs : List Int) :
    Bool × Cache :=
  (true, env.UpdateStatsCache statsCache newCache tables deletedIDs)

/-- The constant `updateStatsCacheRetryCnt` (handle.go, line 1295). -/
def updateStatsCacheRetryCnt : Nat := 5

/-- The outcome of a retry loop: the value of `h.statsCache`, the number of calls of
`updateStatsCache`, and whether the loop ended without a successful update after the
last call (the log "remove extended stats cache failed" of `removeExtendedStatsItem`). -/
structure RetryOutcome (Cache : Type) where
  statsCache : Cache
  calls : Nat
  gaveUp : Bool

/-- The loop of `Handle.removeExtendedStatsItem` (handle.go, lines 1298-1316) from the
counter `retry` on; `calls` counts the calls of `updateStatsCache` so far. -/
def removeExtendedStatsItemLoop {Cache Table Reader : Type} (env : CacheEnv Cache Table Reader)
    (tableID : Int) (statsName : String) : Nat → Cache → Nat → RetryOutcome Cache
  | 0, statsCache, calls => { statsCache := statsCache, calls := calls, gaveUp := true }
  | retry + 1, statsCache, calls =>
    let oldCache := env.otherWriters (retry + 1) statsCache
    match env.Get oldCache tableID with
    | none => { statsCache := oldCache, calls := calls, gaveUp := false }
    | some tbl =>
      if env.hasExtendedStats tbl = false then
        { statsCache := oldCache, calls := calls, gaveUp := false }
      else
        let newTbl := env.removeStats tbl statsName
        let r := updateStatsCache env oldCache oldCache [newTbl] []
        if r.1 then { statsCache := r.2, calls := calls + 1, gaveUp := false }
        else removeExtendedStatsItemLoop env tableID statsName retry r.2 (calls + 1)

/-- The function `Handle.removeExtendedStatsItem` (handle.go, lines 1297-1317). -/
def removeExtendedStatsItem {Cache Table Reader : Type} (env : CacheEnv Cache Table Reader)
    (statsCache : Cache) (tableID : Int) (statsName : String) : RetryOutcome Cache :=
  removeExtendedStatsItemLoop env tableID statsName updateStatsCacheRetryCnt statsCache 0

/-- The errors `Handle.ReloadExtendedStatistics` can return, by the statement that
returns them: the error of `getGlobalStatsReader`, an error of
`ExtendedStatsFromStorage`, and `fmt.Errorf("update stats cache failed for %d attempts",
updateStatsCacheRetryCnt)` after the loop. -/
inductive ReloadError
  | reader (e : String)
  | storage (e : String)
  | attempts (n : Nat)
  deriving DecidableEq, Repr

/-- The tables of one iteration of `ReloadExtendedStatistics` (handle.go, lines
1333-1340): `ExtendedStatsFromStorage` on every table of the cache, up to the first
error. -/
def reloadTables {Table : Type} (load : Table → Except String Table) :
    List Table → Except String (List Table)
  | [] => .ok []
  | tbl :: rest =>
    match load tbl with
    | .error e => .error e
    | .ok t =>
      match reloadTables load rest with
      | .error e => .error e
      | .ok ts => .ok (t :: ts)

/-- The loop of `Handle.ReloadExtendedStatistics` (handle.go, lines 1331-1345) from the
counter `retry` on: the returned error (`none` is nil) and the outcome. -/
def reloadExtendedStatisticsLoop {Cache Table Reader : Type}
    (env : CacheEnv Cache Table Reader) (reader : Reader) :
    Nat → Cache → Nat → Option ReloadError × RetryOutcome Cache
  | 0, statsCache, calls =>
    (some (.attempts updateStatsCacheRetryCnt),
      { statsCache := statsCache, calls := calls, gaveUp := true })
  | retry + 1, statsCache, calls =>
    let oldCache := env.otherWriters (retry + 1) statsCache
    match reloadTables (env.ExtendedStatsFromStorage reader) (env.Values oldCache) with
    | .error e =>
      (some (.storage e), { statsCache := oldCache, calls := calls, gaveUp := false })
    | .ok tables =>
      let r := updateStatsCache env oldCache oldCache tables []
      if r.1 then (none, { statsCache := r.2, calls := calls + 1, gaveUp := false })
      else reloadExtendedStatisticsLoop env reader retry r.2 (calls + 1)

/-- The function `Handle.ReloadExtendedStatistics` (handle.go, lines 1320-1346).  The
deferred function assigns the error of `releaseGlobalStatsReader` to the local variable
`err`; the result of the function has no name, so that error is not returned. -/
def ReloadExtendedStatistics {Cache Table Reader : Type} (env : CacheEnv Cache Table Reader)
    (statsCache : Cache) : Option ReloadError × RetryOutcome Cache :=
  match env.getGlobalStatsReader with
  | .error e => (some (.reader e), { statsCache := statsCache, calls := 0, gaveUp := false })
  | .ok reader => reloadExtendedStatisticsLoop env reader updateStatsCacheRetryCnt statsCache 0

/-- A cache for the examples: the tables are numbers and the cache is their list; other
goroutines add the table 9 before every iteration, and an update puts the given tables
in front of the cache. -/
def exampleCacheEnv : CacheEnv (List Nat) Nat Unit :=
  { UpdateStatsCache := fun statsCache _ tables _ => tables ++ statsCache,
    otherWriters := fun _ c => 9 :: c,
    Get := fun c id => c.find? (fun t => (t : Int) == id),
    Values := fun c => c,
    hasExtendedStats := fun _ => true,
    removeStats := fun t _ => t,
    getGlobalStatsReader := .ok (),
    ExtendedStatsFromStorage := fun _ t => .ok t }

/-! ## The usage of column statistics -/

/-- The value of a datetime column in a row (`types.Time`, not among the sources); a text
stands for it. -/
abbrev SqlTime := String

/-- A `time.Time` as a point in time: its number of nanoseconds since the epoch.
`a.After(b)` is `b < a`. -/
abbrev Instant := Int

/-- A row of the select of `GetPredicateColumns`: `column_id` and `last_used_at`
converted to UTC; `none` is NULL. -/
structure PredicateRow where
  columnID : Option Int
  lastUsedAt : Option SqlTime
  deriving DecidableEq, Repr

/-- A row of the select of `LoadColumnStatsUsage`: `table_id`, `column_id`,
`last_used_at` and `last_analyzed_at`; `none` is NULL. -/
structure UsageRow where
  tableID : Option Int
  columnID : Option Int
  lastUsedAt : Option SqlTime
  lastAnalyzedAt : Option SqlTime
  deriving DecidableEq, Repr

/-- The key `model.TableItemID` (not among the sources). -/
structure TableItemID where
  TableID : Int
  ID : Int
  IsIndex : Bool
  deriving DecidableEq, Repr

/-- The type `colStatsTimeInfo` (handle.go, lines 1539-1542); `none` is a nil pointer. -/
structure colStatsTimeInfo where
  LastUsedAt : Option SqlTime
  LastAnalyzedAt : Option SqlTime
  deriving DecidableEq, Repr

/-- What the functions on `mysql.column_stats_usage` take from outside handle.go.

* `disableTimeRows`: the result of the select on `mysql.tidb`, a datum per row;
* `datumToString`: `d.ToString()`;
* `timeParse`: `time.Parse(types.UTCTimeFormat, value)`;
* `predicateRows`, `usageRows`: the results of the selects on
  `mysql.column_stats_usage`;
* `GoTime`: `row.GetTime(i).GoTime(time.UTC)`;
* `timeIn`: `types.NewTime(types.FromGoTime(gt.In(loc)), mysql.TypeTimestamp,
  types.DefaultFsp)` for the location of the call. -/
structure UsageEnv where
  disableTimeRows : Except String (List String)
  datumToString : String → Except String String
  timeParse : String → Except String Instant
  predicateRows : Int → Except String (List PredicateRow)
  usageRows : Except String (List UsageRow)
  GoTime : SqlTime → Except String Instant
  timeIn : Instant → SqlTime

/-- The function `Handle.getDisableColumnTrackingTime` (handle.go, lines 1545-1564);
`.ok none` is the result `nil, nil`. -/
def getDisableColumnTrackingTime (env : UsageEnv) : Except String (Option Instant) :=
  match env.disableTimeRows with
  | .error e => .error e
  | .ok [] => .ok none
  | .ok (d :: _) =>
    match env.datumToString d with
    | .error e => .error e
    | .ok value =>
      match env.timeParse value with
      | .error e => .error e
      | .ok t => .ok (some t)

/-- The test `disableTime == nil || gt.After(*disableTime)`. -/
def afterDisableTime (disableTime : Option Instant) (gt : Instant) : Bool :=
  match disableTime with
  | none => true
  | some d => decide (d < gt)

/-- The loop of `GetPredicateColumns` (handle.go, lines 1648-1662) over the rows that are
left, with the slice `columnIDs` built so far. -/
def predicateColumnsLoop (env : UsageEnv) (disableTime : Option Instant) :
    List PredicateRow → List Int → Except String (List Int)
  | [], columnIDs => .ok columnIDs
  | row :: rest, columnIDs =>
    match row.columnID, row.lastUsedAt with
    | some colID, some t =>
      match env.GoTime t with
      | .error e => .error e
      | .ok gt =>
        if afterDisableTime disableTime gt then
          predicateColumnsLoop env disableTime rest (columnIDs ++ [colID])
        else predicateColumnsLoop env disableTime rest columnIDs
    | _, _ => predicateColumnsLoop env disableTime rest columnIDs

/-- The function `Handle.GetPredicateColumns` (handle.go, lines 1637-1664). -/
def GetPredicateColumns (env : UsageEnv) (tableID : Int) : Except String (List Int) :=
  match getDisableColumnTrackingTime env with
  | .error e => .error e
  | .ok disableTime =>
    match env.predicateRows tableID with
    | .error e => .error e
    | .ok rows => predicateColumnsLoop env disableTime rows []

/-- The field `LastUsedAt` that `LoadColumnStatsUsage` computes for a row (handle.go,
lines 1585-1596). -/
def usageLastUsedAt (env : UsageEnv) (disableTime : Option Instant) (row : UsageRow) :
    Except String (Option SqlTime) :=
  match row.lastUsedAt with
  | none => .ok none
  | some t =>
    match env.GoTime t with
    | .error e => .error e
    | .ok gt => if afterDisableTime disableTime gt then .ok (some (env.timeIn gt)) else .ok none

/-- The field `LastAnalyzedAt` that `LoadColumnStatsUsage` computes for a row (handle.go,
lines 1597-1604). -/
def usageLastAnalyzedAt (env : UsageEnv) (row : UsageRow) : Except String (Option SqlTime) :=
  match row.lastAnalyzedAt with
  | none => .ok none
  | some t =>
    match env.GoTime t with
    | .error e => .error e
    | .ok gt => .ok (some (env.timeIn gt))

/-- The map `colStatsMap`: the value stored under a key, if there is one. -/
abbrev ColStatsMap := TableItemID → Option colStatsTimeInfo

/-- The loop of `LoadColumnStatsUsage` (handle.go, lines 1579-1606) over the rows that are
left, with the map built so far. -/
def columnStatsUsageLoop (env : UsageEnv) (disableTime : Option Instant) :
    List UsageRow → ColStatsMap → Except String ColStatsMap
  | [], colStatsMap => .ok colStatsMap
  | row :: rest, colStatsMap =>
    match row.tableID, row.columnID with
    | some tableID, some columnID =>
      match usageLastUsedAt env disableTime row with
      | .error e => .error e
      | .ok lastUsedAt =>
        match usageLastAnalyzedAt env row with
        | .error e => .error e
        | .ok lastAnalyzedAt =>
          columnStatsUsageLoop env disableTime rest
            (Function.update colStatsMap
              { TableID := tableID, ID := columnID, IsIndex := false }
              (some { LastUsedAt := lastUsedAt, LastAnalyzedAt := lastAnalyzedAt }))
    | _, _ => columnStatsUsageLoop env disableTime rest colStatsMap

/-- The function `Handle.LoadColumnStatsUsage` (handle.go, lines 1568-1609) for the
location that `env.timeIn` converts to. -/
def LoadColumnStatsUsage (env : UsageEnv) : Except String ColStatsMap :=
  match getDisableColumnTrackingTime env with
  | .error e => .error e
  | .ok disableTime =>
    match env.usageRows with
    | .error e => .error e
    | .ok rows => columnStatsUsageLoop env disableTime rows (fun _ => none)

/-- The rule of the claim for a row of `GetPredicateColumns`, in its words: a row with a
NULL is skipped; the column is in the result when no disable time is recorded or its
`last_used_at` (the instant `g t`) is after the disable time. -/
def predicateColumnRule (disableTime : Option Instant) (g : SqlTime → Instant)
    (row : PredicateRow) : Option Int :=
  match row.columnID, row.lastUsedAt with
  | some colID, some t =>
    match disableTime with
    | none => some colID
    | some d => if d < g t then some colID else none
  | _, _ => none

/-- The rule of the claim for `LastUsedAt`, in its words: the time is kept when no
disable time is recorded or the instant `g t` is after the disable time. -/
def lastUsedAtRule (disableTime : Option Instant) (g : SqlTime → Instant)
    (timeIn : Instant → SqlTime) (t : SqlTime) : Option SqlTime :=
  match disableTime with
  | none => some (timeIn (g t))
  | some d => if d < g t then some (timeIn (g t)) else none

/-- The step of the loop of `LoadColumnStatsUsage` in the words of the claim: a row with
a NULL `table_id` or `column_id` is skipped; otherwise its key gets `LastUsedAt` under
the rule of `GetPredicateColumns` (`last_used_at` not NULL, and no disable time recorded
or the instant `g t` after it) and `LastAnalyzedAt` whenever `last_analyzed_at` is not
NULL. -/
def usageRule (disableTime : Option Instant) (g : SqlTime → Instant)
    (timeIn : Instant → SqlTime) (colStatsMap : ColStatsMap) (row : UsageRow) : ColStatsMap :=
  match row.tableID, row.columnID with
  | some tableID, some columnID =>
    Function.update colStatsMap { TableID := tableID, ID := columnID, IsIndex := false }
      (some
        { LastUsedAt := row.lastUsedAt.bind (lastUsedAtRule disableTime g timeIn),
          LastAnalyzedAt := row.lastAnalyzedAt.map (fun t => timeIn (g t)) })
  | _, _ => colStatsMap

/-- An environment for the examples: the disable time is recorded, the instant of a time
is the length of its text, and the disable time is 3. -/
def exampleUsageEnv : UsageEnv :=
  { disableTimeRows := .ok ["ddd"],
    datumToString := fun d => .ok d,
    timeParse := fun value => .ok value.length,
    predicateRows := fun _ =>
      .ok [⟨some 1, some "aa"⟩, ⟨some 2, some "aaaa"⟩, ⟨none, some "aaaa"⟩, ⟨some 4, some "aaa"⟩],
    usageRows := .ok [⟨some 7, some 1, some "aa", some "a"⟩, ⟨some 7, some 2, some "aaaa", none⟩],
    GoTime := fun t => .ok t.length,
    timeIn := fun gt => toString gt }

/-! ## The lower bound of the versions `Update` reads -/

/-- The function `DurationToTS` (handle.go, lines 217-219):
`oracle.ComposeTS(d.Nanoseconds()/int64(time.Millisecond), 0)`.  A duration is its
number of nanoseconds, an `int64`, and the division of Go truncates towards zero.
`oracle.ComposeTS` is not among the sources and is a parameter; its result is a `uint64`,
so the value of the parameter is read modulo `2^64`. -/
def DurationToTS (ComposeTS : Int → Int → Nat) (d : Int) : Nat :=
  ComposeTS (Int.tdiv d 1000000) 0 % 2 ^ 64

/-- The value of `lastVersion` that `Handle.Update` passes to the select on
`mysql.stats_meta` (handle.go, lines 252-264).  `lease` is `h.Lease()` and `version` is
the value of both calls of `oldCache.Version()`; the product `3 * h.Lease()` is an `int64`
product and `lastVersion - offset` a `uint64` difference. -/
def updateLastVersion (ComposeTS : Int → Int → Nat) (lease : Int) (version : Nat) : Nat :=
  let offset := DurationToTS ComposeTS (wrapInt64 (3 * lease))
  if version ≥ offset then (version + 2 ^ 64 - offset) % 2 ^ 64 else 0

/-- A composition of timestamps for the examples: the physical part shifted by 18 bits
plus the logical part. -/
def exampleComposeTS (physical logical : Int) : Nat :=
  (physical * 2 ^ 18 + logical).toNat

/-! ## The counts written to `mysql.stats_meta` -/

/-- The range of `int64`. -/
def inInt64 (x : Int) : Prop :=
  -2 ^ 63 ≤ x ∧ x < 2 ^ 63

/-- The result `staleResults` taken at snapshot 60, which is newer than the row of
`exampleEnv`: a normal version 2 result. -/
def normalResults : AnalyzeResults :=
  { staleResults with Snapshot := 60 }

end StatsHandle

namespace Disttask

/-! ## Theorems -/

/-! ### Lookup of a task row after an update -/

theorem find_task_map (l : List Task) (upd : Task → Task) (id : Int)
    (hid : ∀ t, (upd t).ID = t.ID) :
    (l.map upd).find? (fun t => decide (t.ID = id)) =
      (l.find? (fun t => decide (t.ID = id))).map upd := by
  induction l with
  | nil => rfl
  | cons a l ih =>
    by_cases h : a.ID = id
    · simp [List.find?, hid, h]
    · simp [List.find?, hid, h, ih]

theorem find_task_some_id (l : List Task) (id : Int) (t : Task)
    (h : l.find? (fun t => decide (t.ID = id)) = some t) : t.ID = id := by
  have := List.find?_some h
  simpa using this

theorem getTask_some_id (s : Storage) (id : Int) (t : Task)
    (h : GetGlobalTaskByID s id = some t) : t.ID = id :=
  find_task_some_id s.tasks id t h

theorem getTask_some_mem (s : Storage) (id : Int) (t : Task)
    (h : GetGlobalTaskByID s id = some t) : t ∈ s.tasks :=
  List.mem_of_find?_eq_some h

theorem getTask_of_mem (s : Storage) (t : Task)
    (hn : (s.tasks.map (fun x => x.ID)).Nodup) (hm : t ∈ s.tasks) :
    GetGlobalTaskByID s t.ID = some t := by
  unfold GetGlobalTaskByID
  generalize s.tasks = l at hn hm
  induction l with
  | nil => cases hm
  | cons a l ih =>
    rw [List.map_cons, List.nodup_cons] at hn
    rcases List.mem_cons.1 hm with rfl | hm
    · simp [List.find?]
    · have hne : a.ID ≠ t.ID := by
        intro h
        exact hn.1 (h ▸ List.mem_map_of_mem (fun x => x.ID) hm)
      simp [List.find?, hne, ih hn.2 hm]

theorem getTask_markTaskFailed_ne (s : Storage) (id other : Int) (e : String)
    (h : other ≠ id) :
    GetGlobalTaskByID (markTaskFailed s other e) id = GetGlobalTaskByID s id := by
  unfold GetGlobalTaskByID markTaskFailed
  simp only
  rw [find_task_map]
  · cases hf : s.tasks.find? (fun t => decide (t.ID = id)) with
    | none => rfl
    | some t =>
      have := find_task_some_id _ _ _ hf
      simp [this, Ne.symm h]
  · intro t
    by_cases ht : t.ID = other <;> simp [ht]

theorem getTask_markTaskFailed_self (s : Storage) (id : Int) (e : String) (t : Task)
    (h : GetGlobalTaskByID s id = some t) :
    GetGlobalTaskByID (markTaskFailed s id e) id =
      some { t with State := .Failed, Error := some e } := by
  have hid := getTask_some_id s id t h
  unfold GetGlobalTaskByID markTaskFailed at *
  simp only
  rw [find_task_map]
  · rw [h]
    simp [hid]
  · intro t
    by_cases ht : t.ID = id <;> simp [ht]

theorem getTask_updateTask_self (s : Storage) (t u : Task)
    (h : GetGlobalTaskByID s u.ID = some t) :
    GetGlobalTaskByID (updateTask s u) u.ID = some u := by
  have hid := getTask_some_id s u.ID t h
  unfold GetGlobalTaskByID updateTask at *
  simp only
  rw [find_task_map]
  · rw [h]
    simp [hid]
  · intro t
    by_cases ht : t.ID = u.ID <;> simp [ht]

theorem getTask_updateTask_ne (s : Storage) (u : Task) (id : Int) (h : u.ID ≠ id) :
    GetGlobalTaskByID (updateTask s u) id = GetGlobalTaskByID s id := by
  unfold GetGlobalTaskByID updateTask
  simp only
  rw [find_task_map]
  · cases hf : s.tasks.find? (fun t => decide (t.ID = id)) with
    | none => rfl
    | some t =>
      have := find_task_some_id _ _ _ hf
      simp [this, Ne.symm h]
  · intro t
    by_cases ht : t.ID = u.ID <;> simp [ht]

/-- Claim C1. For each of the ten pairs of the transition table,
`VerifyTaskStateTransform` returns exactly the tabulated boolean. -/
theorem verifyTaskStateTransform_table :
    VerifyTaskStateTransform .Running .Running = true ∧
    VerifyTaskStateTransform .Pending .Running = true ∧
    VerifyTaskStateTransform .Running .Reverting = true ∧
    VerifyTaskStateTransform .Reverting .Reverted = true ∧
    VerifyTaskStateTransform .Running .Pausing = true ∧
    VerifyTaskStateTransform .Pending .Reverting = false ∧
    VerifyTaskStateTransform .Reverting .Succeed = false ∧
    VerifyTaskStateTransform .Running .Resuming = false ∧
    VerifyTaskStateTransform .Cancelling .Running = false ∧
    VerifyTaskStateTransform .Canceled .Running = false ∧
    testCases.all (fun tc => VerifyTaskStateTransform tc.1 tc.2.1 == tc.2.2) = true := by
  decide

/-- Claim C2. No terminal task state can be left: for a terminal state `s` and any
state `t` different from `s`, the transition from `s` to `t` is rejected. -/
theorem verifyTaskStateTransform_terminal (s t : TaskState)
    (hs : s.isTerminal = true) (_hne : t ≠ s) :
    VerifyTaskStateTransform s t = false := by
  cases s <;> cases t <;> first | rfl | (exact absurd hs (by decide))

theorem verifyTaskStateTransform_terminal_witness :
    TaskState.Succeed.isTerminal = true ∧ TaskState.Running ≠ TaskState.Succeed ∧
    VerifyTaskStateTransform .Succeed .Running = false :=
  ⟨by decide, by decide,
    verifyTaskStateTransform_terminal .Succeed .Running (by decide) (by decide)⟩

/-- Claim C3. `GetAllSchedulerIDs` returns, without error, a duplicate-free list whose
elements are exactly the `SchedulerID` values of the task's subtasks; the set does not
depend on the order of the subtask rows, and the list is empty when the task has no
subtask.  The extension (and so the result of `GetEligibleInstances`) is arbitrary. -/
theorem getAllSchedulerIDs_distinct_set (ext : Extension) (s : Storage) (task : Task) :
    ∃ ids : List String, GetAllSchedulerIDs ext s task = .ok ids ∧ ids.Nodup ∧
      (∀ x, x ∈ ids ↔ ∃ st ∈ s.subtasks, st.TaskID = task.ID ∧ st.SchedulerID = x) ∧
      (∀ (ext2 : Extension) (s2 : Storage), s2.subtasks.Perm s.subtasks →
        ∃ ids2, GetAllSchedulerIDs ext2 s2 task = .ok ids2 ∧ ∀ x, x ∈ ids2 ↔ x ∈ ids) ∧
      ((∀ st ∈ s.subtasks, st.TaskID ≠ task.ID) → ids = []) := by
  refine ⟨_, rfl, List.nodup_dedup _, ?_, ?_, ?_⟩
  · intro x
    simp only [List.mem_dedup, List.mem_map, List.mem_filter, decide_eq_true_eq]
    constructor
    · rintro ⟨st, ⟨hm, ht⟩, hx⟩
      exact ⟨st, hm, ht, hx⟩
    · rintro ⟨st, hm, ht, hx⟩
      exact ⟨st, ⟨hm, ht⟩, hx⟩
  · intro ext2 s2 hperm
    refine ⟨_, rfl, ?_⟩
    intro x
    simp only [List.mem_dedup, List.mem_map, List.mem_filter, decide_eq_true_eq, hperm.mem_iff]
  · intro hnone
    have hfil : s.subtasks.filter (fun x => decide (x.TaskID = task.ID)) = [] := by
      rw [List.filter_eq_nil_iff]
      intro st hst
      simpa using hnone st hst
    rw [hfil]
    rfl

/-! ### The dispatch loop of the Manager -/

theorem subtasks_markTaskFailed (s : Storage) (id : Int) (e : String) :
    (markTaskFailed s id e).subtasks = s.subtasks := rfl

theorem subtasks_startDispatcher (reg : Registry) (ms : Manager × Storage) (u : Task) :
    (startDispatcher reg ms u).2.subtasks = ms.2.subtasks := by
  unfold startDispatcher
  split
  · rfl
  · split
    · rfl
    · split <;> rfl

theorem subtasks_foldl_startDispatcher (reg : Registry) (l : List Task)
    (ms : Manager × Storage) :
    (l.foldl (startDispatcher reg) ms).2.subtasks = ms.2.subtasks := by
  induction l generalizing ms with
  | nil => rfl
  | cons a l ih => rw [List.foldl_cons, ih, subtasks_startDispatcher]

theorem untouched_startDispatcher (reg : Registry) (id : Int) (k : Nat) (x : Option Task)
    (ms : Manager × Storage) (u : Task) (hne : u.ID ≠ id) (h : Untouched id k x ms) :
    Untouched id k x (startDispatcher reg ms u) := by
  obtain ⟨h1, h2, h3⟩ := h
  unfold startDispatcher
  split
  · exact ⟨h1, h2, h3⟩
  · split
    · exact ⟨h1, h2, by simp only [getTask_markTaskFailed_ne _ _ _ _ hne, h3]⟩
    · have hc : (ms.1.constructed ++ [u.ID]).count id = k := by
        have hz : [u.ID].count id = 0 :=
          List.count_eq_zero.2 (by simpa using Ne.symm hne)
        rw [List.count_append, h1, hz, Nat.add_zero]
      split
      · exact ⟨hc, h2, by simp only [getTask_markTaskFailed_ne _ _ _ _ hne, h3]⟩
      · refine ⟨hc, ?_, h3⟩
        simp only [List.mem_append, List.mem_singleton, not_or]
        exact ⟨h2, Ne.symm hne⟩

theorem untouched_foldl (reg : Registry) (id : Int) (k : Nat) (x : Option Task)
    (l : List Task) (ms : Manager × Storage) (hne : ∀ u ∈ l, u.ID ≠ id)
    (h : Untouched id k x ms) :
    Untouched id k x (l.foldl (startDispatcher reg) ms) := by
  induction l generalizing ms with
  | nil => exact h
  | cons a l ih =>
    rw [List.foldl_cons]
    exact ih _ (fun u hu => hne u (List.mem_cons_of_mem _ hu))
      (untouched_startDispatcher reg id k x ms a (hne a (List.mem_cons_self _ _)) h)

/-- The startable tasks found by a tick, split around one of them. -/
theorem startable_split (s : Storage) (task : Task)
    (hnodup : (s.tasks.map (fun x => x.ID)).Nodup) (hmem : task ∈ s.tasks)
    (hst : task.State = .Pending ∨ task.State = .Running) :
    ∃ l1 l2, GetGlobalTasksInStates s [.Pending, .Running] = l1 ++ task :: l2 ∧
      (∀ u ∈ l1, u.ID ≠ task.ID) ∧ (∀ u ∈ l2, u.ID ≠ task.ID) := by
  have hin : task ∈ GetGlobalTasksInStates s [.Pending, .Running] := by
    unfold GetGlobalTasksInStates
    rw [List.mem_filter]
    refine ⟨hmem, ?_⟩
    rcases hst with h | h <;> simp [h]
  have hnd : ((GetGlobalTasksInStates s [.Pending, .Running]).map (fun x => x.ID)).Nodup :=
    hnodup.sublist ((List.filter_sublist _).map _)
  obtain ⟨l1, l2, hl⟩ := List.append_of_mem hin
  refine ⟨l1, l2, hl, ?_, ?_⟩
  · intro u hu heq
    rw [hl, List.map_append, List.map_cons] at hnd
    have := (List.nodup_append.1 hnd).2.2
    exact this (List.mem_map_of_mem (fun x => x.ID) hu) (by rw [heq]; exact List.mem_cons_self _ _)
  · intro u hu heq
    rw [hl, List.map_append, List.map_cons] at hnd
    have := ((List.nodup_append.1 hnd).2.1)
    rw [List.nodup_cons] at this
    exact this.1 (heq ▸ List.mem_map_of_mem (fun x => x.ID) hu)

theorem dispatcherTick_terminal (c : StepConsts) (ext : Extension) (fuel : Nat) (s : Storage)
    (id : Int) (t : Task) (hget : GetGlobalTaskByID s id = some t)
    (hterm : t.State.isTerminal = true) : dispatcherTick c ext fuel s id = some s := by
  unfold dispatcherTick
  rw [hget]
  cases hs : t.State <;> simp_all [TaskState.isTerminal]

theorem startDispatcher_unknown (reg : Registry) (ms : Manager × Storage) (task : Task)
    (hnt : task.ID ∉ ms.1.runningTasks)
    (hreg : getDispatcherFactory reg task.TaskType = none) :
    startDispatcher reg ms task =
      (ms.1, markTaskFailed ms.2 task.ID ("unknown task type: " ++ task.TaskType)) := by
  unfold startDispatcher
  rw [if_neg hnt]
  simp only [hreg]

theorem startDispatcher_init_error (reg : Registry) (ms : Manager × Storage) (task : Task)
    (f : DispatcherFactory) (e : String)
    (hnt : task.ID ∉ ms.1.runningTasks)
    (hreg : getDispatcherFactory reg task.TaskType = some f)
    (hinit : (f task).Init = some e) :
    startDispatcher reg ms task =
      ({ ms.1 with constructed := ms.1.constructed ++ [task.ID] },
        markTaskFailed ms.2 task.ID e) := by
  unfold startDispatcher
  rw [if_neg hnt]
  simp only [hreg, hinit]

/-- Claim C4. A startable task whose type has no registered factory: the dispatch loop
constructs no Dispatcher for it, does not add it to the tracked-running set, and marks
it `Failed` with the error text "unknown task type: " followed by the type. -/
theorem dispatchTaskLoop_unknown_task_type (cap : Nat) (reg : Registry) (m : Manager)
    (s : Storage) (task : Task)
    (hcap : GetRunningTaskCnt m < cap)
    (hnodup : (s.tasks.map (fun x => x.ID)).Nodup)
    (hmem : task ∈ s.tasks)
    (hst : task.State = .Pending ∨ task.State = .Running)
    (hnt : task.ID ∉ m.runningTasks)
    (hreg : getDispatcherFactory reg task.TaskType = none) :
    (dispatchTaskLoop cap reg m s).1.constructed.count task.ID = m.constructed.count task.ID ∧
    task.ID ∉ (dispatchTaskLoop cap reg m s).1.runningTasks ∧
    GetGlobalTaskByID (dispatchTaskLoop cap reg m s).2 task.ID =
      some { task with State := .Failed,
                       Error := some ("unknown task type: " ++ task.TaskType) } := by
  obtain ⟨l1, l2, hl, h1, h2⟩ := startable_split s task hnodup hmem hst
  unfold dispatchTaskLoop
  rw [if_pos hcap, hl, List.foldl_append, List.foldl_cons]
  have h0 : Untouched task.ID (m.constructed.count task.ID) (some task) (m, s) :=
    ⟨rfl, hnt, getTask_of_mem s task hnodup hmem⟩
  have ha := untouched_foldl reg _ _ _ l1 (m, s) h1 h0
  refine untouched_foldl reg _ _ _ l2 _ h2 ?_
  obtain ⟨a1, a2, a3⟩ := ha
  rw [startDispatcher_unknown reg _ task a2 hreg]
  exact ⟨a1, a2, getTask_markTaskFailed_self _ _ _ _ a3⟩

theorem dispatchTaskLoop_unknown_task_type_witness :
    GetGlobalTaskByID (dispatchTaskLoop 1 (failRegistry exampleSteps) ⟨[], []⟩ failStorage).2 1 =
      some { ID := 1, TaskType := "test-type", State := .Failed, Step := StepInit,
             Concurrency := 1, Meta := [],
             Error := some ("unknown task type: " ++ "test-type") } :=
  (dispatchTaskLoop_unknown_task_type 1 (failRegistry exampleSteps) ⟨[], []⟩ failStorage
    { ID := 1, TaskType := "test-type", State := .Pending, Step := StepInit,
      Concurrency := 1, Meta := [], Error := none }
    (by decide) (by decide) (List.mem_cons_self _ _) (Or.inl rfl) (by simp)
    (by simp [getDispatcherFactory, failRegistry, RegisterDispatcherFactory,
      TaskTypeExample])).2.2

/-- Claim C5. A startable task whose constructed Dispatcher fails in `Init()`: the task is
marked `Failed` with the init error's text, it is not added to the tracked-running set,
the dispatch loop writes no subtask, and a later tick of a drive loop on the failed task
writes nothing either. -/
theorem dispatchTaskLoop_init_error (cap : Nat) (reg : Registry) (m : Manager)
    (s : Storage) (task : Task) (f : DispatcherFactory) (e : String)
    (hcap : GetRunningTaskCnt m < cap)
    (hnodup : (s.tasks.map (fun x => x.ID)).Nodup)
    (hmem : task ∈ s.tasks)
    (hst : task.State = .Pending ∨ task.State = .Running)
    (hnt : task.ID ∉ m.runningTasks)
    (hreg : getDispatcherFactory reg task.TaskType = some f)
    (hinit : (f task).Init = some e) :
    task.ID ∉ (dispatchTaskLoop cap reg m s).1.runningTasks ∧
    GetGlobalTaskByID (dispatchTaskLoop cap reg m s).2 task.ID =
      some { task with State := .Failed, Error := some e } ∧
    (dispatchTaskLoop cap reg m s).2.subtasks = s.subtasks ∧
    ∀ (c : StepConsts) (ext : Extension) (fuel : Nat),
      dispatcherTick c ext fuel (dispatchTaskLoop cap reg m s).2 task.ID =
        some (dispatchTaskLoop cap reg m s).2 := by
  have key : Untouched task.ID (m.constructed.count task.ID + 1)
      (some { task with State := .Failed, Error := some e })
      (dispatchTaskLoop cap reg m s) := by
    obtain ⟨l1, l2, hl, h1, h2⟩ := startable_split s task hnodup hmem hst
    unfold dispatchTaskLoop
    rw [if_pos hcap, hl, List.foldl_append, List.foldl_cons]
    have h0 : Untouched task.ID (m.constructed.count task.ID) (some task) (m, s) :=
      ⟨rfl, hnt, getTask_of_mem s task hnodup hmem⟩
    have ha := untouched_foldl reg _ _ _ l1 (m, s) h1 h0
    refine untouched_foldl reg _ _ _ l2 _ h2 ?_
    obtain ⟨a1, a2, a3⟩ := ha
    rw [startDispatcher_init_error reg _ task f e a2 hreg hinit]
    refine ⟨?_, a2, getTask_markTaskFailed_self _ _ _ _ a3⟩
    show (_ ++ [task.ID]).count task.ID = _
    rw [List.count_append, a1]
    simp
  refine ⟨key.2.1, key.2.2, ?_, ?_⟩
  · unfold dispatchTaskLoop
    rw [if_pos hcap]
    exact subtasks_foldl_startDispatcher _ _ _
  · intro c ext fuel
    exact dispatcherTick_terminal c ext fuel _ _ _ key.2.2 rfl

theorem dispatchTaskLoop_init_error_witness :
    GetGlobalTaskByID (dispatchTaskLoop 1 (failRegistry exampleSteps) ⟨[], []⟩ failStorage).2 2 =
      some { ID := 2, TaskType := TaskTypeExample, State := .Failed, Step := StepInit,
             Concurrency := 1, Meta := [], Error := some "mock dispatcher init error" } :=
  (dispatchTaskLoop_init_error 1 (failRegistry exampleSteps) ⟨[], []⟩ failStorage
    { ID := 2, TaskType := TaskTypeExample, State := .Pending, Step := StepInit,
      Concurrency := 1, Meta := [], Error := none }
    (fun _ => mockDispatcher exampleSteps) "mock dispatcher init error"
    (by decide) (by decide) (List.mem_cons_of_mem _ (List.mem_cons_self _ _)) (Or.inl rfl)
    (by simp)
    (by simp [getDispatcherFactory, failRegistry, RegisterDispatcherFactory])
    rfl).2.1

/-! ### The happy path -/

theorem failedSubtasks_of_all_succeed (ext : Extension) (batch : List Subtask)
    (h : ∀ x ∈ batch, x.State = .Succeed) : failedSubtasks ext batch = [] := by
  unfold failedSubtasks
  rw [List.filter_eq_nil_iff]
  intro x hx
  simp [h x hx]

theorem subtasks_updateTask (s : Storage) (t : Task) :
    (updateTask s t).subtasks = s.subtasks := rfl

theorem detectTaskLoop_terminal (m : Manager) (s : Storage) (id : Int) (t : Task)
    (hget : GetGlobalTaskByID s id = some t) (hterm : t.State.isTerminal = true) :
    id ∉ (detectTaskLoop m s).runningTasks ∧
    (m.runningTasks = [id] → GetRunningTaskCnt (detectTaskLoop m s) = 0) := by
  constructor
  · unfold detectTaskLoop
    simp only [List.mem_filter, not_and]
    intro _
    rw [hget]
    simp [hterm]
  · intro hm
    unfold GetRunningTaskCnt detectTaskLoop
    simp only [hm, List.filter_cons, hget, hterm]
    rfl

/-- Claim C7. Happy path: an extension whose `GetNextStep` maps `StepInit` to `StepOne` and
every other step to `StepDone` and whose batch at `StepOne` is empty (as
`numberExampleDispatcherExt`), and a `Running` task at `StepInit` whose three subtasks
are all `Succeed`.  One tick of the Dispatcher (with room for two evaluations of
`GetNextStep`) takes `StepOne` as a step without work (no subtask is written), evaluates
`GetNextStep` again, obtains `StepDone` and moves the task to `Succeed`; the next tick
of the detection loop removes the task from the tracked-running set, which is then empty
if the task was the only one tracked. -/
theorem happy_path_succeed (c : StepConsts) (ext : Extension)
    (fuel : Nat) (s : Storage) (m : Manager) (id : Int) (t : Task)
    (hfuel : 2 ≤ fuel)
    (hone : c.StepOne ≠ StepInit) (hdone : c.StepOne ≠ c.StepDone)
    (hnext : ∀ u : Task, ext.GetNextStep u = if u.Step = StepInit then c.StepOne else c.StepDone)
    (hempty : ∀ u : Task, u.Step = c.StepOne → ext.OnNextSubtasksBatch u c.StepOne = .ok [])
    (hget : GetGlobalTaskByID s id = some t)
    (hrun : t.State = .Running) (hstep : t.Step = StepInit)
    (_hlen : (currentBatch s t).length = subtaskCnt)
    (hsucc : ∀ x ∈ currentBatch s t, x.State = .Succeed) :
    ∃ s2, dispatcherTick c ext fuel s id = some s2 ∧
      GetGlobalTaskByID s2 id = some { t with State := .Succeed, Step := c.StepOne } ∧
      s2.subtasks = s.subtasks ∧
      id ∉ (detectTaskLoop m s2).runningTasks ∧
      (m.runningTasks = [id] → GetRunningTaskCnt (detectTaskLoop m s2) = 0) := by
  obtain ⟨n, rfl⟩ : ∃ n, fuel = n + 2 := ⟨fuel - 2, by omega⟩
  have hid := getTask_some_id s id t hget
  subst hid
  have hall : (currentBatch s t).all (fun x => decide (x.State = .Succeed)) = true := by
    rw [List.all_eq_true]
    intro x hx
    simpa using hsucc x hx
  have htick : dispatcherTick c ext (n + 2) s t.ID =
      some (updateTask s { t with State := .Succeed, Step := c.StepOne }) := by
    unfold dispatcherTick
    rw [hget]
    simp only [hrun, failedSubtasks_of_all_succeed _ _ hsucc, hall]
    simp [onNextStage, hnext, hstep, hone, hdone, hempty]
  have hget2 : GetGlobalTaskByID (updateTask s { t with State := .Succeed, Step := c.StepOne })
      t.ID = some { t with State := .Succeed, Step := c.StepOne } :=
    getTask_updateTask_self s t { t with State := .Succeed, Step := c.StepOne } hget
  refine ⟨_, htick, hget2, rfl, ?_⟩
  exact detectTaskLoop_terminal m _ t.ID _ hget2 rfl

theorem happy_path_succeed_witness :
    ∃ s2, dispatcherTick exampleSteps (numberExampleDispatcherExt exampleSteps (.ok [":4000"])) 2
        happyStorage 1 = some s2 ∧
      (GetGlobalTaskByID s2 1).map (fun t => (t.State, t.Step)) = some (.Succeed, 1) ∧
      GetRunningTaskCnt (detectTaskLoop { runningTasks := [1], constructed := [1] } s2) = 0 := by
  obtain ⟨s2, h1, h2, _, _, h5⟩ :=
    happy_path_succeed exampleSteps (numberExampleDispatcherExt exampleSteps (.ok [":4000"])) 2
      happyStorage { runningTasks := [1], constructed := [1] } 1 _
      (by decide) (by decide) (by decide) (fun _ => rfl)
      (fun u hu => by
        have h1 : u.Step ≠ StepInit := by rw [hu]; decide
        show (if u.Step = StepInit then _
          else if u.Step = exampleSteps.StepOne then _ else _) = _
        rw [if_neg h1, if_pos hu])
      rfl rfl rfl (by decide) (by decide)
  exact ⟨s2, h1, by rw [h2]; rfl, h5 rfl⟩

/-! ### Task cancel -/

theorem tasks_emitBatchFrom (taskID step : Int) (tp : String) (nodes : List String)
    (metas : List (List Nat)) (i : Nat) (s : Storage) :
    (emitBatchFrom taskID step tp nodes i metas s).tasks = s.tasks := by
  induction metas generalizing i s with
  | nil => rfl
  | cons m ms ih =>
    simp only [emitBatchFrom]
    rw [ih]
    rfl

theorem mem_subtasks_emitBatchFrom (taskID step : Int) (tp : String) (nodes : List String)
    (metas : List (List Nat)) (i : Nat) (s : Storage) (x : Subtask)
    (hx : x ∈ (emitBatchFrom taskID step tp nodes i metas s).subtasks) :
    x ∈ s.subtasks ∨ x.State = .Pending := by
  induction metas generalizing i s with
  | nil => exact Or.inl hx
  | cons m ms ih =>
    simp only [emitBatchFrom] at hx
    rcases ih _ _ hx with h | h
    · simp only [AddNewSubTask, List.mem_append, List.mem_singleton] at h
      rcases h with h | h
      · exact Or.inl h
      · exact Or.inr (by rw [h])
    · exact Or.inr h

theorem tasks_startRevert (c : StepConsts) (ext : Extension) (s : Storage) (t : Task)
    (errs : List (Option String)) :
    (startRevert c ext s t errs).tasks =
      (updateTask s { t with State := .Reverting }).tasks := by
  unfold startRevert
  simp only
  split
  · split
    · exact tasks_emitBatchFrom _ _ _ _ _ _ _
    · rfl
  · rfl

theorem mem_subtasks_startRevert (c : StepConsts) (ext : Extension) (s : Storage) (t : Task)
    (errs : List (Option String)) (x : Subtask)
    (hx : x ∈ (startRevert c ext s t errs).subtasks) :
    x ∈ s.subtasks ∨ x.State = .Pending := by
  unfold startRevert at hx
  simp only at hx
  split at hx
  · split at hx
    · exact mem_subtasks_emitBatchFrom _ _ _ _ _ _ (updateTask s _) x hx
    · exact Or.inl hx
  · exact Or.inl hx

theorem getTask_congr (s s2 : Storage) (h : s2.tasks = s.tasks) (id : Int) :
    GetGlobalTaskByID s2 id = GetGlobalTaskByID s id := by
  unfold GetGlobalTaskByID
  rw [h]

theorem getTask_cancel_running (s : Storage) (id : Int) (t : Task)
    (hget : GetGlobalTaskByID s id = some t) (hrun : t.State = .Running) :
    GetGlobalTaskByID (CancelGlobalTask s id) id = some { t with State := .Cancelling } := by
  have hid := getTask_some_id s id t hget
  unfold GetGlobalTaskByID CancelGlobalTask at *
  simp only
  rw [find_task_map]
  · rw [hget]
    simp [hid, hrun]
  · intro u
    split <;> rfl

theorem dispatcherTick_reverting_done (c : StepConsts) (ext : Extension) (fuel : Nat)
    (s : Storage) (id : Int) (t : Task)
    (hget : GetGlobalTaskByID s id = some t) (hrev : t.State = .Reverting)
    (hne : revertBatch c s t ≠ [])
    (hall : ∀ x ∈ revertBatch c s t, x.State = .Reverted) :
    dispatcherTick c ext fuel s id = some (updateTask s { t with State := .Reverted }) := by
  have h1 : (revertBatch c s t).isEmpty = false := by
    cases h : revertBatch c s t with
    | nil => exact absurd h hne
    | cons a l => rfl
  have h2 : (revertBatch c s t).all (fun x => decide (x.State = .Reverted)) = true := by
    rw [List.all_eq_true]
    intro x hx
    simpa using hall x hx
  unfold dispatcherTick
  rw [hget]
  simp only [hrev, h1, h2]
  rfl

/-- Claim C9. Task cancel: after `CancelGlobalTask` on a `Running` task, the next tick of
the owning Dispatcher moves the task to `Reverting`, whatever the extension; and in any
storage that differs from the result only in its subtask rows, once the revert batch is
there and all its subtasks are `Reverted`, the next tick moves the task to `Reverted`.
Neither tick needs or produces a `Failed` subtask: the first leaves the old subtasks as
they are and adds `Pending` ones only, the second writes no subtask. -/
theorem task_cancel_reverts (c : StepConsts) (ext : Extension) (fuel : Nat) (s : Storage)
    (id : Int) (t : Task)
    (hget : GetGlobalTaskByID s id = some t) (hrun : t.State = .Running)
    (hnofail : ∀ x ∈ s.subtasks, x.TaskID = id → x.State ≠ .Failed) :
    ∃ s2, dispatcherTick c ext fuel (CancelGlobalTask s id) id = some s2 ∧
      GetGlobalTaskByID s2 id = some { t with State := .Reverting } ∧
      (∀ x ∈ s2.subtasks, x.TaskID = id → x.State ≠ .Failed) ∧
      (∀ s3 : Storage, s3.tasks = s2.tasks →
        revertBatch c s3 { t with State := .Reverting } ≠ [] →
        (∀ x ∈ revertBatch c s3 { t with State := .Reverting }, x.State = .Reverted) →
        ∃ s4, dispatcherTick c ext fuel s3 id = some s4 ∧
          GetGlobalTaskByID s4 id = some { t with State := .Reverted } ∧
          s4.subtasks = s3.subtasks) := by
  have hid := getTask_some_id s id t hget
  subst hid
  have hc := getTask_cancel_running s t.ID t hget hrun
  have htick : dispatcherTick c ext fuel (CancelGlobalTask s t.ID) t.ID =
      some (startRevert c ext (CancelGlobalTask s t.ID) { t with State := .Cancelling } []) := by
    unfold dispatcherTick
    rw [hc]
  have hget2 : GetGlobalTaskByID
      (startRevert c ext (CancelGlobalTask s t.ID) { t with State := .Cancelling } []) t.ID =
      some { t with State := .Reverting } := by
    rw [getTask_congr _ _ (tasks_startRevert _ _ _ _ _)]
    exact getTask_updateTask_self (CancelGlobalTask s t.ID) _ { t with State := .Reverting } hc
  refine ⟨_, htick, hget2, ?_, ?_⟩
  · intro x hx hxt
    rcases mem_subtasks_startRevert _ _ _ _ _ x hx with h | h
    · exact hnofail x h hxt
    · rw [h]
      decide
  · intro s3 htasks hne hall
    have hget3 : GetGlobalTaskByID s3 t.ID = some { t with State := .Reverting } := by
      rw [getTask_congr _ _ htasks]
      exact hget2
    refine ⟨_, dispatcherTick_reverting_done c ext fuel s3 t.ID _ hget3 rfl hne hall, ?_, rfl⟩
    exact getTask_updateTask_self s3 _ { t with State := .Reverted } hget3

theorem task_cancel_reverts_witness :
    (∃ s2, dispatcherTick exampleSteps (revertingExampleExt exampleSteps (.ok [":4000"])) 1
        (CancelGlobalTask runningStorage 1) 1 = some s2 ∧
      (GetGlobalTaskByID s2 1).map (fun t => t.State) = some .Reverting) ∧
    taskStateTrace exampleSteps (revertingExampleExt exampleSteps (.ok [":4000"])) 1 1
        runningStorage [.cancel 1, .tick 1, .update 4 .Reverted none, .tick 1] =
      [some .Running, some .Cancelling, some .Reverting, some .Reverting, some .Reverted] := by
  obtain ⟨s2, h1, h2, _⟩ :=
    task_cancel_reverts exampleSteps (revertingExampleExt exampleSteps (.ok [":4000"])) 1
      runningStorage 1 _ rfl rfl (by decide)
  exact ⟨⟨s2, h1, by rw [h2]; rfl⟩, by decide⟩

/-! ### Subtask cancel and subtask failure -/

theorem normState_idem (x : SubtaskState) : normState (normState x) = normState x := by
  cases x <;> rfl

theorem normSubtask_idem (x : Subtask) : normSubtask (normSubtask x) = normSubtask x := by
  simp [normSubtask, normState_idem]

theorem normStorage_idem (s : Storage) : normStorage (normStorage s) = normStorage s := by
  simp [normStorage, List.map_map, Function.comp_def, normSubtask_idem]

theorem filter_map_normSubtask (l : List Subtask) (p : Subtask → Bool)
    (hp : ∀ x, p (normSubtask x) = p x) :
    (l.map normSubtask).filter p = (l.filter p).map normSubtask := by
  induction l with
  | nil => rfl
  | cons a l ih =>
    simp only [List.map_cons, List.filter_cons, hp, ih]
    split <;> rfl

theorem all_map_normSubtask (l : List Subtask) (p : Subtask → Bool)
    (hp : ∀ x, p (normSubtask x) = p x) :
    (l.map normSubtask).all p = l.all p := by
  induction l with
  | nil => rfl
  | cons a l ih => simp only [List.map_cons, List.all_cons, hp, ih]

theorem isEmpty_map_normSubtask (l : List Subtask) :
    (l.map normSubtask).isEmpty = l.isEmpty := by
  cases l <;> rfl

theorem currentBatch_norm (s : Storage) (t : Task) :
    currentBatch (normStorage s) t = (currentBatch s t).map normSubtask :=
  filter_map_normSubtask _ _ (fun _ => rfl)

theorem revertBatch_norm (c : StepConsts) (s : Storage) (t : Task) :
    revertBatch c (normStorage s) t = (revertBatch c s t).map normSubtask :=
  filter_map_normSubtask _ _ (fun _ => rfl)

theorem failedSubtasks_norm (ext : Extension) (l : List Subtask) :
    failedSubtasks ext (l.map normSubtask) = (failedSubtasks ext l).map normSubtask := by
  refine filter_map_normSubtask _ _ (fun x => ?_)
  cases hx : x.State <;> simp [normSubtask, normState, hx]

theorem map_error_norm (l : List Subtask) :
    (l.map normSubtask).map (fun x => x.Error) = l.map (fun x => x.Error) := by
  rw [List.map_map]
  rfl

theorem updateTask_norm (s : Storage) (t : Task) :
    updateTask (normStorage s) t = normStorage (updateTask s t) := rfl

theorem addNewSubTask_norm (s : Storage) (taskID step : Int) (sch : String)
    (meta : List Nat) (tp : String) :
    AddNewSubTask (normStorage s) taskID step sch meta tp =
      normStorage (AddNewSubTask s taskID step sch meta tp) := by
  simp [AddNewSubTask, normStorage, normSubtask, normState]

theorem emitBatchFrom_norm (taskID step : Int) (tp : String) (nodes : List String)
    (metas : List (List Nat)) (i : Nat) (s : Storage) :
    emitBatchFrom taskID step tp nodes i metas (normStorage s) =
      normStorage (emitBatchFrom taskID step tp nodes i metas s) := by
  induction metas generalizing i s with
  | nil => rfl
  | cons m ms ih =>
    simp only [emitBatchFrom]
    rw [addNewSubTask_norm, ih]

theorem startRevert_norm (c : StepConsts) (ext : Extension) (s : Storage) (t : Task)
    (errs : List (Option String)) :
    startRevert c ext (normStorage s) t errs = normStorage (startRevert c ext s t errs) := by
  unfold startRevert
  simp only [updateTask_norm]
  split
  · split
    · exact emitBatchFrom_norm _ _ _ _ _ _ _
    · rfl
  · rfl

theorem onNextStage_norm (c : StepConsts) (ext : Extension) (fuel : Nat) (s : Storage)
    (t : Task) :
    onNextStage c ext fuel (normStorage s) t =
      (onNextStage c ext fuel s t).map normStorage := by
  induction fuel generalizing t with
  | zero => rfl
  | succ n ih =>
    simp only [onNextStage]
    split
    · rfl
    · split
      · simp only [startRevert_norm, Option.map_some']
      · exact ih _
      · split
        · simp only [Option.map_some', updateTask_norm]
          exact congrArg some (emitBatchFrom_norm _ _ _ _ _ _ _)
        · rfl

theorem dispatcherTick_norm (c : StepConsts) (ext : Extension) (fuel : Nat) (s : Storage)
    (id : Int) :
    dispatcherTick c ext fuel (normStorage s) id =
      (dispatcherTick c ext fuel s id).map normStorage := by
  unfold dispatcherTick
  have hg : GetGlobalTaskByID (normStorage s) id = GetGlobalTaskByID s id := rfl
  rw [hg]
  cases hget : GetGlobalTaskByID s id with
  | none => rfl
  | some t =>
    simp only
    cases hs : t.State
    case Cancelling => simp only [startRevert_norm, Option.map_some']
    case Reverting =>
      simp only [revertBatch_norm, isEmpty_map_normSubtask]
      rw [all_map_normSubtask _ _ (fun x => by cases hx : x.State <;> simp [normSubtask, normState, hx])]
      split
      · rfl
      · rfl
    case Running =>
      simp only [currentBatch_norm, failedSubtasks_norm, isEmpty_map_normSubtask, map_error_norm]
      rw [all_map_normSubtask _ _ (fun x => by cases hx : x.State <;> simp [normSubtask, normState, hx])]
      split
      · simp only [startRevert_norm, Option.map_some']
      · split
        · exact onNextStage_norm _ _ _ _ _
        · rfl
    case Pending =>
      simp only
      split
      · simp only [startRevert_norm, Option.map_some']
      · exact onNextStage_norm _ _ _ _ _
      · split
        · simp only [Option.map_some', updateTask_norm]
          exact congrArg some (emitBatchFrom_norm _ _ _ _ _ _ _)
        · rfl
    all_goals rfl

theorem updateSubtask_norm (s : Storage) (i : Int) (st : SubtaskState) (err : Option String) :
    normStorage (UpdateSubtaskStateAndError (normStorage s) i st err) =
      normStorage (UpdateSubtaskStateAndError s i st err) := by
  simp only [normStorage, UpdateSubtaskStateAndError, List.map_map]
  congr 1
  apply List.map_congr_left
  intro x _
  simp only [Function.comp_apply]
  by_cases h : x.ID = i
  · simp [normSubtask, h]
  · simp [normSubtask, h, normState_idem]

theorem updateSubtask_canceled_failed (s : Storage) (i : Int) (err : Option String) :
    normStorage (UpdateSubtaskStateAndError s i .Canceled err) =
      normStorage (UpdateSubtaskStateAndError s i .Failed err) := by
  simp only [normStorage, UpdateSubtaskStateAndError, List.map_map]
  congr 1
  apply List.map_congr_left
  intro x _
  simp only [Function.comp_apply]
  by_cases h : x.ID = i
  · simp [normSubtask, h, normState]
  · simp [normSubtask, h]

theorem applyEvent_norm (c : StepConsts) (ext : Extension) (fuel : Nat) (s : Storage)
    (e : Event) :
    (applyEvent c ext fuel (normStorage s) e).map normStorage =
      (applyEvent c ext fuel s e).map normStorage := by
  cases e with
  | tick id =>
    simp only [applyEvent, dispatcherTick_norm, Option.map_map]
    congr 1
    funext x
    exact normStorage_idem x
  | update i st err =>
    simp only [applyEvent, Option.map_some', updateSubtask_norm]
  | cancel id =>
    have hc : CancelGlobalTask (normStorage s) id = normStorage (CancelGlobalTask s id) := rfl
    simp only [applyEvent, Option.map_some', hc, normStorage_idem]

theorem taskStateTrace_norm (c : StepConsts) (ext : Extension) (fuel : Nat) (id : Int)
    (es : List Event) (s : Storage) :
    taskStateTrace c ext fuel id (normStorage s) es = taskStateTrace c ext fuel id s es := by
  induction es generalizing s with
  | nil => rfl
  | cons e es ih =>
    have h := applyEvent_norm c ext fuel s e
    simp only [taskStateTrace]
    have h0 : taskStateOf (normStorage s) id = taskStateOf s id := rfl
    rw [h0]
    congr 1
    cases h1 : applyEvent c ext fuel (normStorage s) e with
    | none =>
      cases h2 : applyEvent c ext fuel s e with
      | none => rfl
      | some b => rw [h1, h2] at h; cases h
    | some a =>
      cases h2 : applyEvent c ext fuel s e with
      | none => rw [h1, h2] at h; cases h
      | some b =>
        rw [h1, h2] at h
        simp only [Option.map_some', Option.some.injEq] at h
        simp only
        rw [← ih a, h, ih b]

/-- Claim C10. Subtask cancel is equivalent to subtask failure: whatever the extension, the
storage, the subtask and the events that follow (ticks of the Dispatcher, updates of
subtasks by the executing side, cancel requests), the sequence of states of a task after
the subtask was marked `Canceled` equals the sequence after it was marked `Failed`
instead.  In the scenario of `checkDispatch` with an extension that classifies the error
as not retryable and supplies a revert meta, the sequence is `Running`, `Reverting`, and
`Reverted` once the revert subtask is `Reverted`. -/
theorem subtask_cancel_equiv_failure (c : StepConsts) (ext : Extension) (fuel : Nat)
    (taskID subtaskID : Int) (err : Option String) (s : Storage) (es : List Event) :
    taskStateTrace c ext fuel taskID (UpdateSubtaskStateAndError s subtaskID .Canceled err) es =
      taskStateTrace c ext fuel taskID (UpdateSubtaskStateAndError s subtaskID .Failed err) es
    ∧ taskStateTrace exampleSteps (revertingExampleExt exampleSteps (.ok [":4000"])) 1 1
        (UpdateSubtaskStateAndError runningStorage 1 .Canceled none)
        [.tick 1, .update 4 .Reverted none, .tick 1] =
      [some .Running, some .Reverting, some .Reverting, some .Reverted] := by
  constructor
  · rw [← taskStateTrace_norm, updateSubtask_canceled_failed, taskStateTrace_norm]
  · decide

/-! ### Replays of the test file -/

/-- The four checks of `TestGetInstance`: no subtask (with and without eligible
servers), one subtask on the second server, one subtask on each server. -/
theorem testGetInstance_replay :
    GetAllSchedulerIDs (testDispatcherExt exampleSteps []) ⟨[], []⟩ instanceTask = .ok [] ∧
    GetAllSchedulerIDs (testDispatcherExt exampleSteps serverIDs) ⟨[], []⟩ instanceTask
      = .ok [] ∧
    GetAllSchedulerIDs (testDispatcherExt exampleSteps serverIDs)
      (AddNewSubTask ⟨[], []⟩ 1 StepInit "[ABCD:EF01:2345:6789:ABCD:EF01:2345:6789]:65535" []
        TaskTypeExample) instanceTask
      = .ok ["[ABCD:EF01:2345:6789:ABCD:EF01:2345:6789]:65535"] ∧
    GetAllSchedulerIDs (testDispatcherExt exampleSteps serverIDs)
      (AddNewSubTask
        (AddNewSubTask ⟨[], []⟩ 1 StepInit "[ABCD:EF01:2345:6789:ABCD:EF01:2345:6789]:65535" []
          TaskTypeExample)
        1 StepInit "10.123.124.10:32457" [] TaskTypeExample) instanceTask
      = .ok ["[ABCD:EF01:2345:6789:ABCD:EF01:2345:6789]:65535", "10.123.124.10:32457"] := by
  refine ⟨rfl, rfl, ?_, ?_⟩ <;>
    simp [GetAllSchedulerIDs, AddNewSubTask, instanceTask, List.dedup_cons_of_not_mem]

/-- The first phase of `checkDispatch` with one task (lines 316-326): the dispatch loop
tracks the submitted task, and the first tick of its Dispatcher leaves it `Running` with
`subtaskCnt` subtasks in state `Pending`. -/
theorem checkDispatch_first_batch :
    dispatchTaskLoop 1
        (RegisterDispatcherFactory [] TaskTypeExample (fun _ =>
          { Init := none,
            Extension := numberExampleDispatcherExt exampleSteps (.ok [":4000"]) }))
        { runningTasks := [], constructed := [] } submittedStorage =
      ({ runningTasks := [1], constructed := [1] }, submittedStorage) ∧
    dispatcherTick exampleSteps (numberExampleDispatcherExt exampleSteps (.ok [":4000"])) 1
        submittedStorage 1 = some runningStorage ∧
    GetSubtaskInStatesCnt runningStorage 1 [.Pending] = subtaskCnt := by
  decide

/-! ### Steps of IMPORT INTO -/

/-- Claim C14 as stated fails on the documented global-sort order: the step values
-1, 3, 4, 2 of `StepInit`, `StepEncodeAndSort`, `StepWriteAndIngest`, `StepPostProcess`
do not increase. -/
theorem globalSortSteps_not_increasing :
    stepsIncrease [StepInit, StepEncodeAndSort, StepWriteAndIngest, StepPostProcess] = false := by
  decide

/-- Claim C14, amended. Along the local-sort order the step values increase up to
`StepPostProcess` (-1, 1, 2), and `StepDone` continues the increase exactly when it is
greater than 2.  Along the global-sort order they increase up to `StepWriteAndIngest`
(-1, 3, 4) and then fall to `StepPostProcess = 2`: whatever the value of `StepDone`, the
global-sort order is not increasing. -/
theorem importinto_step_orders (stepDone : Int) :
    (stepsIncrease (localSortSteps stepDone) = true ↔ StepPostProcess < stepDone) ∧
    stepsIncrease [StepInit, StepImport, StepPostProcess] = true ∧
    stepsIncrease [StepInit, StepEncodeAndSort, StepWriteAndIngest] = true ∧
    StepPostProcess < StepWriteAndIngest ∧
    stepsIncrease (globalSortSteps stepDone) = false := by
  refine ⟨?_, by decide, by decide, by decide, ?_⟩
  · simp [stepsIncrease, localSortSteps, StepInit, StepImport, StepPostProcess]
  · simp [stepsIncrease, globalSortSteps, StepInit, StepEncodeAndSort, StepWriteAndIngest,
      StepPostProcess]

end Disttask

namespace StatsHandle

/-! # Statistics handle: theorems -/

/-! ## The order correlation of two columns -/

/-- Claim C19. For every sample count greater than 1 the denominator
`itemsCount*corrX2Sum - corrXSum*corrXSum` of `fillExtStatsCorrVals`, in exact
arithmetic, is strictly positive, hence not zero; it equals `n^2 (n^2 - 1) / 12`. -/
theorem corrDenominator_pos (sampleNum : Nat) (h : 1 < sampleNum) :
    0 < corrDenominator (sampleNum : ℚ) ∧ corrDenominator (sampleNum : ℚ) ≠ 0 ∧
    corrDenominator (sampleNum : ℚ) =
      (sampleNum : ℚ) ^ 2 * ((sampleNum : ℚ) ^ 2 - 1) / 12 := by
  have hq : (1 : ℚ) < (sampleNum : ℚ) := by exact_mod_cast h
  have heq : corrDenominator (sampleNum : ℚ) =
      (sampleNum : ℚ) ^ 2 * ((sampleNum : ℚ) ^ 2 - 1) / 12 := by
    unfold corrDenominator corrX2Sum corrXSum
    ring
  have hpos : 0 < corrDenominator (sampleNum : ℚ) := by
    rw [heq]
    have h1 : (0 : ℚ) < (sampleNum : ℚ) ^ 2 := by positivity
    have h2 : (0 : ℚ) < (sampleNum : ℚ) ^ 2 - 1 := by nlinarith
    positivity
  exact ⟨hpos, ne_of_gt hpos, heq⟩

theorem corrDenominator_pos_witness :
    (1 < 2) ∧ 0 < corrDenominator ((2 : Nat) : ℚ) :=
  ⟨by decide, (corrDenominator_pos 2 (by decide)).1⟩

/-! ## The ordinals of the correlation sum -/

theorem sortByValue_corrExampleX :
    sortByValue corrExampleX = .ok [⟨1, 2⟩, ⟨2, 0⟩, ⟨3, 1⟩] := by
  simp [sortByValue, corrExampleX, List.insertionSort, List.orderedInsert]

theorem samplesYInXOrder_corrExample :
    samplesYInXOrder [⟨1, 2⟩, ⟨2, 0⟩, ⟨3, 1⟩] corrExampleY = [⟨7, 1⟩, ⟨8, 2⟩] := by
  decide

/-- Claim C20, evaluated on collectors of 3 and 2 samples whose ordinals are their
positions (so `sampleNum` is 2): the item of the first collector with the least value has
ordinal 2 and is skipped, the Y ordinals used in the sum are 1 and 2 and not 0 and 1,
their sum is 3 and not `corrXSum 2 = 1`, and `ScalarVals` becomes 3. -/
theorem fillExtStatsCorrVals_ordinals_example :
    min corrExampleX.length corrExampleY.length = 2 ∧
    corrExampleEnv.SortSampleItems corrExampleX = .ok [⟨1, 2⟩, ⟨2, 0⟩, ⟨3, 1⟩] ∧
    corrExampleEnv.SortSampleItems
        (samplesYInXOrder [⟨1, 2⟩, ⟨2, 0⟩, ⟨3, 1⟩] corrExampleY) = .ok [⟨7, 1⟩, ⟨8, 2⟩] ∧
    (([⟨7, 1⟩, ⟨8, 2⟩] : List SampleItem).map (fun y => (y.Ordinal : ℚ))).sum = 3 ∧
    corrXSum 2 = 1 ∧
    fillExtStatsCorrVals corrExampleEnv corrExampleItem [1, 2] [corrExampleX, corrExampleY] =
      .ret (some { corrExampleItem with ScalarVals := 3 }) := by
  have hoff : colOffsets corrExampleItem.ColIDs [1, 2] = [0, 1] := by decide
  have hmin : min corrExampleX.length corrExampleY.length = 2 := by decide
  have hs2 : sortByValue [⟨7, 1⟩, ⟨8, 2⟩] = .ok [⟨7, 1⟩, ⟨8, 2⟩] := by
    simp [sortByValue, List.insertionSort, List.orderedInsert]
  refine ⟨hmin, sortByValue_corrExampleX, ?_, by norm_num, by norm_num [corrXSum], ?_⟩
  · rw [samplesYInXOrder_corrExample]
    exact hs2
  · unfold fillExtStatsCorrVals
    rw [hoff]
    simp only [List.get?, corrExampleEnv, sortByValue_corrExampleX,
      samplesYInXOrder_corrExample, hs2, hmin]
    norm_num [corrXYSum, corrXSum, corrDenominator, corrX2Sum, List.enum, List.enumFrom]

/-! ## Saving statistics to the system tables -/

theorem Exec.bind_apply {α β : Type} (m : Exec α) (f : α → Exec β) (st : ExecState) :
    (m >>= f) st =
      match m st with
      | (.ok a, st1) => f a st1
      | (.error e, st1) => (.error e, st1) := rfl

theorem Exec.pure_apply {α : Type} (a : α) (st : ExecState) :
    (pure a : Exec α) st = (.ok a, st) := rfl

theorem quiet_pure {α : Type} (P : Effect → Prop) (a : α) : Exec.Quiet P (pure a : Exec α) := by
  refine ⟨fun st => ?_⟩
  exact ⟨[], by simp [Exec.pure_apply], by simp⟩

theorem quiet_fail {α : Type} (P : Effect → Prop) (e : String) :
    Exec.Quiet P (Exec.fail e : Exec α) := by
  refine ⟨fun st => ?_⟩
  exact ⟨[], by simp [Exec.fail], by simp⟩

theorem quiet_ofExcept {α : Type} (P : Effect → Prop) (x : Except String α) :
    Exec.Quiet P (Exec.ofExcept x) := by
  cases x with
  | ok a => exact quiet_pure P a
  | error e => exact quiet_fail P e

theorem quiet_check (P : Effect → Prop) (x : Option String) : Exec.Quiet P (Exec.check x) := by
  cases x with
  | none => exact quiet_pure P ()
  | some e => exact quiet_fail P e

theorem quiet_emit (P : Effect → Prop) (e : Effect) (h : P e) : Exec.Quiet P (Exec.emit e) := by
  refine ⟨fun st => ?_⟩
  exact ⟨[e], rfl, by simpa using h⟩

theorem quiet_exec (P : Effect → Prop) (env : Env) (s : Stmt) (h : P (.exec s)) :
    Exec.Quiet P (ExecuteInternal env s) := by
  refine ⟨fun st => ?_⟩
  refine ⟨[.exec s], ?_, by simpa using h⟩
  unfold ExecuteInternal
  cases env.execErr st.effects s <;> rfl

theorem quiet_tryExec (P : Effect → Prop) (env : Env) (s : Stmt) (h : P (.exec s)) :
    Exec.Quiet P (tryExecuteInternal env s) := by
  refine ⟨fun st => ?_⟩
  exact ⟨[.exec s], rfl, by simpa using h⟩

theorem quiet_bind {α β : Type} (P : Effect → Prop) (m : Exec α) (f : α → Exec β)
    (hm : Exec.Quiet P m) (hf : ∀ a, Exec.Quiet P (f a)) : Exec.Quiet P (m >>= f) := by
  refine ⟨fun st => ?_⟩
  obtain ⟨k1, h1, hk1⟩ := hm.out st
  rw [Exec.bind_apply]
  cases hr : m st with
  | mk r st1 =>
    rw [hr] at h1
    simp only at h1
    cases r with
    | error e =>
      exact ⟨k1, h1, hk1⟩
    | ok a =>
      obtain ⟨k2, h2, hk2⟩ := (hf a).out st1
      refine ⟨k1 ++ k2, ?_, ?_⟩
      · simp only
        rw [h2, h1]
        simp
      · intro e he
        rcases List.mem_append.1 he with h | h
        · exact hk1 e h
        · exact hk2 e h

theorem quiet_ofExcept_bind {α β : Type} (P : Effect → Prop) (x : Except String α)
    (f : α → Exec β) (hf : ∀ a, x = .ok a → Exec.Quiet P (f a)) :
    Exec.Quiet P (Exec.ofExcept x >>= f) := by
  cases x with
  | error e =>
    refine ⟨fun st => ?_⟩
    exact ⟨[], by simp [Exec.bind_apply, Exec.ofExcept, Exec.fail], by simp⟩
  | ok a =>
    have h := hf a rfl
    refine ⟨fun st => ?_⟩
    obtain ⟨k, hk, hP⟩ := h.out st
    exact ⟨k, by simpa [Exec.bind_apply, Exec.ofExcept, Exec.pure_apply] using hk, hP⟩

theorem quiet_forEach {α : Type} (P : Effect → Prop) (f : α → Exec Unit) (l : List α)
    (hf : ∀ a, Exec.Quiet P (f a)) : Exec.Quiet P (Exec.forEach f l) := by
  induction l with
  | nil => exact quiet_pure P ()
  | cons a l ih =>
    unfold Exec.forEach
    exact quiet_bind P _ _ (hf a) (fun _ => ih)

theorem quiet_mono {α : Type} (P Q : Effect → Prop) (m : Exec α) (h : ∀ e, P e → Q e)
    (hm : Exec.Quiet P m) : Exec.Quiet Q m := by
  refine ⟨fun st => ?_⟩
  obtain ⟨k, hk, hP⟩ := hm.out st
  exact ⟨k, hk, fun e he => h e (hP e he)⟩

theorem emits_of_quiet {α : Type} (P : Effect → Prop) (m : Exec α) (hm : Exec.Quiet P m) :
    Exec.Emits P m := by
  refine ⟨fun st => ?_⟩
  obtain ⟨k, hk, hP⟩ := hm.out st
  exact ⟨k, by rw [hk], hP⟩

theorem emits_setStatsVer (P : Effect → Prop) (v : Nat) : Exec.Emits P (Exec.setStatsVer v) := by
  refine ⟨fun st => ?_⟩
  exact ⟨[], by simp [Exec.setStatsVer], by simp⟩

theorem emits_bind {α β : Type} (P : Effect → Prop) (m : Exec α) (f : α → Exec β)
    (hm : Exec.Emits P m) (hf : ∀ a, Exec.Emits P (f a)) : Exec.Emits P (m >>= f) := by
  refine ⟨fun st => ?_⟩
  obtain ⟨k1, h1, hk1⟩ := hm.out st
  rw [Exec.bind_apply]
  cases hr : m st with
  | mk r st1 =>
    rw [hr] at h1
    simp only at h1
    cases r with
    | error e =>
      exact ⟨k1, h1, hk1⟩
    | ok a =>
      obtain ⟨k2, h2, hk2⟩ := (hf a).out st1
      refine ⟨k1 ++ k2, ?_, ?_⟩
      · simp only
        rw [h2, h1]
        simp
      · intro e he
        rcases List.mem_append.1 he with h | h
        · exact hk1 e h
        · exact hk2 e h

theorem emits_ofExcept_bind {α β : Type} (P : Effect → Prop) (x : Except String α)
    (f : α → Exec β) (hf : ∀ a, x = .ok a → Exec.Emits P (f a)) :
    Exec.Emits P (Exec.ofExcept x >>= f) := by
  cases x with
  | error e =>
    refine ⟨fun st => ?_⟩
    exact ⟨[], by simp [Exec.bind_apply, Exec.ofExcept, Exec.fail], by simp⟩
  | ok a =>
    have h := hf a rfl
    refine ⟨fun st => ?_⟩
    obtain ⟨k, hk, hP⟩ := h.out st
    exact ⟨k, by simpa [Exec.bind_apply, Exec.ofExcept, Exec.pure_apply] using hk, hP⟩

theorem isOtherWrite_exec (s : Stmt)
    (h : (s.table != some .stats_meta && s.isWrite) = true) : Effect.IsOtherWrite (.exec s) := by
  refine ⟨s, rfl, ?_, ?_⟩
  · intro ht
    rw [ht] at h
    simp at h
  · cases hw : s.isWrite
    · rw [hw] at h
      simp at h
    · rfl

theorem quiet_saveTopNToStorage (env : Env) (tableID isIndex histID : Int) (topN : Option Blob) :
    Exec.Quiet Effect.IsOtherWrite (saveTopNToStorage env tableID isIndex histID topN) := by
  unfold saveTopNToStorage
  cases topN with
  | none => exact quiet_pure _ ()
  | some t =>
    exact quiet_forEach _ _ _ (fun rows => quiet_exec _ env _ (isOtherWrite_exec _ rfl))

theorem quiet_saveBucketsToStorage (env : Env) (tableID isIndex : Int) (hg : Option Histogram) :
    Exec.Quiet Effect.IsOtherWrite (saveBucketsToStorage env tableID isIndex hg) := by
  unfold saveBucketsToStorage
  cases hg with
  | none => exact quiet_pure _ _
  | some h =>
    refine quiet_bind _ _ _ (quiet_forEach _ _ _ (fun b => ?_)) (fun _ => quiet_pure _ _)
    unfold saveBucketBatch
    cases b with
    | error e => exact quiet_fail _ e
    | ok rows => exact quiet_exec _ env _ (isOtherWrite_exec _ rfl)

theorem quiet_saveHistogram (env : Env) (results : AnalyzeResults) (version : Nat)
    (tableID : Int) (result : AnalyzeResult) (p : Nat × Option Histogram) :
    Exec.Quiet Effect.IsOtherWrite (saveHistogram env results version tableID result p) := by
  unfold saveHistogram
  split
  · exact quiet_pure _ ()
  · dsimp only
    repeat' first
      | exact quiet_pure _ _
      | exact quiet_exec _ env _ (isOtherWrite_exec _ rfl)
      | exact quiet_ofExcept _ _
      | exact quiet_saveTopNToStorage _ _ _ _ _
      | exact quiet_saveBucketsToStorage _ _ _ _
      | apply quiet_bind
      | split
      | intro _

theorem quiet_saveHistograms (env : Env) (results : AnalyzeResults) (version : Nat)
    (tableID : Int) :
    Exec.Quiet Effect.IsOtherWrite (saveHistograms env results version tableID) := by
  unfold saveHistograms
  exact quiet_forEach _ _ _ (fun result =>
    quiet_forEach _ _ _ (fun p => quiet_saveHistogram env results version tableID result p))

theorem quiet_saveExtendedItems (env : Env) (version : Nat) (tableID : Int)
    (l : List (String × ExtendedStatsItem)) (statsStr : String) :
    Exec.Quiet Effect.IsOtherWrite (saveExtendedItems env version tableID statsStr l) := by
  induction l generalizing statsStr with
  | nil => exact quiet_pure _ ()
  | cons a l ih =>
    obtain ⟨name, item⟩ := a
    unfold saveExtendedItems
    refine quiet_bind _ _ _ (quiet_ofExcept _ _) (fun strColIDs => ?_)
    dsimp only
    exact quiet_bind _ _ _ (quiet_exec _ env _ (isOtherWrite_exec _ rfl)) (fun _ => ih _)

theorem quiet_saveExtendedStats (env : Env) (results : AnalyzeResults) (version : Nat)
    (tableID : Int) :
    Exec.Quiet Effect.IsOtherWrite (saveExtendedStats env results version tableID) := by
  unfold saveExtendedStats
  split
  · exact quiet_pure _ ()
  · exact quiet_saveExtendedItems _ _ _ _ _

theorem quiet_saveTableStatsRest (env : Env) (results : AnalyzeResults) (version : Nat)
    (tableID : Int) :
    Exec.Quiet Effect.IsTail (saveTableStatsRest env results version tableID) := by
  unfold saveTableStatsRest
  refine quiet_bind _ _ _ (quiet_emit _ _ (Or.inr ⟨_, rfl⟩)) (fun _ => ?_)
  refine quiet_bind _ _ _ ?_ (fun _ => ?_)
  · exact quiet_mono _ _ _ (fun e h => Or.inl h) (quiet_saveHistograms _ _ _ _)
  · exact quiet_mono _ _ _ (fun e h => Or.inl h) (quiet_saveExtendedStats _ _ _ _)

theorem quiet_saveStatsToStorageRest (env : Env) (tableID isIndex : Int) (hg : Histogram)
    (cms : Option Blob) (topN : Option Blob) (statsVersion isAnalyzed : Int)
    (updateAnalyzeTime : Bool) (version : Nat) :
    Exec.Quiet Effect.IsTail
      (saveStatsToStorageRest env tableID isIndex hg cms topN statsVersion isAnalyzed
        updateAnalyzeTime version) := by
  refine quiet_mono _ _ _ (fun e h => Or.inl h) ?_
  unfold saveStatsToStorageRest
  dsimp only
  repeat' first
    | exact quiet_pure _ _
    | exact quiet_exec _ env _ (isOtherWrite_exec _ rfl)
    | exact quiet_ofExcept _ _
    | exact quiet_saveTopNToStorage _ _ _ _ _
    | exact quiet_saveBucketsToStorage _ _ _ _
    | apply quiet_bind
    | split
    | intro _

theorem emits_mono {α : Type} (P Q : Effect → Prop) (m : Exec α) (h : ∀ e, P e → Q e)
    (hm : Exec.Emits P m) : Exec.Emits Q m := by
  refine ⟨fun st => ?_⟩
  obtain ⟨k, hk, hP⟩ := hm.out st
  exact ⟨k, hk, fun e he => h e (hP e he)⟩

/-- An effect of a computation is still there after what follows it. -/
theorem mem_effects_bind {α β : Type} (P : Effect → Prop) (m : Exec α) (f : α → Exec β)
    (st : ExecState) (e : Effect) (he : e ∈ (m st).2.effects)
    (hf : ∀ a, Exec.Emits P (f a)) : e ∈ ((m >>= f) st).2.effects := by
  rw [Exec.bind_apply]
  cases hr : m st with
  | mk r st1 =>
    rw [hr] at he
    cases r with
    | error x => exact he
    | ok a =>
      obtain ⟨k, hk, _⟩ := (hf a).out st1
      simp only
      rw [hk]
      exact List.mem_append_left _ he

theorem mem_effects_exec (env : Env) (s : Stmt) (st : ExecState) :
    Effect.exec s ∈ (ExecuteInternal env s st).2.effects := by
  unfold ExecuteInternal
  cases env.execErr st.effects s <;> simp

theorem exec_bind_ok {β : Type} (env : Env) (s : Stmt) (f : Unit → Exec β) (st : ExecState)
    (h : env.execErr st.effects s = none) :
    (ExecuteInternal env s >>= f) st =
      f () { effects := st.effects ++ [.exec s], statsVer := st.statsVer } := by
  rw [Exec.bind_apply]
  unfold ExecuteInternal
  simp only [h]

theorem ofExcept_bind_ok {α β : Type} (a : α) (f : α → Exec β) (st : ExecState) :
    (Exec.ofExcept (.ok a) >>= f) st = f a st := rfl

theorem check_bind_ok {β : Type} (f : Unit → Exec β) (st : ExecState) :
    (Exec.check none >>= f) st = f () st := rfl

/-- The effects of the two deferred functions: the effects of the body, the call of
`finishTransaction`, and at most one call of `recordHistoricalStatsMeta`, which needs
`statsVer` not to be 0. -/
theorem mem_finishAndRecord (env : Env) (tableID : Int) (source : String)
    (res : Except String Unit × ExecState) (e : Effect)
    (he : e ∈ (finishAndRecord env tableID source res).2) :
    e ∈ res.2.effects ∨ (∃ err, e = .finishTransaction err) ∨
      (res.2.statsVer ≠ 0 ∧ e = .recordHistoricalStatsMeta tableID res.2.statsVer source) := by
  unfold finishAndRecord at he
  dsimp only at he
  split at he
  next h =>
    simp only [List.mem_append, List.mem_singleton] at he
    rcases he with (he | he) | he
    · exact Or.inl he
    · exact Or.inr (Or.inl ⟨_, he⟩)
    · exact Or.inr (Or.inr ⟨h.2, he⟩)
  next h =>
    simp only [List.mem_append, List.mem_singleton] at he
    rcases he with he | he
    · exact Or.inl he
    · exact Or.inr (Or.inl ⟨_, he⟩)

theorem mem_finishAndRecord_of_mem (env : Env) (tableID : Int) (source : String)
    (res : Except String Unit × ExecState) (e : Effect) (he : e ∈ res.2.effects) :
    e ∈ (finishAndRecord env tableID source res).2 := by
  unfold finishAndRecord
  dsimp only
  split <;> simp [he]

theorem begin_state (env : Env) :
    (ExecuteInternal env .BeginPessimistic { effects := [], statsVer := 0 }).2 = afterBegin := by
  unfold ExecuteInternal
  cases env.execErr [] .BeginPessimistic <;> rfl

theorem mem_inTransaction (env : Env) (tableID : Int) (source : String) (body : Exec Unit)
    (P : Effect → Prop) (hbody : Exec.Emits P body) (e : Effect)
    (he : e ∈ (inTransaction env tableID source body).2) :
    e = .exec .BeginPessimistic ∨ P e ∨ (∃ err, e = .finishTransaction err) ∨
      ∃ v, e = .recordHistoricalStatsMeta tableID v source := by
  unfold inTransaction at he
  have hst := begin_state env
  cases hb : ExecuteInternal env .BeginPessimistic { effects := [], statsVer := 0 } with
  | mk r st =>
    rw [hb] at he hst
    simp only at hst
    subst hst
    cases r with
    | error x =>
      simp only [afterBegin, List.mem_singleton] at he
      exact Or.inl he
    | ok u =>
      simp only at he
      obtain ⟨k, hk, hP⟩ := hbody.out afterBegin
      rcases mem_finishAndRecord _ _ _ _ _ he with h | h | h
      · rw [hk] at h
        rcases List.mem_append.1 h with h | h
        · simp only [afterBegin, List.mem_singleton] at h
          exact Or.inl h
        · exact Or.inr (Or.inl (hP e h))
      · exact Or.inr (Or.inr (Or.inl h))
      · exact Or.inr (Or.inr (Or.inr ⟨_, h.2⟩))

theorem mem_inTransaction_quiet (env : Env) (tableID : Int) (source : String)
    (body : Exec Unit) (P : Effect → Prop) (hbody : Exec.Quiet P body) (e : Effect)
    (he : e ∈ (inTransaction env tableID source body).2) :
    e = .exec .BeginPessimistic ∨ P e ∨ ∃ err, e = .finishTransaction err := by
  unfold inTransaction at he
  have hst := begin_state env
  cases hb : ExecuteInternal env .BeginPessimistic { effects := [], statsVer := 0 } with
  | mk r st =>
    rw [hb] at he hst
    simp only at hst
    subst hst
    cases r with
    | error x =>
      simp only [afterBegin, List.mem_singleton] at he
      exact Or.inl he
    | ok u =>
      simp only at he
      obtain ⟨k, hk, hP⟩ := hbody.out afterBegin
      rcases mem_finishAndRecord _ _ _ _ _ he with h | h | h
      · rw [hk] at h
        rcases List.mem_append.1 h with h | h
        · simp only [afterBegin, List.mem_singleton] at h
          exact Or.inl h
        · exact Or.inr (Or.inl (hP e h))
      · exact Or.inr (Or.inr h)
      · rw [hk] at h
        exact absurd rfl h.1

theorem mem_inTransaction_of_mem (env : Env) (tableID : Int) (source : String)
    (body : Exec Unit) (hbegin : env.execErr [] .BeginPessimistic = none) (e : Effect)
    (he : e ∈ (body afterBegin).2.effects) :
    e ∈ (inTransaction env tableID source body).2 := by
  unfold inTransaction
  have hb : ExecuteInternal env .BeginPessimistic { effects := [], statsVer := 0 } =
      (.ok (), afterBegin) := by
    unfold ExecuteInternal
    simp only [hbegin]
    rfl
  rw [hb]
  exact mem_finishAndRecord_of_mem _ _ _ _ _ he

theorem metaOnly_of_isTail (allowed : Stmt → Prop) (e : Effect) (h : e.IsTail) :
    e.MetaOnly allowed := by
  intro s hs ht
  rcases h with ⟨s2, h2, hne, _⟩ | ⟨t, h2⟩
  · rw [hs] at h2
    injection h2 with h2
    subst h2
    exact absurd ht hne
  · rw [hs] at h2
    cases h2

theorem metaOnly_exec (allowed : Stmt → Prop) (s : Stmt) (h : allowed s) :
    Effect.MetaOnly allowed (.exec s) := by
  intro s2 hs _
  injection hs with hs
  subst hs
  exact h

theorem emits_saveStatsMetaCount (allowed : Stmt → Prop) (env : Env)
    (tableID count modifyCount : Int) (version : Nat)
    (h1 : 0 ≤ count → allowed (.ReplaceStatsMetaModifyCount version tableID count modifyCount))
    (h2 : count < 0 → allowed (.UpdateStatsMetaVersion version tableID)) :
    Exec.Emits (Effect.MetaOnly allowed)
      (saveStatsMetaCount env tableID count modifyCount version) := by
  apply emits_of_quiet
  unfold saveStatsMetaCount
  split
  next h =>
    refine quiet_bind _ _ _ (quiet_tryExec _ _ _ (metaOnly_exec _ _ (h1 h))) (fun err => ?_)
    refine quiet_bind _ _ _ (quiet_emit _ _ ?_) (fun _ => quiet_check _ _)
    intro s hs
    cases hs
  next h =>
    exact quiet_exec _ _ _ (metaOnly_exec _ _ (h2 (not_le.1 h)))

theorem emits_saveStatsToStorageBody (allowed : Stmt → Prop) (env : Env)
    (tableID count modifyCount isIndex : Int)
    (hg : Histogram) (cms : Option Blob) (topN : Option Blob) (statsVersion isAnalyzed : Int)
    (updateAnalyzeTime : Bool)
    (h1 : ∀ v, env.txnStartTS = .ok v → 0 ≤ count →
      allowed (.ReplaceStatsMetaModifyCount v tableID count modifyCount))
    (h2 : ∀ v, env.txnStartTS = .ok v → count < 0 →
      allowed (.UpdateStatsMetaVersion v tableID)) :
    Exec.Emits (Effect.MetaOnly allowed)
      (saveStatsToStorageBody env tableID count modifyCount isIndex hg cms topN statsVersion
        isAnalyzed updateAnalyzeTime) := by
  unfold saveStatsToStorageBody
  refine emits_ofExcept_bind _ _ _ (fun v hv => ?_)
  refine emits_bind _ _ _ (emits_saveStatsMetaCount _ _ _ _ _ _ (h1 v hv) (h2 v hv)) (fun _ => ?_)
  refine emits_bind _ _ _ (emits_setStatsVer _ _) (fun _ => ?_)
  exact emits_of_quiet _ _
    (quiet_mono _ _ _ (metaOnly_of_isTail allowed) (quiet_saveStatsToStorageRest _ _ _ _ _ _ _ _ _ _))

theorem saveStatsToStorage_meta_only (allowed : Stmt → Prop) (env : Env)
    (tableID count modifyCount isIndex : Int)
    (hg : Histogram) (cms : Option Blob) (topN : Option Blob) (statsVersion isAnalyzed : Int)
    (updateAnalyzeTime : Bool) (source : String)
    (h1 : ∀ v, env.txnStartTS = .ok v → 0 ≤ count →
      allowed (.ReplaceStatsMetaModifyCount v tableID count modifyCount))
    (h2 : ∀ v, env.txnStartTS = .ok v → count < 0 →
      allowed (.UpdateStatsMetaVersion v tableID))
    (s : Stmt)
    (hs : Effect.exec s ∈ (SaveStatsToStorage env tableID count modifyCount isIndex hg cms topN
      statsVersion isAnalyzed updateAnalyzeTime source).2)
    (ht : s.table = some .stats_meta) : allowed s := by
  unfold SaveStatsToStorage at hs
  cases hp : env.poolGetErr with
  | some x =>
    rw [hp] at hs
    simp at hs
  | none =>
    rw [hp] at hs
    simp only at hs
    rcases mem_inTransaction _ _ _ _ _
      (emits_saveStatsToStorageBody allowed env tableID count modifyCount isIndex hg cms topN
        statsVersion isAnalyzed updateAnalyzeTime h1 h2) _ hs with h | h | ⟨err, h⟩ | ⟨v, h⟩
    · injection h with h
      subst h
      cases ht
    · exact h s rfl ht
    · cases h
    · cases h

theorem saveStatsToStorage_issues (env : Env)
    (tableID count modifyCount isIndex : Int)
    (hg : Histogram) (cms : Option Blob) (topN : Option Blob) (statsVersion isAnalyzed : Int)
    (updateAnalyzeTime : Bool) (source : String) (v : Nat)
    (hp : env.poolGetErr = none) (hb : env.execErr [] .BeginPessimistic = none)
    (hv : env.txnStartTS = .ok v) :
    Effect.exec (if count < 0 then Stmt.UpdateStatsMetaVersion v tableID
      else Stmt.ReplaceStatsMetaModifyCount v tableID count modifyCount) ∈
      (SaveStatsToStorage env tableID count modifyCount isIndex hg cms topN
        statsVersion isAnalyzed updateAnalyzeTime source).2 := by
  unfold SaveStatsToStorage
  rw [hp]
  simp only
  apply mem_inTransaction_of_mem _ _ _ _ hb
  unfold saveStatsToStorageBody
  rw [hv, ofExcept_bind_ok]
  apply mem_effects_bind (fun _ => True)
  · unfold saveStatsMetaCount
    split
    next h =>
      rw [if_neg (not_lt.2 h)]
      apply mem_effects_bind (fun _ => True)
      · simp [tryExecuteInternal]
      · intro err
        exact emits_of_quiet _ _
          (quiet_bind _ _ _ (quiet_emit _ _ trivial) (fun _ => quiet_check _ _))
    next h =>
      rw [if_pos (not_le.1 h)]
      exact mem_effects_exec _ _ _
  · intro _
    refine emits_bind _ _ _ (emits_setStatsVer _ _) (fun _ => ?_)
    exact emits_of_quiet _ _
      (quiet_mono _ _ _ (fun _ _ => trivial) (quiet_saveStatsToStorageRest _ _ _ _ _ _ _ _ _ _))

/-- Claim C16. The only statement `SaveStatsToStorage` issues against `mysql.stats_meta`
is, with a negative count, the update of the version of the table (which writes neither
`count` nor `modify_count`), and with `count >= 0` the replace of the row with
`(version, table_id, count, modifyCount)`, where the version is the start timestamp of
the transaction; and that statement is issued once the session, `begin pessimistic` and
the transaction are there. -/
theorem saveStatsToStorage_stats_meta (env : Env) (tableID count modifyCount isIndex : Int)
    (hg : Histogram) (cms : Option Blob) (topN : Option Blob) (statsVersion isAnalyzed : Int)
    (updateAnalyzeTime : Bool) (source : String) :
    (count < 0 → ∀ s : Stmt,
      Effect.exec s ∈ (SaveStatsToStorage env tableID count modifyCount isIndex hg cms topN
        statsVersion isAnalyzed updateAnalyzeTime source).2 →
      s.table = some .stats_meta →
      ∃ v, env.txnStartTS = .ok v ∧ s = .UpdateStatsMetaVersion v tableID) ∧
    (0 ≤ count → ∀ s : Stmt,
      Effect.exec s ∈ (SaveStatsToStorage env tableID count modifyCount isIndex hg cms topN
        statsVersion isAnalyzed updateAnalyzeTime source).2 →
      s.table = some .stats_meta →
      ∃ v, env.txnStartTS = .ok v ∧
        s = .ReplaceStatsMetaModifyCount v tableID count modifyCount) ∧
    (∀ v : Nat, env.poolGetErr = none → env.execErr [] .BeginPessimistic = none →
      env.txnStartTS = .ok v →
      Effect.exec (if count < 0 then Stmt.UpdateStatsMetaVersion v tableID
        else Stmt.ReplaceStatsMetaModifyCount v tableID count modifyCount) ∈
        (SaveStatsToStorage env tableID count modifyCount isIndex hg cms topN
          statsVersion isAnalyzed updateAnalyzeTime source).2) := by
  refine ⟨fun hc s hs ht => ?_, fun hc s hs ht => ?_, fun v hp hb hv => ?_⟩
  · exact saveStatsToStorage_meta_only
      (fun s => ∃ v, env.txnStartTS = .ok v ∧ s = .UpdateStatsMetaVersion v tableID)
      env tableID count modifyCount isIndex hg cms topN statsVersion isAnalyzed
      updateAnalyzeTime source (fun v _ h => absurd hc (not_lt.2 h))
      (fun v hv _ => ⟨v, hv, rfl⟩) s hs ht
  · exact saveStatsToStorage_meta_only
      (fun s => ∃ v, env.txnStartTS = .ok v ∧
        s = .ReplaceStatsMetaModifyCount v tableID count modifyCount)
      env tableID count modifyCount isIndex hg cms topN statsVersion isAnalyzed
      updateAnalyzeTime source (fun v hv _ => ⟨v, hv, rfl⟩)
      (fun v _ h => absurd h (not_lt.2 hc)) s hs ht
  · exact saveStatsToStorage_issues env tableID count modifyCount isIndex hg cms topN
      statsVersion isAnalyzed updateAnalyzeTime source v hp hb hv

/-- Claim C16, on the example: with the count -1 the update of the version is issued, and
with the count 5 the replace of the row. -/
theorem saveStatsToStorage_stats_meta_witness :
    Effect.exec (.UpdateStatsMetaVersion 100 7) ∈
      (SaveStatsToStorage exampleEnv 7 (-1) 0 0 ⟨1, 2, 0, 0, 0, [1]⟩ none (some [5]) 2 1 true
        "analyze").2 ∧
    Effect.exec (.ReplaceStatsMetaModifyCount 100 7 5 3) ∈
      (SaveStatsToStorage exampleEnv 7 5 3 0 ⟨1, 2, 0, 0, 0, [1]⟩ none (some [5]) 2 1 true
        "analyze").2 :=
  ⟨(saveStatsToStorage_stats_meta exampleEnv 7 (-1) 0 0 ⟨1, 2, 0, 0, 0, [1]⟩ none (some [5]) 2 1
      true "analyze").2.2 100 rfl rfl rfl,
    (saveStatsToStorage_stats_meta exampleEnv 7 5 3 0 ⟨1, 2, 0, 0, 0, [1]⟩ none (some [5]) 2 1
      true "analyze").2.2 100 rfl rfl rfl⟩

theorem quiet_saveTableStatsToStorageBody (P : Effect → Prop) (env : Env)
    (results : AnalyzeResults) (analyzeSnapshot : Bool)
    (hsel : P (.exec (.SelectStatsMetaForUpdate results.StatisticsID)))
    (hmeta : ∀ v rows, env.txnStartTS = .ok v → env.statsMetaRows = .ok rows →
      isStale env results rows = false →
      Exec.Quiet P (saveStatsMetaRow env results analyzeSnapshot v results.StatisticsID rows))
    (htail : ∀ rows, env.statsMetaRows = .ok rows → isStale env results rows = false →
      ∀ e, Effect.IsTail e → P e) :
    Exec.Quiet P (saveTableStatsToStorageBody env results analyzeSnapshot) := by
  unfold saveTableStatsToStorageBody
  dsimp only
  refine quiet_ofExcept_bind _ _ _ (fun v hv => ?_)
  refine quiet_bind _ _ _ (quiet_exec _ _ _ hsel) (fun _ => ?_)
  refine quiet_ofExcept_bind _ _ _ (fun rows hrows => ?_)
  refine quiet_bind _ _ _ (quiet_check _ _) (fun _ => ?_)
  split
  · exact quiet_pure _ _
  next h =>
    have hs : isStale env results rows = false := by
      cases hb : isStale env results rows
      · rfl
      · exact absurd hb h
    refine quiet_bind _ _ _ (quiet_pure _ _) (fun _ => ?_)
    refine quiet_bind _ _ _ (hmeta v rows hv hrows hs) (fun _ => ?_)
    exact quiet_mono _ _ _ (htail rows hrows hs) (quiet_saveTableStatsRest _ _ _ _)

theorem emits_saveTableStatsToStorageBody (P : Effect → Prop) (env : Env)
    (results : AnalyzeResults) (analyzeSnapshot : Bool)
    (hsel : P (.exec (.SelectStatsMetaForUpdate results.StatisticsID)))
    (hmeta : ∀ v rows, env.txnStartTS = .ok v → env.statsMetaRows = .ok rows →
      isStale env results rows = false →
      Exec.Emits P (saveStatsMetaRow env results analyzeSnapshot v results.StatisticsID rows))
    (htail : ∀ rows, env.statsMetaRows = .ok rows → isStale env results rows = false →
      ∀ e, Effect.IsTail e → P e) :
    Exec.Emits P (saveTableStatsToStorageBody env results analyzeSnapshot) := by
  unfold saveTableStatsToStorageBody
  dsimp only
  refine emits_ofExcept_bind _ _ _ (fun v hv => ?_)
  refine emits_bind _ _ _ (emits_of_quiet _ _ (quiet_exec _ _ _ hsel)) (fun _ => ?_)
  refine emits_ofExcept_bind _ _ _ (fun rows hrows => ?_)
  refine emits_bind _ _ _ (emits_of_quiet _ _ (quiet_check _ _)) (fun _ => ?_)
  split
  · exact emits_of_quiet _ _ (quiet_pure _ _)
  next h =>
    have hs : isStale env results rows = false := by
      cases hb : isStale env results rows
      · rfl
      · exact absurd hb h
    refine emits_bind _ _ _ (emits_of_quiet _ _ (quiet_pure _ _)) (fun _ => ?_)
    refine emits_bind _ _ _ (hmeta v rows hv hrows hs) (fun _ => ?_)
    exact emits_of_quiet _ _
      (quiet_mono _ _ _ (htail rows hrows hs) (quiet_saveTableStatsRest _ _ _ _))

/-- The write of part 1 is among the effects of `SaveTableStatsToStorage` when the calls
before it succeed and the result is not skipped as stale. -/
theorem saveTableStatsToStorage_issues (env : Env) (results : AnalyzeResults)
    (analyzeSnapshot : Bool) (source : String) (v : Nat) (rows : List StatsMetaRow) (s : Stmt)
    (hb : env.execErr [] .BeginPessimistic = none) (hv : env.txnStartTS = .ok v)
    (hsel : env.execErr [.exec .BeginPessimistic]
      (.SelectStatsMetaForUpdate results.StatisticsID) = none)
    (hrows : env.statsMetaRows = .ok rows) (hclose : env.closeErr = none)
    (hstale : isStale env results rows = false)
    (hs : ∀ st, Effect.exec s ∈
      (saveStatsMetaRow env results analyzeSnapshot v results.StatisticsID rows st).2.effects) :
    Effect.exec s ∈ (SaveTableStatsToStorage env results analyzeSnapshot source).2 := by
  unfold SaveTableStatsToStorage
  apply mem_inTransaction_of_mem _ _ _ _ hb
  unfold saveTableStatsToStorageBody
  dsimp only
  rw [hv, ofExcept_bind_ok, exec_bind_ok _ _ _ _ (by simpa [afterBegin] using hsel), hrows,
    ofExcept_bind_ok, hclose, check_bind_ok, hstale]
  simp only [Bool.false_eq_true, if_false]
  rw [Exec.bind_apply, Exec.pure_apply]
  simp only
  apply mem_effects_bind (fun _ => True) _ _ _ _ (hs _)
  intro _
  exact emits_of_quiet _ _
    (quiet_mono _ _ _ (fun _ _ => trivial) (quiet_saveTableStatsRest _ _ _ _))

theorem mem_saveStatsMetaRow_replace (env : Env) (results : AnalyzeResults)
    (analyzeSnapshot : Bool) (version : Nat) (tableID : Int) (rows : List StatsMetaRow)
    (h : rows.length = 0 ∨ results.StatsVer ≠ env.Version2) (st : ExecState) :
    Effect.exec (.ReplaceStatsMetaSnapshot version tableID
        (if results.ForMVIndex then 0 else results.Count)
        (if results.ForMVIndex then 0 else results.Snapshot)) ∈
      (saveStatsMetaRow env results analyzeSnapshot version tableID rows st).2.effects := by
  unfold saveStatsMetaRow
  rw [if_pos h]
  exact mem_effects_bind (fun _ => True) _ _ _ _ (mem_effects_exec _ _ _)
    (fun _ => emits_setStatsVer _ _)

theorem mem_saveStatsMetaRow_version (env : Env) (results : AnalyzeResults)
    (analyzeSnapshot : Bool) (version : Nat) (tableID : Int) (rows : List StatsMetaRow)
    (h : ¬ (rows.length = 0 ∨ results.StatsVer ≠ env.Version2))
    (hmv : results.ForMVIndex = true) (st : ExecState) :
    Effect.exec (.UpdateStatsMetaVersion version tableID) ∈
      (saveStatsMetaRow env results analyzeSnapshot version tableID rows st).2.effects := by
  unfold saveStatsMetaRow
  rw [if_neg h, if_pos hmv]
  exact mem_effects_exec _ _ _

/-- Claim C17. When the row of the table in `mysql.stats_meta` exists with
`snapshot >= results.Snapshot`: for a version 2 result that is not for a multi-valued
index, `SaveTableStatsToStorage` does nothing but `begin pessimistic`, the select on
`mysql.stats_meta` and the deferred `finishTransaction` (no write statement, no cache
invalidation, no historical stats meta); for a multi-valued index or another stats
version, the write to `mysql.stats_meta` is issued once the calls before it succeed. -/
theorem saveTableStatsToStorage_stale (env : Env) (results : AnalyzeResults)
    (analyzeSnapshot : Bool) (source : String) (row : StatsMetaRow) (rest : List StatsMetaRow)
    (hrows : env.statsMetaRows = .ok (row :: rest))
    (hsnap : results.Snapshot ≤ row.snapshot) :
    (results.StatsVer = env.Version2 → results.ForMVIndex = false →
      ∀ e ∈ (SaveTableStatsToStorage env results analyzeSnapshot source).2,
        e = .exec .BeginPessimistic ∨
        e = .exec (.SelectStatsMetaForUpdate results.StatisticsID) ∨
        ∃ err, e = .finishTransaction err) ∧
    (results.ForMVIndex = true ∨ results.StatsVer ≠ env.Version2 →
      ∀ v : Nat, env.execErr [] .BeginPessimistic = none → env.txnStartTS = .ok v →
        env.execErr [.exec .BeginPessimistic]
          (.SelectStatsMetaForUpdate results.StatisticsID) = none →
        env.closeErr = none →
        Effect.exec
          (if results.StatsVer ≠ env.Version2 then
            Stmt.ReplaceStatsMetaSnapshot v results.StatisticsID
              (if results.ForMVIndex then 0 else results.Count)
              (if results.ForMVIndex then 0 else results.Snapshot)
          else Stmt.UpdateStatsMetaVersion v results.StatisticsID) ∈
          (SaveTableStatsToStorage env results analyzeSnapshot source).2) := by
  constructor
  · intro hv2 hmv e he
    unfold SaveTableStatsToStorage at he
    refine mem_inTransaction_quiet _ _ _ _
      (fun e => e = .exec (.SelectStatsMetaForUpdate results.StatisticsID)) ?_ e he
    have hstale : ∀ rows, env.statsMetaRows = .ok rows → isStale env results rows = false →
        False := by
      intro rows hr hs
      rw [hrows] at hr
      injection hr with hr
      subst hr
      simp [isStale, hsnap, hv2, hmv] at hs
    exact quiet_saveTableStatsToStorageBody _ _ _ _ rfl
      (fun v rows _ hr hs => (hstale rows hr hs).elim)
      (fun rows hr hs => (hstale rows hr hs).elim)
  · intro hcase v hb hv hsel hclose
    have hstale : isStale env results (row :: rest) = false := by
      rcases hcase with h | h
      · simp [isStale, h]
      · simp [isStale, h]
    apply saveTableStatsToStorage_issues env results analyzeSnapshot source v (row :: rest) _
      hb hv hsel hrows hclose hstale
    intro st
    by_cases h2 : results.StatsVer ≠ env.Version2
    · rw [if_pos h2]
      exact mem_saveStatsMetaRow_replace _ _ _ _ _ _ (Or.inr h2) _
    · rw [if_neg h2]
      rcases hcase with h | h
      · refine mem_saveStatsMetaRow_version _ _ _ _ _ _ ?_ h _
        intro hc
        rcases hc with hc | hc
        · simp at hc
        · exact h2 hc
      · exact absurd h h2

/-- Claim C17, on the example: the stale result leaves only `begin pessimistic`, the
select and `finishTransaction`, and the result for a multi-valued index updates the
version. -/
theorem saveTableStatsToStorage_stale_witness :
    exampleEnv.statsMetaRows = .ok [{ snapshot := 50, count := 10, modifyCount := 3 }] ∧
    staleResults.Snapshot ≤ 50 ∧
    (∀ e ∈ (SaveTableStatsToStorage exampleEnv staleResults true "analyze").2,
      e = .exec .BeginPessimistic ∨
      e = .exec (.SelectStatsMetaForUpdate staleResults.StatisticsID) ∨
      ∃ err, e = .finishTransaction err) ∧
    Effect.exec (.UpdateStatsMetaVersion 100 7) ∈
      (SaveTableStatsToStorage exampleEnv mvIndexResults true "analyze").2 :=
  ⟨rfl, by decide,
    (saveTableStatsToStorage_stale exampleEnv staleResults true "analyze"
      { snapshot := 50, count := 10, modifyCount := 3 } [] rfl (by decide)).1 rfl rfl,
    (saveTableStatsToStorage_stale exampleEnv mvIndexResults true "analyze"
      { snapshot := 50, count := 10, modifyCount := 3 } [] rfl (by decide)).2 (Or.inl rfl)
      100 rfl rfl rfl rfl⟩

/-- The statements against `mysql.stats_meta` of a result for which part 1 issues the
statement `w`: the select and `w`. -/
theorem saveTableStatsToStorage_meta_only (allowed : Stmt → Prop) (env : Env)
    (results : AnalyzeResults) (analyzeSnapshot : Bool) (source : String)
    (hsel : allowed (.SelectStatsMetaForUpdate results.StatisticsID))
    (hmeta : ∀ v rows, env.txnStartTS = .ok v → env.statsMetaRows = .ok rows →
      isStale env results rows = false →
      Exec.Emits (Effect.MetaOnly allowed)
        (saveStatsMetaRow env results analyzeSnapshot v results.StatisticsID rows))
    (s : Stmt) (hs : Effect.exec s ∈ (SaveTableStatsToStorage env results analyzeSnapshot source).2)
    (ht : s.table = some .stats_meta) : allowed s := by
  unfold SaveTableStatsToStorage at hs
  rcases mem_inTransaction _ _ _ _ _
    (emits_saveTableStatsToStorageBody (Effect.MetaOnly allowed) env results analyzeSnapshot
      (metaOnly_exec _ _ hsel) hmeta (fun _ _ _ e he => metaOnly_of_isTail allowed e he))
    _ hs with h | h | ⟨err, h⟩ | ⟨v, h⟩
  · injection h with h
    subst h
    cases ht
  · exact h s rfl ht
  · cases h
  · cases h

/-- Claim C18. For a version 2 result of a multi-valued index: when the table has a row
in `mysql.stats_meta`, the only statements `SaveTableStatsToStorage` issues against that
table are the select and the update of the version (it is issued once the calls before it
succeed), and no historical stats meta is recorded; when there is no row, the only write
is the replace of the row with count 0 and snapshot 0. -/
theorem saveTableStatsToStorage_mv_index (env : Env) (results : AnalyzeResults)
    (analyzeSnapshot : Bool) (source : String)
    (hv2 : results.StatsVer = env.Version2) (hmv : results.ForMVIndex = true) :
    (∀ row rest, env.statsMetaRows = .ok (row :: rest) →
      (∀ s : Stmt, Effect.exec s ∈ (SaveTableStatsToStorage env results analyzeSnapshot source).2 →
        s.table = some .stats_meta →
        s = .SelectStatsMetaForUpdate results.StatisticsID ∨
        ∃ v, env.txnStartTS = .ok v ∧ s = .UpdateStatsMetaVersion v results.StatisticsID) ∧
      (∀ t v src, Effect.recordHistoricalStatsMeta t v src ∉
        (SaveTableStatsToStorage env results analyzeSnapshot source).2) ∧
      (∀ v : Nat, env.execErr [] .BeginPessimistic = none → env.txnStartTS = .ok v →
        env.execErr [.exec .BeginPessimistic]
          (.SelectStatsMetaForUpdate results.StatisticsID) = none →
        env.closeErr = none →
        Effect.exec (.UpdateStatsMetaVersion v results.StatisticsID) ∈
          (SaveTableStatsToStorage env results analyzeSnapshot source).2)) ∧
    (env.statsMetaRows = .ok [] →
      (∀ s : Stmt, Effect.exec s ∈ (SaveTableStatsToStorage env results analyzeSnapshot source).2 →
        s.table = some .stats_meta →
        s = .SelectStatsMetaForUpdate results.StatisticsID ∨
        ∃ v, env.txnStartTS = .ok v ∧
          s = .ReplaceStatsMetaSnapshot v results.StatisticsID 0 0) ∧
      (∀ v : Nat, env.execErr [] .BeginPessimistic = none → env.txnStartTS = .ok v →
        env.execErr [.exec .BeginPessimistic]
          (.SelectStatsMetaForUpdate results.StatisticsID) = none →
        env.closeErr = none →
        Effect.exec (.ReplaceStatsMetaSnapshot v results.StatisticsID 0 0) ∈
          (SaveTableStatsToStorage env results analyzeSnapshot source).2)) := by
  constructor
  · intro row rest hrows
    have hbranch : ∀ rows, env.statsMetaRows = .ok rows →
        ¬ (rows.length = 0 ∨ results.StatsVer ≠ env.Version2) := by
      intro rows hr hc
      rw [hrows] at hr
      injection hr with hr
      subst hr
      rcases hc with hc | hc
      · simp at hc
      · exact hc hv2
    have hq : ∀ (P : Effect → Prop) (v : Nat) (rows : List StatsMetaRow),
        env.statsMetaRows = .ok rows →
        P (.exec (.UpdateStatsMetaVersion v results.StatisticsID)) →
        Exec.Quiet P
          (saveStatsMetaRow env results analyzeSnapshot v results.StatisticsID rows) := by
      intro P v rows hr hP
      unfold saveStatsMetaRow
      rw [if_neg (hbranch rows hr), if_pos hmv]
      exact quiet_exec _ _ _ hP
    refine ⟨fun s hs ht => ?_, fun t v src hmem => ?_, fun v hb hv hsel hclose => ?_⟩
    · exact saveTableStatsToStorage_meta_only
        (fun s => s = .SelectStatsMetaForUpdate results.StatisticsID ∨
          ∃ v, env.txnStartTS = .ok v ∧ s = .UpdateStatsMetaVersion v results.StatisticsID)
        env results analyzeSnapshot source (Or.inl rfl)
        (fun v rows hv hr _ => emits_of_quiet _ _
          (hq _ v rows hr (metaOnly_exec _ _ (Or.inr ⟨v, hv, rfl⟩)))) s hs ht
    · unfold SaveTableStatsToStorage at hmem
      rcases mem_inTransaction_quiet _ _ _ _
        (fun e => ∀ t v src, e ≠ .recordHistoricalStatsMeta t v src)
        (quiet_saveTableStatsToStorageBody _ env results analyzeSnapshot
          (fun _ _ _ h => by cases h)
          (fun v rows _ hr _ => hq _ v rows hr (fun _ _ _ h => by cases h))
          (fun rows _ _ e he t v src h => by
            subst h
            rcases he with ⟨s, h, _⟩ | ⟨t2, h⟩ <;> cases h))
        _ hmem with h | h | ⟨err, h⟩
      · cases h
      · exact h t v src rfl
      · cases h
    · have hstale : isStale env results (row :: rest) = false := by
        simp [isStale, hmv]
      exact saveTableStatsToStorage_issues env results analyzeSnapshot source v (row :: rest) _
        hb hv hsel hrows hclose hstale
        (fun st => mem_saveStatsMetaRow_version _ _ _ _ _ _ (hbranch _ hrows) hmv st)
  · intro hrows
    have hrep : ∀ v st, Effect.exec (.ReplaceStatsMetaSnapshot v results.StatisticsID 0 0) ∈
        (saveStatsMetaRow env results analyzeSnapshot v results.StatisticsID [] st).2.effects := by
      intro v st
      have h := mem_saveStatsMetaRow_replace env results analyzeSnapshot v results.StatisticsID
        [] (Or.inl rfl) st
      simpa [hmv] using h
    refine ⟨fun s hs ht => ?_, fun v hb hv hsel hclose => ?_⟩
    · refine saveTableStatsToStorage_meta_only
        (fun s => s = .SelectStatsMetaForUpdate results.StatisticsID ∨
          ∃ v, env.txnStartTS = .ok v ∧
            s = .ReplaceStatsMetaSnapshot v results.StatisticsID 0 0)
        env results analyzeSnapshot source (Or.inl rfl) (fun v rows hv hr _ => ?_) s hs ht
      rw [hrows] at hr
      injection hr with hr
      subst hr
      have hc : ([] : List StatsMetaRow).length = 0 ∨ results.StatsVer ≠ env.Version2 :=
        Or.inl rfl
      unfold saveStatsMetaRow
      rw [if_pos hc]
      simp only [hmv, if_true]
      exact emits_bind _ _ _
        (emits_of_quiet _ _ (quiet_exec _ _ _ (metaOnly_exec _ _ (Or.inr ⟨v, hv, rfl⟩))))
        (fun _ => emits_setStatsVer _ _)
    · exact saveTableStatsToStorage_issues env results analyzeSnapshot source v [] _
        hb hv hsel hrows hclose rfl (hrep v)

/-- Claim C18, on the example: the result for a multi-valued index only updates the
version of the row, and nothing is recorded. -/
theorem saveTableStatsToStorage_mv_index_witness :
    mvIndexResults.StatsVer = exampleEnv.Version2 ∧ mvIndexResults.ForMVIndex = true ∧
    Effect.exec (.UpdateStatsMetaVersion 100 7) ∈
      (SaveTableStatsToStorage exampleEnv mvIndexResults true "analyze").2 ∧
    ∀ t v src, Effect.recordHistoricalStatsMeta t v src ∉
      (SaveTableStatsToStorage exampleEnv mvIndexResults true "analyze").2 :=
  ⟨rfl, rfl,
    ((saveTableStatsToStorage_mv_index exampleEnv mvIndexResults true "analyze" rfl rfl).1
      { snapshot := 50, count := 10, modifyCount := 3 } [] rfl).2.2 100 rfl rfl rfl rfl,
    ((saveTableStatsToStorage_mv_index exampleEnv mvIndexResults true "analyze" rfl rfl).1
      { snapshot := 50, count := 10, modifyCount := 3 } [] rfl).2.1⟩

/-! ## The stats cache and the retry loops of its callers -/

/-- On the code there is no cache, written by others or not, for which
`updateStatsCache` returns false, against the comment above the function. -/
theorem updateStatsCache_never_false :
    ¬ ∃ (env : CacheEnv (List Nat) Nat Unit) (statsCache newCache : List Nat)
        (tables : List Nat) (deletedIDs : List Int),
      (updateStatsCache env statsCache newCache tables deletedIDs).1 = false := by
  rintro ⟨env, statsCache, newCache, tables, deletedIDs, h⟩
  cases h

theorem removeExtendedStatsItemLoop_calls {Cache Table Reader : Type}
    (env : CacheEnv Cache Table Reader) (tableID : Int) (statsName : String) (retry : Nat)
    (statsCache : Cache) (calls : Nat) (hr : 0 < retry) :
    (removeExtendedStatsItemLoop env tableID statsName retry statsCache calls).calls ≤
        calls + 1 ∧
      (removeExtendedStatsItemLoop env tableID statsName retry statsCache calls).gaveUp =
        false := by
  cases retry with
  | zero => exact absurd hr (lt_irrefl 0)
  | succ n =>
    unfold removeExtendedStatsItemLoop
    dsimp only
    split
    · exact ⟨Nat.le_succ _, rfl⟩
    · split
      · exact ⟨Nat.le_succ _, rfl⟩
      · simp [updateStatsCache]

theorem reloadExtendedStatisticsLoop_calls {Cache Table Reader : Type}
    (env : CacheEnv Cache Table Reader) (reader : Reader) (retry : Nat)
    (statsCache : Cache) (calls : Nat) (hr : 0 < retry) :
    (reloadExtendedStatisticsLoop env reader retry statsCache calls).2.calls ≤ calls + 1 ∧
      (∀ n, (reloadExtendedStatisticsLoop env reader retry statsCache calls).1 ≠
        some (.attempts n)) := by
  cases retry with
  | zero => exact absurd hr (lt_irrefl 0)
  | succ n =>
    unfold reloadExtendedStatisticsLoop
    dsimp only
    split
    · exact ⟨Nat.le_succ _, fun n h => by cases h⟩
    · simp [updateStatsCache]

theorem reloadExtendedStatisticsLoop_result {Cache Table Reader : Type}
    (env : CacheEnv Cache Table Reader) (reader : Reader) (retry : Nat)
    (statsCache : Cache) (calls : Nat) (hr : 0 < retry) :
    (reloadExtendedStatisticsLoop env reader retry statsCache calls).1 = none ∨
      ∃ e, (reloadExtendedStatisticsLoop env reader retry statsCache calls).1 =
        some (.storage e) := by
  cases retry with
  | zero => exact absurd hr (lt_irrefl 0)
  | succ n =>
    unfold reloadExtendedStatisticsLoop
    dsimp only
    split
    next e _ => exact Or.inr ⟨e, rfl⟩
    next => simp [updateStatsCache]

/-- Claim C21, evaluated on the code: `updateStatsCache` returns true for every value of
`h.statsCache` and every loaded cache, whatever other writers did in between.  So each
of the two retry loops calls it at most once, `removeExtendedStatsItem` never gives up,
and `ReloadExtendedStatistics` returns nil, the error of `getGlobalStatsReader` or an
error of `ExtendedStatsFromStorage`, and never the error "update stats cache failed for
5 attempts". -/
theorem updateStatsCache_always_true {Cache Table Reader : Type}
    (env : CacheEnv Cache Table Reader) (statsCache newCache : Cache) (tables : List Table)
    (deletedIDs : List Int) (tableID : Int) (statsName : String) :
    (updateStatsCache env statsCache newCache tables deletedIDs).1 = true ∧
    (removeExtendedStatsItem env statsCache tableID statsName).calls ≤ 1 ∧
    (removeExtendedStatsItem env statsCache tableID statsName).gaveUp = false ∧
    (ReloadExtendedStatistics env statsCache).2.calls ≤ 1 ∧
    (∀ n, (ReloadExtendedStatistics env statsCache).1 ≠ some (.attempts n)) ∧
    ((ReloadExtendedStatistics env statsCache).1 = none ∨
      (∃ e, env.getGlobalStatsReader = .error e ∧
        (ReloadExtendedStatistics env statsCache).1 = some (.reader e)) ∨
      ∃ e, (ReloadExtendedStatistics env statsCache).1 = some (.storage e)) := by
  refine ⟨rfl, ?_, ?_, ?_, ?_, ?_⟩
  · exact (removeExtendedStatsItemLoop_calls env tableID statsName updateStatsCacheRetryCnt
      statsCache 0 (by decide)).1
  · exact (removeExtendedStatsItemLoop_calls env tableID statsName updateStatsCacheRetryCnt
      statsCache 0 (by decide)).2
  · unfold ReloadExtendedStatistics
    split
    · exact Nat.zero_le _
    · exact (reloadExtendedStatisticsLoop_calls env _ updateStatsCacheRetryCnt
        statsCache 0 (by decide)).1
  · intro n
    unfold ReloadExtendedStatistics
    split
    · intro h
      cases h
    · exact (reloadExtendedStatisticsLoop_calls env _ updateStatsCacheRetryCnt
        statsCache 0 (by decide)).2 n
  · unfold ReloadExtendedStatistics
    split
    next e he => exact Or.inr (Or.inl ⟨e, he, rfl⟩)
    next reader _ =>
      rcases reloadExtendedStatisticsLoop_result env reader updateStatsCacheRetryCnt
        statsCache 0 (by decide) with h | h
      · exact Or.inl h
      · exact Or.inr (Or.inr h)

/-- Claim C21, on the example: the loaded cache is `[1]` and another writer has since
made the global cache `[9, 1]`; `updateStatsCache` still returns true, and
`ReloadExtendedStatistics` returns nil after one call of it. -/
theorem updateStatsCache_always_true_witness :
    (updateStatsCache exampleCacheEnv [9, 1] [1] [1] []).1 = true ∧
    (ReloadExtendedStatistics exampleCacheEnv [1]).1 = none ∧
    (ReloadExtendedStatistics exampleCacheEnv [1]).2.calls = 1 ∧
    (removeExtendedStatsItem exampleCacheEnv [1] 1 "s").calls = 1 :=
  ⟨(updateStatsCache_always_true exampleCacheEnv [9, 1] [1] [1] [] 1 "s").1, rfl, rfl, rfl⟩

/-! ## The usage of column statistics -/

theorem predicateColumnsLoop_eq (env : UsageEnv) (disableTime : Option Instant)
    (g : SqlTime → Instant) (rows : List PredicateRow) (columnIDs : List Int)
    (hgo : ∀ r ∈ rows, ∀ t, r.lastUsedAt = some t → env.GoTime t = .ok (g t)) :
    predicateColumnsLoop env disableTime rows columnIDs =
      .ok (columnIDs ++ rows.filterMap (predicateColumnRule disableTime g)) := by
  induction rows generalizing columnIDs with
  | nil => simp [predicateColumnsLoop]
  | cons row rest ih =>
    have hrest : ∀ r ∈ rest, ∀ t, r.lastUsedAt = some t → env.GoTime t = .ok (g t) :=
      fun r hr => hgo r (List.mem_cons_of_mem _ hr)
    obtain ⟨c, u⟩ := row
    cases c with
    | none =>
      simp [predicateColumnsLoop, predicateColumnRule, List.filterMap_cons, ih _ hrest]
    | some colID =>
      cases u with
      | none =>
        simp [predicateColumnsLoop, predicateColumnRule, List.filterMap_cons, ih _ hrest]
      | some t =>
        have ht := hgo ⟨some colID, some t⟩ (List.mem_cons_self _ _) t rfl
        cases disableTime with
        | none =>
          simp [predicateColumnsLoop, predicateColumnRule, List.filterMap_cons, ih _ hrest,
            ht, afterDisableTime]
        | some d =>
          by_cases hd : d < g t
          · simp [predicateColumnsLoop, predicateColumnRule, List.filterMap_cons,
              ih _ hrest, ht, afterDisableTime, hd]
          · simp [predicateColumnsLoop, predicateColumnRule, List.filterMap_cons,
              ih _ hrest, ht, afterDisableTime, hd]

theorem mem_filterMap_predicateColumnRule (disableTime : Option Instant)
    (g : SqlTime → Instant) (rows : List PredicateRow) (c : Int) :
    c ∈ rows.filterMap (predicateColumnRule disableTime g) ↔
      ∃ t, (⟨some c, some t⟩ : PredicateRow) ∈ rows ∧ ∀ d, disableTime = some d → d < g t := by
  rw [List.mem_filterMap]
  constructor
  · rintro ⟨⟨col, used⟩, hmem, hrule⟩
    cases col with
    | none => simp [predicateColumnRule] at hrule
    | some colID =>
      cases used with
      | none => simp [predicateColumnRule] at hrule
      | some t =>
        cases disableTime with
        | none =>
          simp only [predicateColumnRule, Option.some.injEq] at hrule
          subst hrule
          exact ⟨t, hmem, fun d h => by cases h⟩
        | some d =>
          simp only [predicateColumnRule] at hrule
          split at hrule
          next hlt =>
            simp only [Option.some.injEq] at hrule
            subst hrule
            refine ⟨t, hmem, fun d2 h => ?_⟩
            injection h with h
            subst h
            exact hlt
          next => cases hrule
  · rintro ⟨t, hmem, hafter⟩
    refine ⟨⟨some c, some t⟩, hmem, ?_⟩
    cases disableTime with
    | none => simp [predicateColumnRule]
    | some d => simp [predicateColumnRule, hafter d rfl]

theorem columnStatsUsageLoop_eq (env : UsageEnv) (disableTime : Option Instant)
    (g : SqlTime → Instant) (rows : List UsageRow) (colStatsMap : ColStatsMap)
    (hgo : ∀ r ∈ rows, ∀ t, r.lastUsedAt = some t ∨ r.lastAnalyzedAt = some t →
      env.GoTime t = .ok (g t)) :
    columnStatsUsageLoop env disableTime rows colStatsMap =
      .ok (rows.foldl (usageRule disableTime g env.timeIn) colStatsMap) := by
  induction rows generalizing colStatsMap with
  | nil => simp [columnStatsUsageLoop]
  | cons row rest ih =>
    have hrest : ∀ r ∈ rest, ∀ t, r.lastUsedAt = some t ∨ r.lastAnalyzedAt = some t →
        env.GoTime t = .ok (g t) :=
      fun r hr => hgo r (List.mem_cons_of_mem _ hr)
    have hrow := hgo row (List.mem_cons_self _ _)
    obtain ⟨tid, cid, used, analyzed⟩ := row
    cases tid with
    | none => simp [columnStatsUsageLoop, usageRule, ih _ hrest]
    | some tableID =>
      cases cid with
      | none => simp [columnStatsUsageLoop, usageRule, ih _ hrest]
      | some columnID =>
        have hused : usageLastUsedAt env disableTime ⟨some tableID, some columnID, used, analyzed⟩ =
            .ok (used.bind (lastUsedAtRule disableTime g env.timeIn)) := by
          cases used with
          | none => simp [usageLastUsedAt]
          | some t =>
            have ht := hrow t (Or.inl rfl)
            cases hdt : disableTime with
            | none => simp [usageLastUsedAt, ht, afterDisableTime, lastUsedAtRule]
            | some d =>
              by_cases hd : d < g t
              · simp [usageLastUsedAt, ht, afterDisableTime, lastUsedAtRule, hd]
              · simp [usageLastUsedAt, ht, afterDisableTime, lastUsedAtRule, hd]
        have hanalyzed : usageLastAnalyzedAt env ⟨some tableID, some columnID, used, analyzed⟩ =
            .ok (analyzed.map (fun t => env.timeIn (g t))) := by
          cases analyzed with
          | none => simp [usageLastAnalyzedAt]
          | some t =>
            have ht := hrow t (Or.inr rfl)
            simp [usageLastAnalyzedAt, ht]
        rw [List.foldl_cons, ← ih _ hrest]
        conv_lhs => unfold columnStatsUsageLoop
        simp only [hused, hanalyzed]
        rfl

theorem foldl_usageRule_other (disableTime : Option Instant) (g : SqlTime → Instant)
    (timeIn : Instant → SqlTime) (rows : List UsageRow) (colStatsMap : ColStatsMap)
    (tableID columnID : Int)
    (h : ∀ q ∈ rows, ¬ (q.tableID = some tableID ∧ q.columnID = some columnID)) :
    rows.foldl (usageRule disableTime g timeIn) colStatsMap
        { TableID := tableID, ID := columnID, IsIndex := false } =
      colStatsMap { TableID := tableID, ID := columnID, IsIndex := false } := by
  induction rows generalizing colStatsMap with
  | nil => rfl
  | cons row rest ih =>
    rw [List.foldl_cons, ih _ (fun q hq => h q (List.mem_cons_of_mem _ hq))]
    have hrow := h row (List.mem_cons_self _ _)
    obtain ⟨tid, cid, used, analyzed⟩ := row
    cases tid with
    | none => rfl
    | some t2 =>
      cases cid with
      | none => rfl
      | some c2 =>
        simp only [usageRule]
        apply Function.update_noteq
        intro hk
        injection hk with h1 h2 _
        exact hrow ⟨by rw [h1], by rw [h2]⟩

/-- Claim C22. When the disable time is read without error as `disableTime`, the selects
succeed and the times of the rows convert (the instant of `t` is `g t`):
`GetPredicateColumns` returns, in row order, the columns of the rows without a NULL whose
`last_used_at` is after the disable time, or of all such rows when no disable time is
recorded, so a column is in the result exactly when one of its rows passes that test (a
time before the disable time, or equal to it, does not); and `LoadColumnStatsUsage`
stores for a key the entry of its last row, with `LastUsedAt` under the same rule and
`LastAnalyzedAt` kept whenever it is not NULL. -/
theorem getPredicateColumns_rule (env : UsageEnv) (tableID : Int)
    (disableTime : Option Instant) (rows : List PredicateRow) (usage : List UsageRow)
    (g : SqlTime → Instant)
    (hd : getDisableColumnTrackingTime env = .ok disableTime)
    (hr : env.predicateRows tableID = .ok rows)
    (hu : env.usageRows = .ok usage)
    (hgo : ∀ r ∈ rows, ∀ t, r.lastUsedAt = some t → env.GoTime t = .ok (g t))
    (hgo2 : ∀ r ∈ usage, ∀ t, r.lastUsedAt = some t ∨ r.lastAnalyzedAt = some t →
      env.GoTime t = .ok (g t)) :
    GetPredicateColumns env tableID =
      .ok (rows.filterMap (predicateColumnRule disableTime g)) ∧
    (∀ c : Int, c ∈ rows.filterMap (predicateColumnRule disableTime g) ↔
      ∃ t, (⟨some c, some t⟩ : PredicateRow) ∈ rows ∧
        ∀ d, disableTime = some d → d < g t) ∧
    LoadColumnStatsUsage env =
      .ok (usage.foldl (usageRule disableTime g env.timeIn) (fun _ => none)) ∧
    (∀ (pre post : List UsageRow) (r : UsageRow) (tid cid : Int),
      usage = pre ++ r :: post → r.tableID = some tid → r.columnID = some cid →
      (∀ q ∈ post, ¬ (q.tableID = some tid ∧ q.columnID = some cid)) →
      usage.foldl (usageRule disableTime g env.timeIn) (fun _ => none)
          { TableID := tid, ID := cid, IsIndex := false } =
        some
          { LastUsedAt := r.lastUsedAt.bind (lastUsedAtRule disableTime g env.timeIn),
            LastAnalyzedAt := r.lastAnalyzedAt.map (fun t => env.timeIn (g t)) }) := by
  refine ⟨?_, mem_filterMap_predicateColumnRule disableTime g rows, ?_, ?_⟩
  · unfold GetPredicateColumns
    rw [hd, hr]
    simp only
    rw [predicateColumnsLoop_eq env disableTime g rows [] hgo]
    rfl
  · unfold LoadColumnStatsUsage
    rw [hd, hu]
    simp only
    exact columnStatsUsageLoop_eq env disableTime g usage _ hgo2
  · intro pre post r tid cid hsplit htid hcid hpost
    rw [hsplit, List.foldl_append, List.foldl_cons,
      foldl_usageRule_other disableTime g env.timeIn post _ tid cid hpost]
    obtain ⟨t0, c0, used, analyzed⟩ := r
    simp only at htid hcid
    subst htid
    subst hcid
    simp only [usageRule, Function.update_same]

/-- Claim C22, on the example (disable time 3): of the columns 1 (used at 2), 2 (used at
4) and 4 (used at 3) only column 2 is a predicate column, and the usage of column 1 of
table 7 keeps `LastAnalyzedAt` and drops `LastUsedAt`. -/
theorem getPredicateColumns_rule_witness :
    getDisableColumnTrackingTime exampleUsageEnv = .ok (some 3) ∧
    GetPredicateColumns exampleUsageEnv 7 = .ok [2] ∧
    (LoadColumnStatsUsage exampleUsageEnv).toOption.bind
        (fun m => m { TableID := 7, ID := 1, IsIndex := false }) =
      some { LastUsedAt := none, LastAnalyzedAt := some "1" } :=
  ⟨rfl,
    (getPredicateColumns_rule exampleUsageEnv 7 (some 3)
      [⟨some 1, some "aa"⟩, ⟨some 2, some "aaaa"⟩, ⟨none, some "aaaa"⟩, ⟨some 4, some "aaa"⟩]
      [⟨some 7, some 1, some "aa", some "a"⟩, ⟨some 7, some 2, some "aaaa", none⟩]
      (fun t => (t.length : Int)) rfl rfl rfl (fun _ _ _ _ => rfl) (fun _ _ _ _ => rfl)).1,
    by
      rw [(getPredicateColumns_rule exampleUsageEnv 7 (some 3)
        [⟨some 1, some "aa"⟩, ⟨some 2, some "aaaa"⟩, ⟨none, some "aaaa"⟩, ⟨some 4, some "aaa"⟩]
        [⟨some 7, some 1, some "aa", some "a"⟩, ⟨some 7, some 2, some "aaaa", none⟩]
        (fun t => (t.length : Int)) rfl rfl rfl (fun _ _ _ _ => rfl)
        (fun _ _ _ _ => rfl)).2.2.1]
      decide⟩

/-! ## The lower bound of the versions `Update` reads -/

/-- Claim C23. With `offset = DurationToTS(3 * lease)` and a cached version `v` (a
`uint64`), the lower bound of `Handle.Update` is the exact difference `v - offset` when
`v >= offset` and 0 otherwise; it is never greater than `v`. -/
theorem updateLastVersion_bound (ComposeTS : Int → Int → Nat) (lease : Int) (version : Nat)
    (hv : version < 2 ^ 64) :
    (DurationToTS ComposeTS (wrapInt64 (3 * lease)) ≤ version →
      (updateLastVersion ComposeTS lease version : Int) =
        (version : Int) - (DurationToTS ComposeTS (wrapInt64 (3 * lease)) : Int)) ∧
    (version < DurationToTS ComposeTS (wrapInt64 (3 * lease)) →
      updateLastVersion ComposeTS lease version = 0) ∧
    updateLastVersion ComposeTS lease version ≤ version := by
  have key : DurationToTS ComposeTS (wrapInt64 (3 * lease)) ≤ version →
      updateLastVersion ComposeTS lease version =
        version - DurationToTS ComposeTS (wrapInt64 (3 * lease)) := by
    intro h
    unfold updateLastVersion
    simp only [ge_iff_le, h, if_true]
    have h1 : version + 2 ^ 64 - DurationToTS ComposeTS (wrapInt64 (3 * lease)) =
        (version - DurationToTS ComposeTS (wrapInt64 (3 * lease))) + 2 ^ 64 := by omega
    rw [h1, Nat.add_mod_right]
    exact Nat.mod_eq_of_lt (by omega)
  refine ⟨fun h => ?_, fun h => ?_, ?_⟩
  · rw [key h]
    omega
  · unfold updateLastVersion
    simp only [ge_iff_le, not_le.2 h, if_false]
  · by_cases h : DurationToTS ComposeTS (wrapInt64 (3 * lease)) ≤ version
    · rw [key h]
      omega
    · unfold updateLastVersion
      simp only [ge_iff_le, h, if_false]
      omega

/-- Claim C23, on an example: a lease of 3 seconds gives the offset `9000 * 2^18`, and
the version `10000 * 2^18` gives the bound `1000 * 2^18`. -/
theorem updateLastVersion_bound_witness :
    (10000 * 2 ^ 18 < 2 ^ 64) ∧
    DurationToTS exampleComposeTS (wrapInt64 (3 * 3000000000)) = 9000 * 2 ^ 18 ∧
    updateLastVersion exampleComposeTS 3000000000 (10000 * 2 ^ 18) = 1000 * 2 ^ 18 ∧
    updateLastVersion exampleComposeTS 3000000000 (10000 * 2 ^ 18) ≤ 10000 * 2 ^ 18 :=
  ⟨by decide, by decide, by decide,
    (updateLastVersion_bound exampleComposeTS 3000000000 (10000 * 2 ^ 18) (by decide)).2.2⟩

/-! ## The counts written to `mysql.stats_meta` -/

theorem wrapInt64_of_inInt64 (x : Int) (h : inInt64 x) : wrapInt64 x = x := by
  unfold inInt64 at h
  unfold wrapInt64
  have h1 : (x + 2 ^ 63) % 2 ^ 64 = x + 2 ^ 63 :=
    Int.emod_eq_of_lt (by omega) (by omega)
  rw [h1]
  omega

theorem newModifyCnt_nonneg (results : AnalyzeResults) (rows : List StatsMetaRow) :
    0 ≤ newModifyCnt results rows := by
  unfold newModifyCnt
  dsimp only
  split
  · exact le_refl 0
  · omega

theorem newCnt_nonneg (results : AnalyzeResults) (analyzeSnapshot : Bool)
    (rows : List StatsMetaRow) : 0 ≤ newCnt results analyzeSnapshot rows := by
  unfold newCnt
  split
  · dsimp only
    split
    · exact le_refl 0
    · omega
  · dsimp only
    split
    · exact le_refl 0
    · omega

theorem mem_saveStatsMetaRow_update (env : Env) (results : AnalyzeResults)
    (analyzeSnapshot : Bool) (version : Nat) (tableID : Int) (rows : List StatsMetaRow)
    (h : ¬ (rows.length = 0 ∨ results.StatsVer ≠ env.Version2))
    (hmv : results.ForMVIndex = false) (st : ExecState) :
    Effect.exec (.UpdateStatsMeta version (newModifyCnt results rows)
        (newCnt results analyzeSnapshot rows) results.Snapshot tableID) ∈
      (saveStatsMetaRow env results analyzeSnapshot version tableID rows st).2.effects := by
  unfold saveStatsMetaRow
  rw [if_neg h]
  simp only [hmv, Bool.false_eq_true, if_false]
  exact mem_effects_bind (fun _ => True) _ _ _ _ (mem_effects_exec _ _ _)
    (fun _ => emits_setStatsVer _ _)

theorem emits_saveStatsMetaRow_update (allowed : Stmt → Prop) (env : Env)
    (results : AnalyzeResults) (analyzeSnapshot : Bool) (version : Nat) (tableID : Int)
    (rows : List StatsMetaRow)
    (h : ¬ (rows.length = 0 ∨ results.StatsVer ≠ env.Version2))
    (hmv : results.ForMVIndex = false)
    (ha : allowed (.UpdateStatsMeta version (newModifyCnt results rows)
        (newCnt results analyzeSnapshot rows) results.Snapshot tableID)) :
    Exec.Emits (Effect.MetaOnly allowed)
      (saveStatsMetaRow env results analyzeSnapshot version tableID rows) := by
  unfold saveStatsMetaRow
  rw [if_neg h]
  simp only [hmv, Bool.false_eq_true, if_false]
  exact emits_bind _ _ _
    (emits_of_quiet _ _ (quiet_exec _ _ _ (metaOnly_exec _ _ ha)))
    (fun _ => emits_setStatsVer _ _)

/-- Claim C24. For a version 2 result that is not for a multi-valued index, on a table
whose row in `mysql.stats_meta` has an older snapshot, the only write of
`SaveTableStatsToStorage` to `mysql.stats_meta` is the update of the row with the new
modify count and count, and it is issued once the calls before it succeed.  Neither
written value is negative.  Where the `int64` operations do not overflow, the modify
count is `max(m - BaseModifyCnt, 0)` and the count is `max(c + Count - BaseCount, 0)` when
`analyzeSnapshot` is true; the count is `max(Count, 0)` when it is false. -/
theorem saveTableStatsToStorage_counts (env : Env) (results : AnalyzeResults)
    (analyzeSnapshot : Bool) (source : String) (row : StatsMetaRow) (rest : List StatsMetaRow)
    (hrows : env.statsMetaRows = .ok (row :: rest))
    (hv2 : results.StatsVer = env.Version2) (hmv : results.ForMVIndex = false)
    (hsnap : row.snapshot < results.Snapshot) :
    (∀ s : Stmt, Effect.exec s ∈ (SaveTableStatsToStorage env results analyzeSnapshot source).2 →
      s.table = some .stats_meta →
      s = .SelectStatsMetaForUpdate results.StatisticsID ∨
      ∃ v, env.txnStartTS = .ok v ∧
        s = .UpdateStatsMeta v (newModifyCnt results (row :: rest))
          (newCnt results analyzeSnapshot (row :: rest)) results.Snapshot
          results.StatisticsID) ∧
    (∀ v : Nat, env.execErr [] .BeginPessimistic = none → env.txnStartTS = .ok v →
      env.execErr [.exec .BeginPessimistic]
        (.SelectStatsMetaForUpdate results.StatisticsID) = none →
      env.closeErr = none →
      Effect.exec (.UpdateStatsMeta v (newModifyCnt results (row :: rest))
          (newCnt results analyzeSnapshot (row :: rest)) results.Snapshot
          results.StatisticsID) ∈
        (SaveTableStatsToStorage env results analyzeSnapshot source).2) ∧
    0 ≤ newModifyCnt results (row :: rest) ∧
    0 ≤ newCnt results analyzeSnapshot (row :: rest) ∧
    (inInt64 (row.modifyCount - results.BaseModifyCnt) →
      newModifyCnt results (row :: rest) = max (row.modifyCount - results.BaseModifyCnt) 0) ∧
    (analyzeSnapshot = true → row.count < 2 ^ 63 →
      inInt64 ((row.count : Int) + results.Count) →
      inInt64 ((row.count : Int) + results.Count - results.BaseCount) →
      newCnt results analyzeSnapshot (row :: rest) =
        max ((row.count : Int) + results.Count - results.BaseCount) 0) ∧
    (analyzeSnapshot = false →
      newCnt results analyzeSnapshot (row :: rest) = max results.Count 0) := by
  have hbranch : ¬ ((row :: rest).length = 0 ∨ results.StatsVer ≠ env.Version2) := by
    intro hc
    rcases hc with hc | hc
    · simp at hc
    · exact hc hv2
  have hstale : isStale env results (row :: rest) = false := by
    simp [isStale, hsnap]
  refine ⟨fun s hs ht => ?_, fun v hb hv hsel hclose => ?_, newModifyCnt_nonneg _ _,
    newCnt_nonneg _ _ _, fun hm => ?_, fun ha hc h1 h2 => ?_, fun ha => ?_⟩
  · refine saveTableStatsToStorage_meta_only
      (fun s => s = .SelectStatsMetaForUpdate results.StatisticsID ∨
        ∃ v, env.txnStartTS = .ok v ∧
          s = .UpdateStatsMeta v (newModifyCnt results (row :: rest))
            (newCnt results analyzeSnapshot (row :: rest)) results.Snapshot
            results.StatisticsID)
      env results analyzeSnapshot source (Or.inl rfl) (fun v rows hv hr _ => ?_) s hs ht
    rw [hrows] at hr
    injection hr with hr
    subst hr
    exact emits_saveStatsMetaRow_update _ _ _ _ _ _ _ hbranch hmv (Or.inr ⟨v, hv, rfl⟩)
  · exact saveTableStatsToStorage_issues env results analyzeSnapshot source v (row :: rest) _
      hb hv hsel hrows hclose hstale
      (fun st => mem_saveStatsMetaRow_update _ _ _ _ _ _ hbranch hmv st)
  · unfold newModifyCnt curModifyCnt
    dsimp only
    rw [wrapInt64_of_inInt64 _ hm]
    split
    · rw [max_eq_right (by omega)]
    · rw [max_eq_left (by omega)]
  · have hcur : curCnt (row :: rest) = (row.count : Int) := by
      unfold curCnt
      dsimp only
      exact wrapInt64_of_inInt64 _ ⟨by omega, by omega⟩
    unfold newCnt
    rw [hcur, ha]
    simp only [if_true]
    rw [wrapInt64_of_inInt64 _ h1, wrapInt64_of_inInt64 _ h2]
    split
    · rw [max_eq_right (by omega)]
    · rw [max_eq_left (by omega)]
  · unfold newCnt
    rw [ha]
    simp only [Bool.false_eq_true, if_false]
    split
    · rw [max_eq_right (by omega)]
    · rw [max_eq_left (by omega)]

/-- Claim C24, on the example: with the row (snapshot 50, count 10, modify count 3) and
the result (count 20, base count 10, base modify count 1, snapshot 60) the update writes
the modify count 2 and the count 20. -/
theorem saveTableStatsToStorage_counts_witness :
    exampleEnv.statsMetaRows = .ok [{ snapshot := 50, count := 10, modifyCount := 3 }] ∧
    normalResults.StatsVer = exampleEnv.Version2 ∧ normalResults.ForMVIndex = false ∧
    50 < normalResults.Snapshot ∧
    Effect.exec (.UpdateStatsMeta 100 2 20 60 7) ∈
      (SaveTableStatsToStorage exampleEnv normalResults true "analyze").2 :=
  ⟨rfl, rfl, rfl, by decide,
    (saveTableStatsToStorage_counts exampleEnv normalResults true "analyze"
      { snapshot := 50, count := 10, modifyCount := 3 } [] rfl rfl rfl (by decide)).2.1
      100 rfl rfl rfl rfl⟩

end StatsHandle
